import Mathlib

/-! DocuMindAI: conversational memory, retrieval-augmented query handler, ingestion worker

A shallow embedding of the server side of the repository:

* `Server/memory/valkeyMemory.js`  (class `ValkeyMemory`)
* `Server/routes/queryInfo.js`     (the `GET /api/info` handler)
* `Server/worker/worker.js`        (the BullMQ processor of the `upload-queue`)
* `Server/routes/upload.js`        (the upload, list and delete routes)

External services (Valkey, Qdrant, the language model, the PDF loader, the text
splitter, the HTTP client, the object storage, the queue) are not part of the repository; each appears as an
explicit state component or as a field of an environment record that fixes what
the service answers.  Definitions come first, theorems follow.
-/

namespace DocuMind

/-! ## Conversational memory (`Server/memory/valkeyMemory.js`) -/

/-- One question/answer pair, the object `{ user: userInput, bot: botResponse }`
pushed by `addToHistory`. -/
structure Turn where
  user : String
  bot : String
deriving DecidableEq, Repr

/-- A value held by the Valkey server under one key: the history that
`JSON.stringify` wrote (`JSON.parse` of that text gives the same array of turns
back, so the array itself is kept) and the expiry in seconds given with `"EX"`. -/
structure Entry where
  value : List Turn
  ex : Nat
deriving DecidableEq, Repr

/-- The key space of the Valkey server: `none` is an absent key (`redis.get`
answers `null`). -/
abbrev Store := String → Option Entry

/-- The store in which no key is set. -/
def Store.empty : Store := fun _ => none

/-- Command `SET key value EX seconds`. -/
def Store.set (s : Store) (key : String) (value : List Turn) (ex : Nat) : Store :=
  fun k => if k = key then some ⟨value, ex⟩ else s k

/-- Command `DEL key`. -/
def Store.del (s : Store) (key : String) : Store :=
  fun k => if k = key then none else s k

/-- The object built by `new ValkeyMemory(redis, userId)`; the `redis` client is
the `Store` passed to each method. -/
structure ValkeyMemory where
  key : String
  maxHistoryLength : Nat
deriving DecidableEq, Repr

/-- The constructor: `this.key = "chat_history:" + userId`,
`this.maxHistoryLength = 15`. -/
def ValkeyMemory.create (userId : String) : ValkeyMemory :=
  { key := "chat_history:" ++ userId, maxHistoryLength := 15 }

/-- Method `getHistory`: `data ? JSON.parse(data) : []`. -/
def ValkeyMemory.getHistory (m : ValkeyMemory) (s : Store) : List Turn :=
  match s m.key with
  | some data => data.value
  | none => []

/-- The local computation of `addToHistory` between its read and its write:
`history.push(turn)` and, when the length exceeds `maxHistoryLength`,
`history.slice(history.length - maxHistoryLength)`. -/
def ValkeyMemory.pushAndTrim (m : ValkeyMemory) (history : List Turn) (userInput botResponse : String) :
    List Turn :=
  let history := history ++ [{ user := userInput, bot := botResponse }]
  if history.length > m.maxHistoryLength then
    history.drop (history.length - m.maxHistoryLength)
  else
    history

/-- Method `addToHistory` run without interruption: read, push, trim, then
`redis.set(key, JSON.stringify(history), "EX", 86400)`. -/
def ValkeyMemory.addToHistory (m : ValkeyMemory) (s : Store) (userInput botResponse : String) : Store :=
  let history := m.getHistory s
  let history := m.pushAndTrim history userInput botResponse
  s.set m.key history 86400

/-- Method `clear`: `redis.del(key)`. -/
def ValkeyMemory.clear (m : ValkeyMemory) (s : Store) : Store :=
  s.del m.key

/-- A run of `addToHistory` calls made one after another, each awaited before
the next starts. -/
def ValkeyMemory.addAll (m : ValkeyMemory) (s : Store) (turns : List Turn) : Store :=
  turns.foldl (fun acc t => m.addToHistory acc t.user t.bot) s

/-! ### `addToHistory` as the two store commands it issues

Between `await this.getHistory()` and `await this.redis.set(...)` the event loop
may run another request, so a call in flight is a small state machine whose
steps are the two commands. -/

/-- Where a call of `addToHistory` stands: not started, suspended after the
`GET` with the history it read, or finished. -/
inductive AddPhase where
  | start
  | read (history : List Turn)
  | done
deriving DecidableEq, Repr

/-- A call `memory.addToHistory(userInput, botResponse)` in flight. -/
structure AddCall where
  memory : ValkeyMemory
  userInput : String
  botResponse : String
  phase : AddPhase
deriving DecidableEq, Repr

/-- One atomic step of a call: the `GET` (which leaves the store as it is), or the
local push and trim followed by the `SET`. A finished call does nothing. -/
def AddCall.step (c : AddCall) (s : Store) : AddCall × Store :=
  match c.phase with
  | .start => ({ c with phase := .read (c.memory.getHistory s) }, s)
  | .read history =>
      ({ c with phase := .done },
        s.set c.memory.key (c.memory.pushAndTrim history c.userInput c.botResponse) 86400)
  | .done => (c, s)

/-- Two calls and the store they share. -/
structure Pair where
  first : AddCall
  second : AddCall
  store : Store

/-- A schedule names, step by step, which of the two calls runs next
(`false`: the first, `true`: the second). -/
def Pair.run (p : Pair) : List Bool → Pair
  | [] => p
  | false :: rest =>
      let r := p.first.step p.store
      Pair.run { p with first := r.1, store := r.2 } rest
  | true :: rest =>
      let r := p.second.step p.store
      Pair.run { p with second := r.1, store := r.2 } rest

/-- Two fresh calls on the same user over a store. -/
def Pair.init (userId : String) (s : Store) (u1 b1 u2 b2 : String) : Pair :=
  { first := { memory := ValkeyMemory.create userId, userInput := u1, botResponse := b1, phase := .start }
    second := { memory := ValkeyMemory.create userId, userInput := u2, botResponse := b2, phase := .start }
    store := s }

/-! ## Chunks of the vector index -/

/-- The `metadata` object of a chunk: the keys the worker writes (`_id`, `userId`,
`filename`, `uploadDate`, `source`) and the page number that the PDF loader
leaves under `loc`. A key that is not set is `none`. -/
structure Metadata where
  _id : Option String
  userId : Option String
  filename : Option String
  uploadDate : Option String
  source : Option String
  pageNumber : Option Nat
deriving DecidableEq, Repr

/-- The metadata object `{}`. -/
def Metadata.empty : Metadata :=
  { _id := none, userId := none, filename := none, uploadDate := none, source := none,
    pageNumber := none }

/-- A document of the vector store (`Document` of langchain): its text and its
metadata; `metadata` is `none` when a search result carries none. -/
structure Doc where
  pageContent : String
  metadata : Option Metadata
deriving DecidableEq, Repr

/-! ## Retrieval-augmented query (`Server/routes/queryInfo.js`) -/

/-- The filter object of the handler,
`{ must: [ { key: "userId", match: { value: userId } } ] }`. -/
structure Filter where
  key : String
  value : String
deriving DecidableEq, Repr

/-- What the vector store answers during one request: `similaritySearch n query k
filter` is the outcome of the call `vectorStore.similaritySearch(query, k, filter)`
when it is the `n`-th search of the request (counted from 0); `.error` is a raised
error. The store is an external service, so any function is a possible behaviour. -/
structure VectorStore where
  similaritySearch : Nat → String → Nat → Option Filter → Except String (List Doc)

/-- The client-side ownership test `doc.metadata && doc.metadata.userId === userId`. -/
def ownedBy (userId : String) (doc : Doc) : Bool :=
  match doc.metadata with
  | some md => decide (md.userId = some userId)
  | none => false

/-- The retrieval block of the handler (the `try`/`catch` around the searches).
An error of the search in the `catch` is not caught there and leaves the block. -/
def retrieve (vs : VectorStore) (userQuery userId : String) : Except String (List Doc) :=
  let filter : Filter := { key := "userId", value := userId }
  match vs.similaritySearch 0 userQuery 5 (some filter) with
  | .ok results =>
      if results.length = 0 then
        match vs.similaritySearch 1 userQuery 10 none with
        | .ok unfiltered =>
            if unfiltered.length > 0 then
              .ok (unfiltered.filter (ownedBy userId))
            else
              .ok results
        | .error _ =>
            match vs.similaritySearch 2 userQuery 10 none with
            | .ok unfiltered => .ok (unfiltered.filter (ownedBy userId))
            | .error e => .error e
      else
        .ok results
  | .error _ =>
      match vs.similaritySearch 1 userQuery 10 none with
      | .ok unfiltered => .ok (unfiltered.filter (ownedBy userId))
      | .error e => .error e

/-- The path taken by the retrieval block: the filtered search gave a non-empty
result, or it gave none and the fallback ran, or it raised and the `catch` ran. -/
inductive Stage where
  | filtered
  | emptyFallback
  | errorFallback
deriving DecidableEq, Repr

/-- Which path `retrieve` takes for a given behaviour of the store. -/
def stageOf (vs : VectorStore) (userQuery userId : String) : Stage :=
  match vs.similaritySearch 0 userQuery 5 (some { key := "userId", value := userId }) with
  | .ok results => if results.length = 0 then .emptyFallback else .filtered
  | .error _ => .errorFallback

/-- The expression `chatHistory.map(m => "User: " + m.user + "\nAssistant: " + m.bot).join("\n")`. -/
def historyText (chatHistory : List Turn) : String :=
  "\n".intercalate (chatHistory.map fun m => "User: " ++ m.user ++ "\nAssistant: " ++ m.bot)

/-- The template literal `SYSTEM_PROMPT`, with `context` the text
`JSON.stringify(results)`. -/
def systemPrompt (context history userQuery : String) : String :=
  "\n    You are a helpful and intelligent assistant that answers user questions based on the context provided from a PDF document, along with their previous conversation history.\n    \n    Instructions:\n    - Answer based strictly on the PDF content and prior conversation context.\n    - If the user\x27s question is related to the PDF, respond accurately and helpfully.\n    - If the user asks for a little more detail, elaborate just enough to give a clearer explanation, but stay concise and on-topic.\n    - If a question can\x27t be answered from the PDF or previous chat history, politely inform the user.\n    - Use chat history to maintain context across multiple questions and provide continuity in responses.\n    - If the user greets you (e.g., \"Hi\", \"Hello\"), respond politely and maintain a friendly, professional tone.\n    \n    PDF Context:\n    "
    ++ context ++ "\n    \n    Chat History:\n    " ++ history
    ++ "\n    \n    Current User Question:\n    " ++ userQuery ++ "\n    "

/-- The expression `responseText.replace(/\n/g, "<br/>")`: every line feed becomes
the five characters `<br/>`. -/
def replaceNewlines (responseText : String) : String :=
  String.mk (responseText.data.flatMap fun c => if c = '\n' then "<br/>".data else [c])

/-- The query string of a request: `req.query.q` and `req.query.userId`, `none`
when the parameter is absent. -/
structure QueryRequest where
  q : Option String
  userId : Option String
deriving DecidableEq, Repr

/-- The services a request talks to, apart from the Valkey store that is passed
as state: `memoryReadError` is the error raised by `memory.getHistory()` if it
raises, `connectError` the one raised by `QdrantVectorStore.fromExistingCollection`,
`stringify` is `JSON.stringify` on the results, `generateContent prompt` is the
outcome of the model call followed by `geminiResponse?.response.text()` (`.ok none`
when that expression is `undefined`), and `memoryWriteError` is the error raised by
`memory.addToHistory(...)` if it raises (the `SET` is then not applied). -/
structure QueryEnv where
  memoryReadError : Option String
  connectError : Option String
  vectorStore : VectorStore
  stringify : List Doc → String
  generateContent : String → Except String (Option String)
  memoryWriteError : Option String

/-- The JSON body of a response of the query route. -/
inductive Body where
  | error (error : String)
  | answer (answer : String) (sources : List Doc)
deriving DecidableEq, Repr

/-- A response: `res.status(status).json(body)`. -/
structure Response where
  status : Nat
  body : Body
deriving DecidableEq, Repr

/-- The response of the first `return`: a parameter is missing. -/
def missingParameter : Response :=
  { status := 400, body := .error "Missing \x27q\x27 or \x27userId\x27 query parameter" }

/-- The response of the outer `catch`. -/
def internalServerError : Response :=
  { status := 500, body := .error "Internal server error" }

/-- The handler `router.get("/", ...)`: the response and the Valkey store after the
request. A parameter is missing when it is absent or the empty string (`!x`). -/
def queryHandler (env : QueryEnv) (store : Store) (req : QueryRequest) : Response × Store :=
  match req.q, req.userId with
  | some userQuery, some userId =>
      if userQuery = "" ∨ userId = "" then
        (missingParameter, store)
      else
        let memory := ValkeyMemory.create userId
        match env.memoryReadError with
        | some _ => (internalServerError, store)
        | none =>
            let chatHistory := memory.getHistory store
            match env.connectError with
            | some _ => (internalServerError, store)
            | none =>
                match retrieve env.vectorStore userQuery userId with
                | .error _ => (internalServerError, store)
                | .ok results =>
                    match env.generateContent
                        (systemPrompt (env.stringify results) (historyText chatHistory) userQuery) with
                    | .error _ => (internalServerError, store)
                    | .ok none => (internalServerError, store)
                    | .ok (some responseText) =>
                        let formattedAnswer := replaceNewlines responseText
                        match env.memoryWriteError with
                        | some _ => (internalServerError, store)
                        | none =>
                            ({ status := 200, body := .answer formattedAnswer results },
                              memory.addToHistory store userQuery responseText)
  | _, _ => (missingParameter, store)

/-- The `sources` of a response; a response without an answer has none. -/
def Response.sources (r : Response) : List Doc :=
  match r.body with
  | .answer _ sources => sources
  | .error _ => []

/-! ### Concrete behaviours of the services, used at concrete inputs -/

/-- A chunk with the given text and owner, and nothing else set. -/
def chunkOf (text owner : String) : Doc :=
  { pageContent := text, metadata := some { Metadata.empty with userId := some owner } }

/-- A store whose every search, filtered or not, answers with one chunk that
belongs to the user `bob` (none when the limit is 0). -/
def foreignStore : VectorStore :=
  { similaritySearch := fun _ _ k _ => .ok ([chunkOf "salary table" "bob"].take k) }

/-- A store whose filtered search raises and whose unfiltered search answers
with six chunks of the user `alice` (six is within the limit 10 of that search). -/
def outageStore : VectorStore :=
  { similaritySearch := fun _ _ k filter =>
      match filter with
      | some _ => .error "filter index unavailable"
      | none => .ok (((List.range 6).map fun i => chunkOf (toString i) "alice").take k) }

/-- An environment in which every service other than the given vector store
works and the model answers every prompt with `reply`. -/
def workingEnv (vs : VectorStore) (reply : String) : QueryEnv :=
  { memoryReadError := none
    connectError := none
    vectorStore := vs
    stringify := fun docs => toString (docs.map fun d => d.pageContent)
    generateContent := fun _ => .ok (some reply)
    memoryWriteError := none }

/-- A store that honours the filter and the limit: the filtered search answers
with one chunk of the requesting user, the unfiltered one with a chunk of each of
two users, both cut to the limit `k`. -/
def honestStore : VectorStore :=
  { similaritySearch := fun _ _ k filter =>
      match filter with
      | some f => .ok ([chunkOf "notes" f.value].take k)
      | none => .ok ([chunkOf "notes" "alice", chunkOf "salary table" "bob"].take k) }

/-! ## Ingestion worker (`Server/worker/worker.js`) -/

/-- The content of a file. -/
abbrev Bytes := List Nat

/-- A document returned by `loader.load()`: the text of one page of the PDF and
the page number the loader records in its metadata. -/
structure Page where
  pageContent : String
  pageNumber : Nat
deriving DecidableEq, Repr

/-- The object `JSON.parse(job.data)`, with the keys the worker reads: `path`,
`userId` and `originalname`. -/
structure JobData where
  path : String
  userId : Option String
  originalname : Option String
deriving DecidableEq, Repr

/-- A job of the `upload-queue`; `data` is `none` when `JSON.parse(job.data)`
raises. -/
structure Job where
  name : String
  data : Option JobData
deriving DecidableEq, Repr

/-- The services and library calls of one run of the processor:
`axiosGet url` is the outcome of `axios.get(url, ...)` (the body on success),
`now` the value of `Date.now()`, `tmpdir` the value of `os.tmpdir()`,
`load bytes` the outcome of `PDFLoader.load()` on a file with that content,
`uuidv4 n` the `n`-th identifier generated during the run (counted from 0),
`toISOString n` the value of `new Date().toISOString()` for the `n`-th page,
`splitText` the text splitter configured with `chunkSize: 1000`,
`chunkOverlap: 200`, `addDocuments docs` the outcome of
`QdrantVectorStore.fromExistingCollection` followed by `addDocuments(docs)`, and
`fromDocuments docs` the outcome of `QdrantVectorStore.fromDocuments(docs, ...)`. -/
structure WorkerEnv where
  axiosGet : String → Except String Bytes
  now : Nat
  tmpdir : String
  load : Bytes → Except String (List Page)
  uuidv4 : Nat → String
  toISOString : Nat → String
  splitText : String → List String
  addDocuments : List Doc → Except String Unit
  fromDocuments : List Doc → Except String Unit

/-- What the processor can change: the files of the temporary directory, the
documents of the collection `pdf-docs`, and the lines written with
`console.error`. -/
structure World where
  files : String → Option Bytes
  index : List Doc
  errors : List String

/-- A world with no file, an empty collection and no error line. -/
def World.empty : World :=
  { files := fun _ => none, index := [], errors := [] }

/-- Call `fs.writeFileSync(path, data)`. -/
def writeFileSync (w : World) (path : String) (data : Bytes) : World :=
  { w with files := fun p => if p = path then some data else w.files p }

/-- Call `fs.unlinkSync(path)`; it raises when there is no such file. -/
def unlinkSync (w : World) (path : String) : Except String World :=
  match w.files path with
  | some _ => .ok { w with files := fun p => if p = path then none else w.files p }
  | none => .error ("ENOENT: no such file or directory, unlink " ++ path)

/-- The value of a string taken as a condition: `none` for an absent or empty
string (`!x` holds), the string itself otherwise. -/
def truthy : Option String → Option String
  | some s => if s = "" then none else some s
  | none => none

/-- The path `path.join(os.tmpdir(), "downloaded-" + Date.now() + ".pdf")`. -/
def tempFilePath (env : WorkerEnv) : String :=
  env.tmpdir ++ "/" ++ "downloaded-" ++ toString env.now ++ ".pdf"

/-- The text given to a page: `doc.pageContent || "Empty document content"`. -/
def contentOf (page : Page) : String :=
  if page.pageContent = "" then "Empty document content" else page.pageContent

/-- The callback of `docs.map(...)` applied to the `i`-th page: a new document
with the page text (or the placeholder) and the metadata
`{ ...doc.metadata, _id: uuidv4(), userId, filename, uploadDate, source }`. -/
def withMetadata (env : WorkerEnv) (data : JobData) (userId : String) (i : Nat) (page : Page) : Doc :=
  { pageContent := contentOf page
    metadata := some
      { _id := some (env.uuidv4 i)
        userId := some userId
        filename := data.originalname
        uploadDate := some (env.toISOString i)
        source := some data.path
        pageNumber := some page.pageNumber } }

/-- The array `docsWithMetadata`, for pages numbered from `i` on. -/
def docsWithMetadata (env : WorkerEnv) (data : JobData) (userId : String) :
    Nat → List Page → List Doc
  | _, [] => []
  | i, page :: rest => withMetadata env data userId i page :: docsWithMetadata env data userId (i + 1) rest

/-- Method `splitDocuments` of the splitter: every chunk of a document becomes a
document that carries a copy of the metadata of the document it was cut from
(the line range that the library adds under `loc` is left out). -/
def splitDocuments (splitText : String → List String) (docs : List Doc) : List Doc :=
  docs.flatMap fun doc =>
    (splitText doc.pageContent).map fun chunk => { pageContent := chunk, metadata := doc.metadata }

/-- The loop `splitDocs.forEach(doc => { if (!doc.metadata._id) doc.metadata._id = uuidv4() })`,
with `n` the number of identifiers generated so far. A document without a
metadata object has the empty object (the `Document` constructor sets it). -/
def ensureIds (uuidv4 : Nat → String) : Nat → List Doc → List Doc
  | _, [] => []
  | n, doc :: rest =>
      let md := doc.metadata.getD Metadata.empty
      match truthy md._id with
      | some _ => { doc with metadata := some md } :: ensureIds uuidv4 n rest
      | none => { doc with metadata := some { md with _id := some (uuidv4 n) } }
          :: ensureIds uuidv4 (n + 1) rest

/-- The array `splitDocs` as it is handed to the vector store: pages decorated,
split, then passed through the identifier loop. -/
def splitDocs (env : WorkerEnv) (data : JobData) (userId : String) (pages : List Page) : List Doc :=
  ensureIds env.uuidv4 pages.length
    (splitDocuments env.splitText (docsWithMetadata env data userId 0 pages))

/-- The inner `try`/`catch`: `addDocuments` on the existing collection and, when
that raises, `fromDocuments`, whose error is not caught here. A successful call
adds the documents to the collection. -/
def upsert (env : WorkerEnv) (w : World) (docs : List Doc) : World × Except String Unit :=
  match env.addDocuments docs with
  | .ok _ => ({ w with index := w.index ++ docs }, .ok ())
  | .error _ =>
      match env.fromDocuments docs with
      | .ok _ => ({ w with index := w.index ++ docs }, .ok ())
      | .error e => (w, .error e)

/-- The body of the outer `try` of the processor: the world it leaves and
whether it ran to its end (`.ok`) or raised (`.error` with the message). -/
def processorBody (env : WorkerEnv) (job : Job) (w : World) : World × Except String Unit :=
  if job.name = "file-ready" then
    match job.data with
    | none => (w, .error "Unexpected token in JSON")
    | some data =>
        match truthy data.userId with
        | none => (w, .error "Missing userId in job data")
        | some userId =>
            match env.axiosGet data.path with
            | .error e => (w, .error e)
            | .ok responseData =>
                let w := writeFileSync w (tempFilePath env) responseData
                let loaded :=
                  match w.files (tempFilePath env) with
                  | some bytes => env.load bytes
                  | none => .error ("ENOENT: no such file or directory, open " ++ tempFilePath env)
                match loaded with
                | .error e => (w, .error e)
                | .ok docs =>
                    if docs.length = 0 then
                      (w, .error "No content extracted from PDF")
                    else
                      let chunks := splitDocs env data userId docs
                      if chunks.length = 0 then
                        (w, .error "No valid content chunks generated from PDF")
                      else
                        match upsert env w chunks with
                        | (w, .error e) => (w, .error e)
                        | (w, .ok _) =>
                            match unlinkSync w (tempFilePath env) with
                            | .error e => (w, .error e)
                            | .ok w => (w, .ok ())
  else
    (w, .ok ())

/-- The processor given to `new Worker("upload-queue", ...)`: the body inside
`try`, and the `catch` that writes `Worker job failed:` with the error to
`console.error` and returns. -/
def processor (env : WorkerEnv) (job : Job) (w : World) : World × Except String Unit :=
  match processorBody env job w with
  | (w, .error err) => ({ w with errors := w.errors ++ ["Worker job failed: " ++ err] }, .ok ())
  | (w, .ok _) => (w, .ok ())

/-- The state the queue records for a job once its processor is done. -/
inductive JobState where
  | completed
  | failed (failedReason : String)
deriving DecidableEq, Repr

/-- Modelled from the spec: the rule of the queue library (BullMQ, not part of the
repository) for a processor that has finished, as section 4.2 states it: an error
that leaves the processor moves the job to `failed` and persists the cause; a
processor that returns moves the job to `completed`. -/
def settle : Except String Unit → JobState
  | .ok _ => .completed
  | .error e => .failed e

/-- Cuts a text into windows of at most `size` characters, each starting `step`
characters after the previous one; `fuel` bounds the number of windows. -/
def windows (size step : Nat) : Nat → List Char → List (List Char)
  | 0, _ => []
  | fuel + 1, cs =>
      if cs.length ≤ size then
        (if cs.isEmpty then [] else [cs])
      else
        cs.take size :: windows size step fuel (cs.drop step)

/-- Modelled from the spec: the Chunking Engine of section 4.1 (the text splitter
of langchain, not part of the repository) on a text that offers no separator:
chunks of at most `chunkSize` characters, consecutive chunks overlapping by
`chunkOverlap` characters; a text within the size is a single chunk and the empty
text gives no chunk. -/
def windowSplit (chunkSize chunkOverlap : Nat) (text : String) : List String :=
  (windows chunkSize (chunkSize - chunkOverlap) text.length text.data).map String.mk

/-- A run in which every service works: the download answers four bytes, the
loader answers `pages`, identifiers are `id-0`, `id-1`, ... -/
def workingWorker (pages : List Page) : WorkerEnv :=
  { axiosGet := fun _ => .ok [37, 80, 68, 70]
    now := 1746000000000
    tmpdir := "/tmp"
    load := fun _ => .ok pages
    uuidv4 := fun n => "id-" ++ toString n
    toISOString := fun _ => "2025-04-30T08:00:00.000Z"
    splitText := windowSplit 1000 200
    addDocuments := fun _ => .ok ()
    fromDocuments := fun _ => .ok () }

/-- The data of a job as `/upload` enqueues it for the user `alice`. -/
def aliceData : JobData :=
  { path := "https://res.cloudinary.com/demo/raw/upload/pdf-uploads/file-1-report.pdf"
    userId := some "alice"
    originalname := some "report.pdf" }

/-- The job with that data. -/
def aliceJob : Job :=
  { name := "file-ready", data := some aliceData }

/-- A page from which the loader extracted no text. -/
def blankPage : Page :=
  { pageContent := "", pageNumber := 1 }

/-- A page of 1200 characters without any separator. -/
def longPage : Page :=
  { pageContent := String.mk (List.replicate 1200 'a'), pageNumber := 1 }

/-- A job of the same kind whose data carries no `userId`. -/
def anonymousJob : Job :=
  { name := "file-ready"
    data := some
      { path := "https://res.cloudinary.com/demo/raw/upload/pdf-uploads/file-1-report.pdf"
        userId := none
        originalname := some "report.pdf" } }

/-- The value `doc.metadata._id`, `none` when it is not set. -/
def Doc.chunkId (doc : Doc) : Option String :=
  doc.metadata.bind fun md => md._id

/-- One call `vectorStore.similaritySearch(query, k, filter)` made while `log`
holds the limit and filter of the searches the request has issued so far: the
call is the `log.length`-th search of the request, and it is recorded at the end
of the log whether it answers or raises. -/
def searchLogged (vs : VectorStore) (log : List (Nat × Option Filter)) (query : String) (k : Nat)
    (filter : Option Filter) : Except String (List Doc) × List (Nat × Option Filter) :=
  (vs.similaritySearch log.length query k filter, log ++ [(k, filter)])

/-- The retrieval block of the handler again, statement by statement, with every
search made through `searchLogged`: the result of the block together with the
searches it issued, in order. -/
def retrieveTraced (vs : VectorStore) (userQuery userId : String) :
    Except String (List Doc) × List (Nat × Option Filter) :=
  let filter : Filter := { key := "userId", value := userId }
  match searchLogged vs [] userQuery 5 (some filter) with
  | (.ok results, log) =>
      if results.length = 0 then
        match searchLogged vs log userQuery 10 none with
        | (.ok unfiltered, log) =>
            if unfiltered.length > 0 then
              (.ok (unfiltered.filter (ownedBy userId)), log)
            else
              (.ok results, log)
        | (.error _, log) =>
            match searchLogged vs log userQuery 10 none with
            | (.ok unfiltered, log) => (.ok (unfiltered.filter (ownedBy userId)), log)
            | (.error e, log) => (.error e, log)
      else
        (.ok results, log)
  | (.error _, log) =>
      match searchLogged vs log userQuery 10 none with
      | (.ok unfiltered, log) => (.ok (unfiltered.filter (ownedBy userId)), log)
      | (.error e, log) => (.error e, log)

/-- A store whose filtered search finds nothing (the filter key does not reach
the chunks) and whose unfiltered search answers with a chunk of each of two
users, cut to the limit `k`. -/
def driftStore : VectorStore :=
  { similaritySearch := fun _ _ k filter =>
      match filter with
      | some _ => .ok []
      | none => .ok ([chunkOf "notes" "alice", chunkOf "salary table" "bob"].take k) }

/-- A store whose filtered search finds nothing, whose first unfiltered search
raises, and whose later unfiltered searches answer with a chunk of each of two
users. -/
def flakyStore : VectorStore :=
  { similaritySearch := fun n _ k filter =>
      match filter with
      | some _ => .ok []
      | none =>
          if n = 1 then
            .error "socket hang up"
          else
            .ok ([chunkOf "salary table" "bob", chunkOf "notes" "alice"].take k) }

/-- An environment in which every service works except the model call, which
raises. -/
def modelDownEnv (vs : VectorStore) : QueryEnv :=
  { memoryReadError := none
    connectError := none
    vectorStore := vs
    stringify := fun docs => toString (docs.map fun d => d.pageContent)
    generateContent := fun _ => .error "503 Service Unavailable"
    memoryWriteError := none }

/-! ## Upload, catalogue and deletion (`Server/routes/upload.js`) -/

/-- The file part of a multipart request as multer reads it. -/
structure FilePart where
  fieldname : String
  originalname : String
  mimetype : String
  content : Bytes
deriving DecidableEq, Repr

/-- A file held by the object storage: the parameters of `CloudinaryStorage`
(`folder`, the `public_id` the storage callback returned, `format`) and the
content. -/
structure CloudFile where
  folder : String
  public_id : String
  format : String
  content : Bytes
deriving DecidableEq, Repr

/-- The object `req.file` once the storage engine has stored the part: `path` is
the URL the storage answers with and `filename` the public id it answers with. -/
structure UploadedFile where
  fieldname : String
  originalname : String
  mimetype : String
  path : String
  filename : String
  size : Nat
deriving DecidableEq, Repr

/-- A request to `POST /upload`: the file part if there is one, `req.body.userId`
and `req.query.userId`. -/
structure UploadRequest where
  file : Option FilePart
  bodyUserId : Option String
  queryUserId : Option String
deriving DecidableEq, Repr

/-- What the upload route talks to: `now` is `Date.now()` and `random` is
`Math.round(Math.random() * 1e9)` in the `public_id` callback, `uploadError` the
error of the object storage if it refuses the file, `secureUrl` and
`resultPublicId` what the storage answers for a stored file, `jobId n` the id the
queue gives to a job added when it holds `n` jobs, and `queueError` the error of
`queue.add` if it raises. -/
structure UploadEnv where
  now : Nat
  random : Nat
  uploadError : Option String
  secureUrl : CloudFile → String
  resultPublicId : CloudFile → String
  jobId : Nat → String
  queueError : Option String

/-- The state the upload route can change: the files of the object storage and
the jobs of the `upload-queue`. -/
structure UploadWorld where
  cloud : List CloudFile
  queue : List Job
deriving DecidableEq, Repr

/-- One entry of the `documents` array of the list route. -/
structure DocumentEntry where
  filename : String
  uploadDate : String
  source : String
deriving DecidableEq, Repr

/-- The JSON bodies of the routes of `upload.js`: `{ error }`, the body of a
successful upload, `{ success: true, documents }`, `{ success: false, error }` and
`{ success: true, message, deletedChunks }`. -/
inductive RouteBody where
  | error (error : String)
  | uploaded (message filename cloudinaryUrl public_id jobId : String)
  | documents (documents : List DocumentEntry)
  | failure (error : String)
  | deleted (message : String) (deletedChunks : Nat)
deriving DecidableEq, Repr

/-- A response of these routes; `res.json(body)` alone has status 200. -/
structure RouteResponse where
  status : Nat
  body : RouteBody
deriving DecidableEq, Repr

/-- The `public_id` callback of the storage:
`file.fieldname + "-" + Date.now() + "-" + Math.round(Math.random() * 1e9) + "-" + file.originalname`. -/
def publicIdOf (env : UploadEnv) (file : FilePart) : String :=
  file.fieldname ++ "-" ++ (toString env.now ++ "-" ++ toString env.random) ++ "-" ++ file.originalname

/-- The file the storage engine stores for a part: folder `pdf-uploads`, the
public id of the callback, format `pdf`. -/
def cloudFileOf (env : UploadEnv) (file : FilePart) : CloudFile :=
  { folder := "pdf-uploads", public_id := publicIdOf env file, format := "pdf",
    content := file.content }

/-- The value `req.body.userId || req.query.userId`, `none` when it is absent or
empty (`!userId`). -/
def uploadUserId (req : UploadRequest) : Option String :=
  match truthy req.bodyUserId with
  | some userId => some userId
  | none => truthy req.queryUserId

/-- The route `POST /upload` together with its middleware `upload.single("file")`,
which runs first and stores the file part. The response is `none` when the
handler raises (it has no `try`) and nothing is sent. -/
def uploadHandler (env : UploadEnv) (w : UploadWorld) (req : UploadRequest) :
    Option RouteResponse × UploadWorld :=
  let handler (w : UploadWorld) (file : Option UploadedFile) : Option RouteResponse × UploadWorld :=
    match uploadUserId req with
    | none => (some { status := 400, body := .error "Missing userId parameter" }, w)
    | some userId =>
        match file with
        | none => (none, w)
        | some file =>
            match env.queueError with
            | some _ => (none, w)
            | none =>
                let job : Job :=
                  { name := "file-ready"
                    data := some
                      { path := file.path, userId := some userId,
                        originalname := some file.originalname } }
                (some
                  { status := 200
                    body := .uploaded "File uploaded successfully" file.filename file.path
                      file.filename (env.jobId w.queue.length) },
                  { w with queue := w.queue ++ [job] })
  match req.file with
  | none => handler w none
  | some part =>
      if part.fieldname = "file" then
        match env.uploadError with
        | some e => (some { status := 500, body := .error e }, w)
        | none =>
            let stored := cloudFileOf env part
            handler { w with cloud := w.cloud ++ [stored] }
              (some
                { fieldname := part.fieldname
                  originalname := part.originalname
                  mimetype := part.mimetype
                  path := env.secureUrl stored
                  filename := env.resultPublicId stored
                  size := part.content.length })
      else
        (some { status := 500, body := .error "Unexpected field" }, w)

/-- What the list and delete routes talk to: `embeddingsError` is the error of
`new VertexAIEmbeddings(...)` if it raises, `connectError` the one of
`QdrantVectorStore.fromExistingCollection`, `similaritySearch index query k` the
answer of `vectorStore.similaritySearch(query, k)` when the collection holds
`index`, `toISOString n` the value of `new Date().toISOString()` in the `n`-th
callback, `deleteError` the error of `vectorStore.delete` if it raises and
`destroyError` the one of `cloudinary.uploader.destroy`. -/
structure CatalogEnv where
  embeddingsError : Option String
  connectError : Option String
  similaritySearch : List Doc → String → Nat → Except String (List Doc)
  toISOString : Nat → String
  deleteError : Option String
  destroyError : Option String

/-- A request to `GET /user-pdfs`: `req.query.userId`. -/
structure ListRequest where
  userId : Option String
deriving DecidableEq, Repr

/-- The test `doc.metadata && doc.metadata.filename && doc.metadata.source`. -/
def hasFileAndSource (doc : Doc) : Bool :=
  match doc.metadata with
  | some md => (truthy md.filename).isSome && (truthy md.source).isSome
  | none => false

/-- The pair `[filename, { filename, uploadDate: uploadDate || now, source }]`
built for a chunk, with `iso` the value of `new Date().toISOString()`. -/
def toEntry (iso : String) (doc : Doc) : String × DocumentEntry :=
  let md := doc.metadata.getD Metadata.empty
  (md.filename.getD "",
    { filename := md.filename.getD ""
      uploadDate := (truthy md.uploadDate).getD iso
      source := md.source.getD "" })

/-- The `.map(doc => [...])` over the chunks, for positions from `i` on. -/
def entriesFrom (toISOString : Nat → String) : Nat → List Doc → List (String × DocumentEntry)
  | _, [] => []
  | i, doc :: rest => toEntry (toISOString i) doc :: entriesFrom toISOString (i + 1) rest

/-- Method `Map.prototype.set` on a map kept as its entries in insertion order: a
key that is present keeps its place and takes the new value, a new key goes to
the end. -/
def mapSet (m : List (String × DocumentEntry)) (key : String) (value : DocumentEntry) :
    List (String × DocumentEntry) :=
  match m with
  | [] => [(key, value)]
  | (k, v) :: rest => if k = key then (key, value) :: rest else (k, v) :: mapSet rest key value

/-- The constructor `new Map(entries)`: the entries are set one after another. -/
def newMap (entries : List (String × DocumentEntry)) : List (String × DocumentEntry) :=
  entries.foldl (fun m e => mapSet m e.1 e.2) []

/-- The array `uniqueDocs` computed from the owned chunks `results`:
`Array.from(new Map(results.filter(...).map(...)).values())`. -/
def uniqueDocs (toISOString : Nat → String) (results : List Doc) : List DocumentEntry :=
  (newMap (entriesFrom toISOString 0 (results.filter hasFileAndSource))).map Prod.snd

/-- The route `GET /user-pdfs` when the collection holds `index`. -/
def listHandler (env : CatalogEnv) (index : List Doc) (req : ListRequest) : RouteResponse :=
  match truthy req.userId with
  | none => { status := 400, body := .error "Missing userId parameter" }
  | some userId =>
      match env.embeddingsError with
      | some _ => { status := 500, body := .error "Internal server error" }
      | none =>
          match env.connectError with
          | some _ => { status := 200, body := .documents [] }
          | none =>
              match env.similaritySearch index "document" 1000 with
              | .error _ => { status := 200, body := .documents [] }
              | .ok allResults =>
                  let results := allResults.filter (ownedBy userId)
                  { status := 200, body := .documents (uniqueDocs env.toISOString results) }

/-- The `documents` of a response of the list route; other bodies have none. -/
def RouteResponse.documents (r : RouteResponse) : List DocumentEntry :=
  match r.body with
  | .documents documents => documents
  | _ => []

/-- A request to `DELETE /delete-document`: `req.body.userId` and
`req.body.filename`. -/
structure DeleteRequest where
  userId : Option String
  filename : Option String
deriving DecidableEq, Repr

/-- A call that changes an external service: `vectorStore.delete({ ids })` or
`cloudinary.uploader.destroy(publicId, ...)`. -/
inductive ServiceCall where
  | deleteIds (ids : List String)
  | destroy (publicId : String)
deriving DecidableEq, Repr

/-- The state the delete route can change: the chunks of the collection, the
files of the object storage, and the calls issued so far, oldest first. -/
structure CatalogWorld where
  index : List Doc
  cloud : List CloudFile
  calls : List ServiceCall
deriving DecidableEq, Repr

/-- The test `doc.metadata && doc.metadata.userId === userId &&
doc.metadata.filename === filename`. -/
def matchesDocument (userId filename : String) (doc : Doc) : Bool :=
  match doc.metadata with
  | some md => decide (md.userId = some userId) && decide (md.filename = some filename)
  | none => false

/-- The test `doc.metadata && doc.metadata._id`. -/
def hasId (doc : Doc) : Bool :=
  match doc.metadata with
  | some md => (truthy md._id).isSome
  | none => false

/-- The array `idsToDelete`: the `_id` of the matching chunks that have one. -/
def idsToDelete (matchingDocs : List Doc) : List String :=
  (matchingDocs.filter hasId).map fun doc => (doc.chunkId).getD ""

/-- Modelled from the spec: the effect of `vectorStore.delete({ ids })` on the
collection (the vector store is not part of the repository), after section 4.6,
"delete all matching chunk IDs from the vector index": the chunks whose
identifier is among `ids` are removed, the others stay. -/
def deleteByIds (index : List Doc) (ids : List String) : List Doc :=
  index.filter fun doc =>
    match doc.chunkId with
    | some id => decide (id ∉ ids)
    | none => true

/-- Modelled from the spec: the effect of `cloudinary.uploader.destroy(publicId)`
on the object storage (not part of the repository): the file stored under that
public id is removed. -/
def destroyFile (cloud : List CloudFile) (publicId : String) : List CloudFile :=
  cloud.filter fun file => decide (file.public_id ≠ publicId)

/-- Method `split(sep)` for a one-character separator, on the characters of a
string: the pieces between the separators, at least one piece. -/
def splitOn (sep : Char) : List Char → List (List Char)
  | [] => [[]]
  | c :: cs =>
      if c = sep then
        [] :: splitOn sep cs
      else
        match splitOn sep cs with
        | [] => [[c]]
        | piece :: rest => (c :: piece) :: rest

/-- Method `includes(needle)` on the characters of a string. -/
def includesChars (needle : List Char) : List Char → Bool
  | [] => needle.isEmpty
  | c :: cs => needle.isPrefixOf (c :: cs) || includesChars needle cs

/-- The public id the delete route derives from a source URL:
`urlParts = sampleSource.split("/")`, the last part, then `.split(".")[0]`. -/
def derivedPublicId (sampleSource : String) : String :=
  let urlParts := splitOn '/' sampleSource.data
  let publicIdWithExtension := urlParts.getLast?.getD []
  String.mk ((splitOn '.' publicIdWithExtension).headD [])

/-- The public id the route asks the object storage to destroy, if any: the
source of the first matching chunk must be non-empty and contain
`cloudinary.com`, and the derived public id must be non-empty. -/
def destroyTarget (matchingDocs : List Doc) : Option String :=
  match truthy ((matchingDocs.head?.bind fun doc => doc.metadata).bind fun md => md.source) with
  | none => none
  | some sampleSource =>
      if includesChars "cloudinary.com".data sampleSource.data then
        truthy (some (derivedPublicId sampleSource))
      else
        none

/-- The steps of the delete route between the scan and the successful response:
`vectorStore.delete({ ids: idsToDelete })` has succeeded and removed the chunks,
then the inner `try` asks the object storage to destroy the file of the first
matching chunk, and its `catch` swallows the error if that raises. -/
def afterIndexDelete (env : CatalogEnv) (w : CatalogWorld) (matchingDocs : List Doc) : CatalogWorld :=
  let w := { w with
    index := deleteByIds w.index (idsToDelete matchingDocs)
    calls := w.calls ++ [.deleteIds (idsToDelete matchingDocs)] }
  match destroyTarget matchingDocs with
  | none => w
  | some publicId =>
      match env.destroyError with
      | some _ => { w with calls := w.calls ++ [.destroy publicId] }
      | none =>
          { w with
            cloud := destroyFile w.cloud publicId
            calls := w.calls ++ [.destroy publicId] }

/-- The 500 response of the inner `catch` of the delete route. -/
def deleteFailed (message : String) : RouteResponse :=
  { status := 500, body := .failure ("Error deleting document: " ++ message) }

/-- The route `DELETE /delete-document`: the response and the world after it. -/
def deleteHandler (env : CatalogEnv) (w : CatalogWorld) (req : DeleteRequest) :
    RouteResponse × CatalogWorld :=
  match truthy req.userId, truthy req.filename with
  | some userId, some filename =>
      match env.embeddingsError with
      | some _ => ({ status := 500, body := .failure "Internal server error" }, w)
      | none =>
          match env.connectError with
          | some e => (deleteFailed e, w)
          | none =>
              match env.similaritySearch w.index "document" 1000 with
              | .error e => (deleteFailed e, w)
              | .ok allResults =>
                  let matchingDocs := allResults.filter (matchesDocument userId filename)
                  if matchingDocs.length = 0 then
                    ({ status := 404, body := .failure "Document not found for the specified user" }, w)
                  else
                    let ids := idsToDelete matchingDocs
                    if ids.length = 0 then
                      ({ status := 404
                         body := .failure "Document chunks found but they don\x27t have valid IDs" }, w)
                    else
                      match env.deleteError with
                      | some e => (deleteFailed e, { w with calls := w.calls ++ [.deleteIds ids] })
                      | none =>
                          ({ status := 200
                             body := .deleted
                               ("Document \"" ++ filename ++ "\" has been deleted successfully")
                               ids.length },
                            afterIndexDelete env w matchingDocs)
  | _, _ =>
      ({ status := 400
         body := .failure "Missing required parameters: userId and filename are required" }, w)

/-- An object storage and a queue that work: the URL and the public id answered
for a stored file put the folder in front of the public id of the callback. -/
def uploadEnv : UploadEnv :=
  { now := 1746000000000
    random := 123456789
    uploadError := none
    secureUrl := fun f => "https://res.cloudinary.com/demo/raw/upload/v1/" ++ f.folder ++ "/" ++ f.public_id
    resultPublicId := fun f => f.folder ++ "/" ++ f.public_id
    jobId := fun n => toString (n + 1)
    queueError := none }

/-- The file part of an upload of `report.pdf` in the form field `file`. -/
def reportPart : FilePart :=
  { fieldname := "file", originalname := "report.pdf", mimetype := "application/pdf",
    content := [37, 80, 68, 70] }

/-- An upload world with no stored file and no job. -/
def UploadWorld.empty : UploadWorld :=
  { cloud := [], queue := [] }

/-- A catalogue environment whose searches answer with the first `k` chunks of
the collection; the three arguments are the errors of connecting, of
`vectorStore.delete` and of `cloudinary.uploader.destroy`, if any. -/
def catalogEnv (connectError deleteError destroyError : Option String) : CatalogEnv :=
  { embeddingsError := none
    connectError := connectError
    similaritySearch := fun index _ k => .ok (index.take k)
    toISOString := fun _ => "2025-05-01T00:00:00.000Z"
    deleteError := deleteError
    destroyError := destroyError }

/-- A chunk as the worker writes it: text, identifier, owner, file name, upload
date and source URL. -/
def storedChunk (text : String) (id : Option String) (owner filename uploadDate source : String) : Doc :=
  { pageContent := text
    metadata := some
      { _id := id
        userId := some owner
        filename := some filename
        uploadDate := some uploadDate
        source := some source
        pageNumber := some 1 } }

/-- The URL under which `uploadEnv` stores `reportPart`. -/
def reportUrl : String :=
  "https://res.cloudinary.com/demo/raw/upload/v1/pdf-uploads/file-1746000000000-123456789-report.pdf"

/-- A collection with one chunk of `report.pdf` uploaded by `alice` and one chunk
of a file of the same name uploaded by `bob`. -/
def sharedIndex : List Doc :=
  [storedChunk "alpha" (some "c1") "alice" "report.pdf" "2025-04-30T08:00:00.000Z" reportUrl,
   storedChunk "beta" (some "c2") "bob" "report.pdf" "2025-04-30T09:00:00.000Z" reportUrl]

/-- A catalogue world with the given collection, no stored file and no call. -/
def worldOf (index : List Doc) : CatalogWorld :=
  { index := index, cloud := [], calls := [] }

/-- A collection scanned in this order: a chunk of `report.pdf` of `alice`, a
chunk of `report.pdf` of `bob`, a chunk of `notes.pdf` of `alice`, and a chunk of a
later upload of `report.pdf` by `alice`. -/
def catalogIndex : List Doc :=
  [storedChunk "alpha" (some "c1") "alice" "report.pdf" "2025-04-30T08:00:00.000Z" reportUrl,
   storedChunk "beta" (some "c2") "bob" "report.pdf" "2025-04-30T09:00:00.000Z" "https://res.cloudinary.com/demo/raw/upload/v1/pdf-uploads/file-2-report.pdf",
   storedChunk "gamma" (some "c3") "alice" "notes.pdf" "2025-05-02T10:00:00.000Z" "https://res.cloudinary.com/demo/raw/upload/v1/pdf-uploads/file-3-notes.pdf",
   storedChunk "delta" (some "c4") "alice" "report.pdf" "2025-05-03T11:00:00.000Z" "https://res.cloudinary.com/demo/raw/upload/v1/pdf-uploads/file-4-report.pdf"]

/-- A collection with two chunks of `report.pdf` of `alice`, the second of which
carries no `_id`. -/
def partIndex : List Doc :=
  [storedChunk "alpha" (some "c1") "alice" "report.pdf" "2025-04-30T08:00:00.000Z" reportUrl,
   storedChunk "omega" none "alice" "report.pdf" "2025-04-30T08:00:00.000Z" reportUrl]

/-! ### Runs of memory operations of several users -/

/-- A call on the memory object of one user: `addToHistory(userInput, botResponse)`
or `clear()`. -/
inductive MemoryOp where
  | add (userId : String) (userInput botResponse : String)
  | clear (userId : String)
deriving DecidableEq, Repr

/-- The store after one call, made on `new ValkeyMemory(redis, userId)`. -/
def MemoryOp.apply (s : Store) : MemoryOp → Store
  | .add userId userInput botResponse => (ValkeyMemory.create userId).addToHistory s userInput botResponse
  | .clear userId => (ValkeyMemory.create userId).clear s

/-- The store after a run of calls made one after another. -/
def runOps (s : Store) (ops : List MemoryOp) : Store :=
  ops.foldl MemoryOp.apply s

/-! ### The processor as the steps between its suspension points

The processor suspends at `await axios.get(...)`, at `await loader.load()` (the
loader reads the file only after the call was made) and at the awaited calls on
the vector store. Under `concurrency: 100` another run of the processor may
execute between two such points, so one run is a small state machine whose steps
are the stretches between them. -/

/-- Where a run of the processor stands: not started; the download has returned
and the temporary file is written, the load is pending; the file was read and
split into chunks, the upsert is pending; or the processor has returned, after
the `catch` when `raised` holds an error. -/
inductive RunPhase where
  | start
  | downloaded (data : JobData) (userId : String)
  | loaded (data : JobData) (userId : String) (chunks : List Doc)
  | finished (raised : Option String)
deriving DecidableEq, Repr

/-- A run of the processor on a job: its services and clock reading, the job,
and the phase it has reached. -/
structure JobRun where
  env : WorkerEnv
  job : Job
  phase : RunPhase

/-- The `catch` of the processor: one line on `console.error`. -/
def caught (w : World) (err : String) : World :=
  { w with errors := w.errors ++ ["Worker job failed: " ++ err] }

/-- From `loader.load()` to the check of the chunks, given what the file at the
temporary path holds when the loader reads it: the chunks to upsert, or the
error raised. -/
def readAndSplit (env : WorkerEnv) (data : JobData) (userId : String) (content : Option Bytes) :
    Except String (List Doc) :=
  let loaded :=
    match content with
    | some bytes => env.load bytes
    | none => .error ("ENOENT: no such file or directory, open " ++ tempFilePath env)
  match loaded with
  | .error e => .error e
  | .ok docs =>
      if docs.length = 0 then
        .error "No content extracted from PDF"
      else
        let chunks := splitDocs env data userId docs
        if chunks.length = 0 then
          .error "No valid content chunks generated from PDF"
        else
          .ok chunks

/-- One step of a run. From `start`: the checks on the job, the download and,
when it returns, `fs.writeFileSync(tempFilePath, response.data)`. From
`downloaded`: the loader reads the file at `tempFilePath`, the pages are
decorated and split. From `loaded`: the upsert and `fs.unlinkSync(tempFilePath)`.
An error at any step goes to the `catch` and ends the run. -/
def JobRun.step (r : JobRun) (w : World) : JobRun × World :=
  match r.phase with
  | .start =>
      if r.job.name = "file-ready" then
        match r.job.data with
        | none =>
            ({ r with phase := .finished (some "Unexpected token in JSON") },
              caught w "Unexpected token in JSON")
        | some data =>
            match truthy data.userId with
            | none =>
                ({ r with phase := .finished (some "Missing userId in job data") },
                  caught w "Missing userId in job data")
            | some userId =>
                match r.env.axiosGet data.path with
                | .error e => ({ r with phase := .finished (some e) }, caught w e)
                | .ok responseData =>
                    ({ r with phase := .downloaded data userId },
                      writeFileSync w (tempFilePath r.env) responseData)
      else
        ({ r with phase := .finished none }, w)
  | .downloaded data userId =>
      match readAndSplit r.env data userId (w.files (tempFilePath r.env)) with
      | .error e => ({ r with phase := .finished (some e) }, caught w e)
      | .ok chunks => ({ r with phase := .loaded data userId chunks }, w)
  | .loaded _ _ chunks =>
      match upsert r.env w chunks with
      | (w, .error e) => ({ r with phase := .finished (some e) }, caught w e)
      | (w, .ok _) =>
          match unlinkSync w (tempFilePath r.env) with
          | .error e => ({ r with phase := .finished (some e) }, caught w e)
          | .ok w => ({ r with phase := .finished none }, w)
  | .finished _ => (r, w)

/-- A run that has not started. -/
def JobRun.init (env : WorkerEnv) (job : Job) : JobRun :=
  { env := env, job := job, phase := .start }

/-- The steps of one run taken back to back, `n` of them. -/
def JobRun.steps : Nat → JobRun → World → JobRun × World
  | 0, r, w => (r, w)
  | n + 1, r, w => JobRun.steps n (r.step w).1 (r.step w).2

/-- Two runs of the processor in the same worker process and the world they
share. -/
structure Duo where
  first : JobRun
  second : JobRun
  world : World

/-- A schedule names, step by step, which of the two runs continues
(`false`: the first, `true`: the second). -/
def Duo.run (d : Duo) : List Bool → Duo
  | [] => d
  | false :: rest =>
      let r := d.first.step d.world
      Duo.run { d with first := r.1, world := r.2 } rest
  | true :: rest =>
      let r := d.second.step d.world
      Duo.run { d with second := r.1, world := r.2 } rest

/-- A loader whose pages depend on the content of the file it reads: a file that
ends with the byte 1 holds the contract of `alice`, any other file the payroll of
`bob`. -/
def parsePdf (bytes : Bytes) : Except String (List Page) :=
  if bytes.getLast? = some 1 then
    .ok [{ pageContent := "contract of alice", pageNumber := 1 }]
  else
    .ok [{ pageContent := "payroll of bob", pageNumber := 1 }]

/-- A run in which every service works, the download answers `bytes`, the
identifiers start with `tag`, and `Date.now()` reads 1746000000000. -/
def timedWorker (tag : String) (bytes : Bytes) : WorkerEnv :=
  { axiosGet := fun _ => .ok bytes
    now := 1746000000000
    tmpdir := "/tmp"
    load := parsePdf
    uuidv4 := fun n => tag ++ "-" ++ toString n
    toISOString := fun _ => "2025-04-30T08:00:00.000Z"
    splitText := windowSplit 1000 200
    addDocuments := fun _ => .ok ()
    fromDocuments := fun _ => .ok () }

/-- The data of a job enqueued for the user `bob`. -/
def bobData : JobData :=
  { path := "https://res.cloudinary.com/demo/raw/upload/pdf-uploads/file-2-payroll.pdf"
    userId := some "bob"
    originalname := some "payroll.pdf" }

/-- The job with that data. -/
def bobJob : Job :=
  { name := "file-ready", data := some bobData }

/-- The runs of the jobs of `alice` and `bob`, neither started, over an empty
world; both read the same value of `Date.now()`. -/
def sameMillisecond : Duo :=
  { first := JobRun.init (timedWorker "a" [37, 80, 68, 70, 1]) aliceJob
    second := JobRun.init (timedWorker "b" [37, 80, 68, 70, 2]) bobJob
    world := World.empty }

/-! ## Theorems -/

/-- Keeping the last `n` elements twice, with an append in between, keeps the
last `n` elements of the whole. -/
theorem drop_last_append (n : Nat) (a b : List Turn) :
    ((a.drop (a.length - n)) ++ b).drop ((a.drop (a.length - n) ++ b).length - n)
      = (a ++ b).drop ((a ++ b).length - n) := by
  by_cases h : a.length ≤ n
  · have : a.length - n = 0 := by omega
    simp [this]
  · push_neg at h
    have hlen : (a.drop (a.length - n)).length = n := by
      simp; omega
    have e1 : (a.drop (a.length - n) ++ b).length - n = b.length := by
      simp [List.length_append]; omega
    have e2 : (a ++ b).length - n = (a.length - n) + b.length := by
      simp [List.length_append]; omega
    have e3 : (a ++ b).drop (a.length - n) = a.drop (a.length - n) ++ b :=
      List.drop_append_of_le_length (by omega)
    rw [e1, e2, ← e3, List.drop_drop]

/-- The push and trim of `addToHistory` keeps the last `maxHistoryLength`
elements of the extended history. -/
theorem pushAndTrim_eq_drop (m : ValkeyMemory) (h : List Turn) (u b : String) :
    m.pushAndTrim h u b
      = (h ++ [(⟨u, b⟩ : Turn)]).drop
          ((h ++ [(⟨u, b⟩ : Turn)]).length - m.maxHistoryLength) := by
  unfold ValkeyMemory.pushAndTrim
  by_cases hl : (h ++ [(⟨u, b⟩ : Turn)]).length > m.maxHistoryLength
  · simp only [hl, if_true]
  · have h0 : (h ++ [(⟨u, b⟩ : Turn)]).length - m.maxHistoryLength = 0 := by omega
    simp only [hl, if_false, h0, List.drop_zero]

/-- Reading a key right after it was set gives the value that was set. -/
theorem getHistory_set (m : ValkeyMemory) (s : Store) (v : List Turn) (ex : Nat) :
    m.getHistory (s.set m.key v ex) = v := by
  simp [ValkeyMemory.getHistory, Store.set]

/-- What `getHistory` returns after one `addToHistory`. -/
theorem getHistory_addToHistory (m : ValkeyMemory) (s : Store) (u b : String) :
    m.getHistory (m.addToHistory s u b) = m.pushAndTrim (m.getHistory s) u b := by
  simp [ValkeyMemory.addToHistory, getHistory_set]

/-- After a non-empty run of appends the stored history is the last
`maxHistoryLength` elements of the old history followed by the appended turns. -/
theorem getHistory_addAll_cons (m : ValkeyMemory) (rest : List Turn) :
    ∀ (s : Store) (t : Turn),
      m.getHistory (m.addAll s (t :: rest))
        = (m.getHistory s ++ t :: rest).drop
            ((m.getHistory s ++ t :: rest).length - m.maxHistoryLength) := by
  induction rest with
  | nil =>
    intro s t
    simp only [ValkeyMemory.addAll, List.foldl_cons, List.foldl_nil]
    rw [getHistory_addToHistory, pushAndTrim_eq_drop]
  | cons t2 r ih =>
    intro s t
    have hstep : m.addAll s (t :: t2 :: r) = m.addAll (m.addToHistory s t.user t.bot) (t2 :: r) := by
      simp [ValkeyMemory.addAll]
    rw [hstep, ih, getHistory_addToHistory, pushAndTrim_eq_drop, drop_last_append]
    simp

/-- Membership in a list survives keeping its last `n` elements when the
element sits among the last `n`. -/
theorem mem_drop_of_suffix (n : Nat) (a b : List Turn) (t : Turn) (hb : b.length < n) :
    t ∈ (a ++ t :: b).drop ((a ++ t :: b).length - n) := by
  have hle : (a ++ t :: b).length - n ≤ a.length := by
    simp [List.length_append]; omega
  rw [List.drop_append_of_le_length hle]
  simp

/-- Claim C3. Starting from an empty history for the user, after more than 15
turns were appended one after another with `addToHistory`, `getHistory` returns
exactly 15 turns, and they are the last 15 appended ones in insertion order. -/
theorem getHistory_after_many_appends (userId : String) (s : Store) (turns : List Turn)
    (hempty : (ValkeyMemory.create userId).getHistory s = [])
    (hN : turns.length > 15) :
    ((ValkeyMemory.create userId).getHistory
        ((ValkeyMemory.create userId).addAll s turns)).length = 15
    ∧ (ValkeyMemory.create userId).getHistory
        ((ValkeyMemory.create userId).addAll s turns) = turns.drop (turns.length - 15) := by
  cases turns with
  | nil => simp at hN
  | cons t rest =>
    have key := getHistory_addAll_cons (ValkeyMemory.create userId) rest s t
    rw [hempty] at key
    have hmax : (ValkeyMemory.create userId).maxHistoryLength = 15 := rfl
    rw [hmax] at key
    simp only [List.nil_append] at key
    refine ⟨?_, key⟩
    rw [key, List.length_drop]
    omega

/-- Claim C3, at a concrete input: sixteen turns appended to the empty store. -/
theorem getHistory_after_many_appends_witness :
    (ValkeyMemory.create "u1").getHistory Store.empty = []
    ∧ ((List.range 16).map (fun i => (⟨toString i, "a"⟩ : Turn))).length > 15
    ∧ ((ValkeyMemory.create "u1").getHistory
        ((ValkeyMemory.create "u1").addAll Store.empty
          ((List.range 16).map (fun i => (⟨toString i, "a"⟩ : Turn))))).length = 15
    ∧ (ValkeyMemory.create "u1").getHistory
        ((ValkeyMemory.create "u1").addAll Store.empty
          ((List.range 16).map (fun i => (⟨toString i, "a"⟩ : Turn))))
        = ((List.range 16).map (fun i => (⟨toString i, "a"⟩ : Turn))).drop
            (((List.range 16).map (fun i => (⟨toString i, "a"⟩ : Turn))).length - 15) :=
  ⟨rfl, by simp,
    getHistory_after_many_appends "u1" Store.empty
      ((List.range 16).map (fun i => (⟨toString i, "a"⟩ : Turn))) rfl (by simp)⟩

/-- Claim C4. Whatever history was stored before (of any length, also one longer
than 15) and whatever turn is added, the history stored by `addToHistory` has at
most 15 elements. -/
theorem addToHistory_length_le (userId : String) (s : Store) (userInput botResponse : String) :
    ((ValkeyMemory.create userId).getHistory
      ((ValkeyMemory.create userId).addToHistory s userInput botResponse)).length ≤ 15 := by
  rw [getHistory_addToHistory, pushAndTrim_eq_drop, List.length_drop]
  have hmax : (ValkeyMemory.create userId).maxHistoryLength = 15 := rfl
  rw [hmax]
  omega

/-- Running the two commands of one call back to back is `addToHistory`. -/
theorem step_step_eq_addToHistory (m : ValkeyMemory) (u b : String) (s : Store) :
    let c : AddCall := { memory := m, userInput := u, botResponse := b, phase := .start }
    ((c.step s).1.step (c.step s).2).2 = m.addToHistory s u b
    ∧ ((c.step s).1.step (c.step s).2).1.phase = .done := by
  simp [AddCall.step, ValkeyMemory.addToHistory]

/-- Claim C5, refuted as stated: two calls on the same user whose commands
interleave as GET, GET, SET, SET both finish, and the stored history holds only
the second turn: the first update is lost. -/
theorem addToHistory_interleaved_lost_update :
    ((Pair.init "u1" Store.empty "q1" "a1" "q2" "a2").run [false, true, false, true]).first.phase
        = AddPhase.done
    ∧ ((Pair.init "u1" Store.empty "q1" "a1" "q2" "a2").run [false, true, false, true]).second.phase
        = AddPhase.done
    ∧ (ValkeyMemory.create "u1").getHistory
        ((Pair.init "u1" Store.empty "q1" "a1" "q2" "a2").run [false, true, false, true]).store
        = [⟨"q2", "a2"⟩]
    ∧ (⟨"q1", "a1"⟩ : Turn) ∉ (ValkeyMemory.create "u1").getHistory
        ((Pair.init "u1" Store.empty "q1" "a1" "q2" "a2").run [false, true, false, true]).store := by
  decide

/-- Two calls on the same user whose commands interleave as GET, GET, SET, SET
both finish, and the store they leave is the store that the second call alone
would have left: the write of the first call is overwritten. -/
theorem interleaved_store (userId : String) (s : Store) (u1 b1 u2 b2 : String) :
    ((Pair.init userId s u1 b1 u2 b2).run [false, true, false, true]).first.phase = AddPhase.done
    ∧ ((Pair.init userId s u1 b1 u2 b2).run [false, true, false, true]).second.phase = AddPhase.done
    ∧ ((Pair.init userId s u1 b1 u2 b2).run [false, true, false, true]).store
        = (ValkeyMemory.create userId).addToHistory s u2 b2 := by
  refine ⟨by simp [Pair.run, Pair.init, AddCall.step], by simp [Pair.run, Pair.init, AddCall.step],
    ?_⟩
  funext k
  by_cases hk : k = (ValkeyMemory.create userId).key
  · simp [Pair.run, Pair.init, AddCall.step, ValkeyMemory.addToHistory, Store.set, hk]
  · simp [Pair.run, Pair.init, AddCall.step, ValkeyMemory.addToHistory, Store.set, hk]

/-- A turn that was not stored before an `addToHistory` call and is not the turn
of that call is not stored after it. -/
theorem not_mem_getHistory_addToHistory (userId : String) (s : Store) (u b : String) (t : Turn)
    (hold : t ∉ (ValkeyMemory.create userId).getHistory s) (hne : t ≠ ⟨u, b⟩) :
    t ∉ (ValkeyMemory.create userId).getHistory ((ValkeyMemory.create userId).addToHistory s u b) := by
  rw [getHistory_addToHistory, pushAndTrim_eq_drop]
  intro hmem
  rcases List.mem_append.1 (List.mem_of_mem_drop hmem) with h | h
  · exact hold h
  · exact hne (List.mem_singleton.1 h)

/-- Claim C5, amended: `addToHistory` is a `GET` followed by a `SET`. (1) When the
two calls do not interleave (one runs both its commands before the other
starts) both finish, the store is the one two successive `addToHistory` calls
produce, and both turns are in the stored history. (2) When their commands
interleave as GET, GET, SET, SET both finish, the store is the one the second
call alone produces, and the turn of the first call, unless it was stored before
or equals the second turn, is not in the stored history. -/
theorem addToHistory_sequential_keeps_both (userId : String) (s : Store) (u1 b1 u2 b2 : String) :
    ((Pair.init userId s u1 b1 u2 b2).run [false, false, true, true]).first.phase = AddPhase.done
    ∧ ((Pair.init userId s u1 b1 u2 b2).run [false, false, true, true]).second.phase = AddPhase.done
    ∧ ((Pair.init userId s u1 b1 u2 b2).run [false, false, true, true]).store
        = (ValkeyMemory.create userId).addToHistory
            ((ValkeyMemory.create userId).addToHistory s u1 b1) u2 b2
    ∧ (⟨u1, b1⟩ : Turn) ∈ (ValkeyMemory.create userId).getHistory
        ((Pair.init userId s u1 b1 u2 b2).run [false, false, true, true]).store
    ∧ (⟨u2, b2⟩ : Turn) ∈ (ValkeyMemory.create userId).getHistory
        ((Pair.init userId s u1 b1 u2 b2).run [false, false, true, true]).store
    ∧ ((Pair.init userId s u1 b1 u2 b2).run [false, true, false, true]).first.phase = AddPhase.done
    ∧ ((Pair.init userId s u1 b1 u2 b2).run [false, true, false, true]).second.phase = AddPhase.done
    ∧ ((Pair.init userId s u1 b1 u2 b2).run [false, true, false, true]).store
        = (ValkeyMemory.create userId).addToHistory s u2 b2
    ∧ ((⟨u1, b1⟩ : Turn) ∉ (ValkeyMemory.create userId).getHistory s →
        (⟨u1, b1⟩ : Turn) ≠ ⟨u2, b2⟩ →
        (⟨u1, b1⟩ : Turn) ∉ (ValkeyMemory.create userId).getHistory
          ((Pair.init userId s u1 b1 u2 b2).run [false, true, false, true]).store) := by
  have hstore : ((Pair.init userId s u1 b1 u2 b2).run [false, false, true, true]).store
        = (ValkeyMemory.create userId).addToHistory
            ((ValkeyMemory.create userId).addToHistory s u1 b1) u2 b2 := by
    simp [Pair.run, Pair.init, AddCall.step, ValkeyMemory.addToHistory]
  have hinter := interleaved_store userId s u1 b1 u2 b2
  refine ⟨by simp [Pair.run, Pair.init, AddCall.step], by simp [Pair.run, Pair.init, AddCall.step],
    hstore, ?_, ?_, hinter.1, hinter.2.1, hinter.2.2, fun hold hne => by
      rw [hinter.2.2]
      exact not_mem_getHistory_addToHistory userId s u2 b2 ⟨u1, b1⟩ hold hne⟩
  · rw [hstore]
    have h := getHistory_addAll_cons (ValkeyMemory.create userId) [⟨u2, b2⟩] s ⟨u1, b1⟩
    have hfold : (ValkeyMemory.create userId).addAll s [⟨u1, b1⟩, ⟨u2, b2⟩]
        = (ValkeyMemory.create userId).addToHistory
            ((ValkeyMemory.create userId).addToHistory s u1 b1) u2 b2 := by
      simp [ValkeyMemory.addAll]
    have hmax : (ValkeyMemory.create userId).maxHistoryLength = 15 := rfl
    rw [← hfold, h, hmax]
    exact mem_drop_of_suffix 15 _ [⟨u2, b2⟩] ⟨u1, b1⟩ (by simp)
  · have hmax : (ValkeyMemory.create userId).maxHistoryLength = 15 := rfl
    rw [hstore, getHistory_addToHistory, pushAndTrim_eq_drop, hmax]
    exact mem_drop_of_suffix 15 _ [] ⟨u2, b2⟩ (by simp)

/-! ### The query handler -/

/-- A response with status 200 comes from the last statement of the handler: both
parameters are present, retrieval and the model call succeeded, and the pair
returned is the answer together with the store after `addToHistory`. -/
theorem queryHandler_of_status_ok (env : QueryEnv) (store : Store) (req : QueryRequest)
    (h : (queryHandler env store req).1.status = 200) :
    ∃ q uid results raw,
      req.q = some q ∧ req.userId = some uid ∧ q ≠ "" ∧ uid ≠ ""
      ∧ retrieve env.vectorStore q uid = .ok results
      ∧ env.generateContent
          (systemPrompt (env.stringify results)
            (historyText ((ValkeyMemory.create uid).getHistory store)) q) = .ok (some raw)
      ∧ queryHandler env store req
          = ({ status := 200, body := .answer (replaceNewlines raw) results },
              (ValkeyMemory.create uid).addToHistory store q raw) := by
  cases hq : req.q with
  | none => simp [queryHandler, hq, missingParameter] at h
  | some userQuery =>
  cases hu : req.userId with
  | none => simp [queryHandler, hq, hu, missingParameter] at h
  | some userId =>
  by_cases hne : userQuery = "" ∨ userId = ""
  · simp [queryHandler, hq, hu, hne, missingParameter] at h
  cases hr : env.memoryReadError with
  | some e => simp [queryHandler, hq, hu, hne, hr, internalServerError] at h
  | none =>
  cases hc : env.connectError with
  | some e => simp [queryHandler, hq, hu, hne, hr, hc, internalServerError] at h
  | none =>
  cases hres : retrieve env.vectorStore userQuery userId with
  | error e => simp [queryHandler, hq, hu, hne, hr, hc, hres, internalServerError] at h
  | ok results =>
  cases hgen : env.generateContent
      (systemPrompt (env.stringify results)
        (historyText ((ValkeyMemory.create userId).getHistory store)) userQuery) with
  | error e => simp [queryHandler, hq, hu, hne, hr, hc, hres, hgen, internalServerError] at h
  | ok o =>
  cases o with
  | none => simp [queryHandler, hq, hu, hne, hr, hc, hres, hgen, internalServerError] at h
  | some raw =>
  cases hw : env.memoryWriteError with
  | some e => simp [queryHandler, hq, hu, hne, hr, hc, hres, hgen, hw, internalServerError] at h
  | none =>
    push_neg at hne
    refine ⟨userQuery, userId, results, raw, rfl, rfl, hne.1, hne.2, hres, hgen, ?_⟩
    simp [queryHandler, hq, hu, hne.1, hne.2, hr, hc, hres, hgen, hw]

/-- A response whose status is not 200 has no sources. -/
theorem sources_of_status_ne_ok (env : QueryEnv) (store : Store) (req : QueryRequest)
    (h : (queryHandler env store req).1.status ≠ 200) :
    (queryHandler env store req).1.sources = [] := by
  cases hq : req.q with
  | none => simp [queryHandler, hq, missingParameter, Response.sources]
  | some userQuery =>
  cases hu : req.userId with
  | none => simp [queryHandler, hq, hu, missingParameter, Response.sources]
  | some userId =>
  by_cases hne : userQuery = "" ∨ userId = ""
  · simp [queryHandler, hq, hu, hne, missingParameter, Response.sources]
  cases hr : env.memoryReadError with
  | some e => simp [queryHandler, hq, hu, hne, hr, internalServerError, Response.sources]
  | none =>
  cases hc : env.connectError with
  | some e => simp [queryHandler, hq, hu, hne, hr, hc, internalServerError, Response.sources]
  | none =>
  cases hres : retrieve env.vectorStore userQuery userId with
  | error e => simp [queryHandler, hq, hu, hne, hr, hc, hres, internalServerError, Response.sources]
  | ok results =>
  cases hgen : env.generateContent
      (systemPrompt (env.stringify results)
        (historyText ((ValkeyMemory.create userId).getHistory store)) userQuery) with
  | error e =>
    simp [queryHandler, hq, hu, hne, hr, hc, hres, hgen, internalServerError, Response.sources]
  | ok o =>
  cases o with
  | none =>
    simp [queryHandler, hq, hu, hne, hr, hc, hres, hgen, internalServerError, Response.sources]
  | some raw =>
  cases hw : env.memoryWriteError with
  | some e =>
    simp [queryHandler, hq, hu, hne, hr, hc, hres, hgen, hw, internalServerError, Response.sources]
  | none =>
    exfalso
    apply h
    simp [queryHandler, hq, hu, hne, hr, hc, hres, hgen, hw]

/-- On the two fallback paths every retrieved chunk passed the client-side test;
on the filtered path the result is the answer of the store, unchanged. -/
theorem retrieve_cases (vs : VectorStore) (q uid : String) (results : List Doc)
    (h : retrieve vs q uid = .ok results) :
    (∃ unfiltered n, vs.similaritySearch n q 10 none = .ok unfiltered
        ∧ results = unfiltered.filter (ownedBy uid))
    ∨ (vs.similaritySearch 0 q 5 (some { key := "userId", value := uid }) = .ok results) := by
  cases h0 : vs.similaritySearch 0 q 5 (some { key := "userId", value := uid }) with
  | error e =>
    cases h1 : vs.similaritySearch 1 q 10 none with
    | error e1 => simp [retrieve, h0, h1] at h
    | ok unf =>
      simp [retrieve, h0, h1] at h
      exact Or.inl ⟨unf, 1, h1, h.symm⟩
  | ok r =>
    by_cases hlen : r.length = 0
    · cases h1 : vs.similaritySearch 1 q 10 none with
      | error e1 =>
        cases h2 : vs.similaritySearch 2 q 10 none with
        | error e2 => simp [retrieve, h0, h1, h2, hlen] at h
        | ok unf =>
          simp [retrieve, h0, h1, h2, hlen] at h
          exact Or.inl ⟨unf, 2, h2, h.symm⟩
      | ok unf =>
        by_cases hpos : unf.length > 0
        · simp only [retrieve, h0, h1, hlen, hpos, if_true] at h
          injection h with h
          exact Or.inl ⟨unf, 1, h1, h.symm⟩
        · simp only [retrieve, h0, h1, hlen, hpos, if_true, if_false] at h
          injection h with h
          exact Or.inr (by rw [← h])
    · simp only [retrieve, h0, hlen, if_false] at h
      injection h with h
      exact Or.inr (by rw [← h])

/-- The client-side test, spelled out. -/
theorem ownedBy_iff (uid : String) (d : Doc) :
    ownedBy uid d = true ↔ ∃ md, d.metadata = some md ∧ md.userId = some uid := by
  unfold ownedBy
  cases hmd : d.metadata with
  | none => simp
  | some md => simp


/-- On the filtered path the retrieval result is the answer of the filtered
search. -/
theorem retrieve_of_filtered (vs : VectorStore) (q uid : String)
    (h : stageOf vs q uid = .filtered) :
    retrieve vs q uid = vs.similaritySearch 0 q 5 (some { key := "userId", value := uid }) := by
  cases h0 : vs.similaritySearch 0 q 5 (some { key := "userId", value := uid }) with
  | error e => simp [stageOf, h0] at h
  | ok r =>
    by_cases hlen : r.length = 0
    · simp [stageOf, h0, hlen] at h
    · simp only [retrieve, h0, hlen, if_false]

/-- The normalised answer contains no line feed. -/
theorem replaceNewlines_no_newline (raw : String) :
    '\n' ∉ (replaceNewlines raw).data := by
  unfold replaceNewlines
  simp only [List.mem_flatMap, not_exists, not_and]
  intro c _ hmem
  by_cases hc : c = '\n'
  · simp only [hc, if_true] at hmem
    revert hmem
    decide
  · simp only [hc, if_false, List.mem_singleton] at hmem
    exact hc hmem.symm

/-- The turn just added is the last one of the stored history. -/
theorem getLast_getHistory_addToHistory (userId : String) (s : Store) (u b : String) :
    ((ValkeyMemory.create userId).getHistory
      ((ValkeyMemory.create userId).addToHistory s u b)).getLast? = some ⟨u, b⟩ := by
  rw [getHistory_addToHistory, pushAndTrim_eq_drop]
  have hmax : (ValkeyMemory.create userId).maxHistoryLength = 15 := rfl
  rw [hmax, List.drop_append_of_le_length (by simp)]
  simp

/-- Claim C1, refuted as stated: with a vector store whose filtered search
answers with a chunk of another user, the handler responds 200 and returns that
chunk in `sources`; the result of stage 1 is not checked against the requester. -/
theorem sources_foreign_chunk_returned :
    (queryHandler (workingEnv foreignStore "fine") Store.empty
        { q := some "pay", userId := some "alice" }).1.status = 200
    ∧ (queryHandler (workingEnv foreignStore "fine") Store.empty
        { q := some "pay", userId := some "alice" }).1.sources = [chunkOf "salary table" "bob"]
    ∧ ownedBy "alice" (chunkOf "salary table" "bob") = false := by
  decide

/-- Claim C1, amended: if the chunks answered by the filtered search (stage 1)
carry the requester as `metadata.userId`, then so does every chunk of `sources`;
when stage 1 answers nothing or raises, the assumption is empty and the property
holds on both fallback paths for every behaviour of the store. -/
theorem sources_owned_by_requester (env : QueryEnv) (store : Store) (req : QueryRequest)
    (q uid : String) (hq : req.q = some q) (hu : req.userId = some uid)
    (hfilter : ∀ docs,
      env.vectorStore.similaritySearch 0 q 5 (some { key := "userId", value := uid }) = .ok docs →
      ∀ d ∈ docs, ∃ md, d.metadata = some md ∧ md.userId = some uid) :
    ∀ d ∈ (queryHandler env store req).1.sources,
      ∃ md, d.metadata = some md ∧ md.userId = some uid := by
  intro d hd
  by_cases hs : (queryHandler env store req).1.status = 200
  · obtain ⟨q2, uid2, results, raw, hq2, hu2, _, _, hres, _, heq⟩ :=
      queryHandler_of_status_ok env store req hs
    rw [hq] at hq2
    rw [hu] at hu2
    injection hq2 with hq2
    injection hu2 with hu2
    subst hq2
    subst hu2
    rw [heq] at hd
    simp only [Response.sources] at hd
    rcases retrieve_cases env.vectorStore q uid results hres with ⟨unf, n, _, hfil⟩ | hdirect
    · rw [hfil] at hd
      exact (ownedBy_iff uid d).1 (List.mem_filter.1 hd).2
    · exact hfilter results hdirect d hd
  · rw [sources_of_status_ne_ok env store req hs] at hd
    cases hd

/-- Claim C1, amended, at a concrete input: a store that honours the filter. -/
theorem sources_owned_by_requester_witness :
    (∀ docs,
      (workingEnv honestStore "fine").vectorStore.similaritySearch 0 "pay" 5
          (some { key := "userId", value := "alice" }) = .ok docs →
      ∀ d ∈ docs, ∃ md, d.metadata = some md ∧ md.userId = some "alice")
    ∧ (queryHandler (workingEnv honestStore "fine") Store.empty
        { q := some "pay", userId := some "alice" }).1.sources = [chunkOf "notes" "alice"]
    ∧ ∀ d ∈ (queryHandler (workingEnv honestStore "fine") Store.empty
        { q := some "pay", userId := some "alice" }).1.sources,
      ∃ md, d.metadata = some md ∧ md.userId = some "alice" :=
  have hfilter : ∀ docs,
      (workingEnv honestStore "fine").vectorStore.similaritySearch 0 "pay" 5
          (some { key := "userId", value := "alice" }) = .ok docs →
      ∀ d ∈ docs, ∃ md, d.metadata = some md ∧ md.userId = some "alice" := by
    intro docs h d hd
    have hdocs : docs = [chunkOf "notes" "alice"] := by
      simp only [workingEnv, honestStore] at h
      injection h with h
      exact h.symm
    subst hdocs
    simp only [List.mem_singleton] at hd
    subst hd
    exact ⟨_, rfl, rfl⟩
  ⟨hfilter, by decide,
    sources_owned_by_requester (workingEnv honestStore "fine") Store.empty
      { q := some "pay", userId := some "alice" } "pay" "alice" rfl rfl hfilter⟩

/-- Claim C2, refuted as stated: when the filtered search raises and the
unfiltered search (limit 10) answers with six chunks of the requester, all six
are returned as `sources`. -/
theorem sources_six_on_error_fallback :
    (queryHandler (workingEnv outageStore "fine") Store.empty
        { q := some "pay", userId := some "alice" }).1.status = 200
    ∧ stageOf outageStore "pay" "alice" = Stage.errorFallback
    ∧ (queryHandler (workingEnv outageStore "fine") Store.empty
        { q := some "pay", userId := some "alice" }).1.sources.length = 6 := by
  decide

/-- Claim C2, amended: if the store answers a search of limit `k` with at most
`k` chunks, `sources` has at most 5 elements when the filtered search gave a
non-empty result and at most 10 elements on every path (the fallback result is
the unfiltered search of limit 10 filtered by owner, and it is not cut to 5). -/
theorem sources_length_bound (env : QueryEnv) (store : Store) (req : QueryRequest)
    (q uid : String) (hq : req.q = some q) (hu : req.userId = some uid)
    (hk : ∀ n query k filter docs,
      env.vectorStore.similaritySearch n query k filter = .ok docs → docs.length ≤ k) :
    (queryHandler env store req).1.sources.length ≤ 10
    ∧ (stageOf env.vectorStore q uid = Stage.filtered →
        (queryHandler env store req).1.sources.length ≤ 5) := by
  by_cases hs : (queryHandler env store req).1.status = 200
  · obtain ⟨q2, uid2, results, raw, hq2, hu2, _, _, hres, _, heq⟩ :=
      queryHandler_of_status_ok env store req hs
    rw [hq] at hq2
    rw [hu] at hu2
    injection hq2 with hq2
    injection hu2 with hu2
    subst hq2
    subst hu2
    rw [heq]
    simp only [Response.sources]
    constructor
    · rcases retrieve_cases env.vectorStore q uid results hres with ⟨unf, n, hunf, hfil⟩ | hdirect
      · rw [hfil]
        exact le_trans (List.length_filter_le _ _) (hk n q 10 none unf hunf)
      · exact le_trans (hk 0 q 5 _ results hdirect) (by decide)
    · intro hstage
      rw [retrieve_of_filtered env.vectorStore q uid hstage] at hres
      exact hk 0 q 5 _ results hres
  · rw [sources_of_status_ne_ok env store req hs]
    simp

/-- Claim C2, amended, at a concrete input: a store that keeps within the limit
of each search and answers the filtered search with one chunk. -/
theorem sources_length_bound_witness :
    (∀ n query k filter docs,
      (workingEnv honestStore "fine").vectorStore.similaritySearch n query k filter = .ok docs →
        docs.length ≤ k)
    ∧ stageOf (workingEnv honestStore "fine").vectorStore "pay" "alice" = Stage.filtered
    ∧ (queryHandler (workingEnv honestStore "fine") Store.empty
        { q := some "pay", userId := some "alice" }).1.sources.length ≤ 10
    ∧ (stageOf (workingEnv honestStore "fine").vectorStore "pay" "alice" = Stage.filtered →
        (queryHandler (workingEnv honestStore "fine") Store.empty
          { q := some "pay", userId := some "alice" }).1.sources.length ≤ 5) :=
  have hk : ∀ n query k filter docs,
      (workingEnv honestStore "fine").vectorStore.similaritySearch n query k filter = .ok docs →
        docs.length ≤ k := by
    intro n query k filter docs h
    cases filter with
    | none =>
      simp only [workingEnv, honestStore] at h
      injection h with h
      rw [← h]
      exact List.length_take_le _ _
    | some f =>
      simp only [workingEnv, honestStore] at h
      injection h with h
      rw [← h]
      exact List.length_take_le _ _
  ⟨hk, by decide,
    sources_length_bound (workingEnv honestStore "fine") Store.empty
      { q := some "pay", userId := some "alice" } "pay" "alice" rfl rfl hk⟩

/-- Claim C10. A request answered with status 200 appended exactly the turn
`{ user: q, bot: raw }` where `raw` is the text the model returned: the store after
the request is `addToHistory store q raw`, the last stored turn is that pair, the
`answer` of the response is `raw` with every line feed replaced by `<br/>`, and
when `raw` contains a line feed the stored text keeps it and differs from the
answer. -/
theorem stored_turn_is_raw (env : QueryEnv) (store : Store) (req : QueryRequest)
    (h : (queryHandler env store req).1.status = 200) :
    ∃ q uid results raw,
      req.q = some q ∧ req.userId = some uid
      ∧ env.generateContent
          (systemPrompt (env.stringify results)
            (historyText ((ValkeyMemory.create uid).getHistory store)) q) = .ok (some raw)
      ∧ (queryHandler env store req).2 = (ValkeyMemory.create uid).addToHistory store q raw
      ∧ ((ValkeyMemory.create uid).getHistory (queryHandler env store req).2).getLast?
          = some { user := q, bot := raw }
      ∧ (queryHandler env store req).1.body = .answer (replaceNewlines raw) results
      ∧ ('\n' ∈ raw.data → raw ≠ replaceNewlines raw) := by
  obtain ⟨q, uid, results, raw, hq, hu, _, _, _, hgen, heq⟩ :=
    queryHandler_of_status_ok env store req h
  refine ⟨q, uid, results, raw, hq, hu, hgen, by rw [heq], ?_, by rw [heq], ?_⟩
  · rw [heq]
    exact getLast_getHistory_addToHistory uid store q raw
  · intro hmem heqraw
    rw [heqraw] at hmem
    exact replaceNewlines_no_newline raw hmem

/-- Claim C10, at a concrete input: the model answers with two lines. -/
theorem stored_turn_is_raw_witness :
    (queryHandler (workingEnv honestStore "line one\nline two") Store.empty
        { q := some "pay", userId := some "alice" }).1.status = 200
    ∧ (ValkeyMemory.create "alice").getHistory
        (queryHandler (workingEnv honestStore "line one\nline two") Store.empty
          { q := some "pay", userId := some "alice" }).2
        = [{ user := "pay", bot := "line one\nline two" }]
    ∧ (queryHandler (workingEnv honestStore "line one\nline two") Store.empty
        { q := some "pay", userId := some "alice" }).1.body
        = .answer "line one<br/>line two" [chunkOf "notes" "alice"]
    ∧ ∃ q uid results raw,
      ({ q := some "pay", userId := some "alice" } : QueryRequest).q = some q
      ∧ ({ q := some "pay", userId := some "alice" } : QueryRequest).userId = some uid
      ∧ (workingEnv honestStore "line one\nline two").generateContent
          (systemPrompt ((workingEnv honestStore "line one\nline two").stringify results)
            (historyText ((ValkeyMemory.create uid).getHistory Store.empty)) q) = .ok (some raw)
      ∧ (queryHandler (workingEnv honestStore "line one\nline two") Store.empty
          { q := some "pay", userId := some "alice" }).2
          = (ValkeyMemory.create uid).addToHistory Store.empty q raw
      ∧ ((ValkeyMemory.create uid).getHistory
          (queryHandler (workingEnv honestStore "line one\nline two") Store.empty
            { q := some "pay", userId := some "alice" }).2).getLast?
          = some { user := q, bot := raw }
      ∧ (queryHandler (workingEnv honestStore "line one\nline two") Store.empty
          { q := some "pay", userId := some "alice" }).1.body = .answer (replaceNewlines raw) results
      ∧ ('\n' ∈ raw.data → raw ≠ replaceNewlines raw) :=
  ⟨by decide, by decide, by decide,
    stored_turn_is_raw (workingEnv honestStore "line one\nline two") Store.empty
      { q := some "pay", userId := some "alice" } (by decide)⟩

/-! ### The ingestion worker -/

/-- The processor never raises: whatever its body did, the `catch` returns. -/
theorem processor_returns (env : WorkerEnv) (job : Job) (w : World) :
    (processor env job w).2 = .ok () := by
  unfold processor
  rcases processorBody env job w with ⟨w1, r⟩
  cases r <;> rfl

/-- The `catch` changes nothing but the error lines. -/
theorem processor_world (env : WorkerEnv) (job : Job) (w : World) :
    (processor env job w).1.files = (processorBody env job w).1.files
    ∧ (processor env job w).1.index = (processorBody env job w).1.index := by
  unfold processor
  rcases processorBody env job w with ⟨w1, r⟩
  cases r <;> exact ⟨rfl, rfl⟩

/-- An error raised in the body ends up as one more line of `console.error`. -/
theorem processor_logs (env : WorkerEnv) (job : Job) (w : World) (e : String)
    (h : (processorBody env job w).2 = .error e) :
    (processor env job w).1.errors = (processorBody env job w).1.errors ++ ["Worker job failed: " ++ e] := by
  unfold processor
  rcases hb : processorBody env job w with ⟨w1, r⟩
  rw [hb] at h
  simp only at h
  subst h
  rfl

/-- The body of the processor once the job data was read and the download
succeeded: the file is written, then loading, splitting, the upsert and the
removal of the file follow. -/
theorem processorBody_after_download (env : WorkerEnv) (job : Job) (w : World) (data : JobData)
    (userId : String) (bytes : Bytes)
    (hname : job.name = "file-ready") (hdata : job.data = some data)
    (huser : truthy data.userId = some userId) (hget : env.axiosGet data.path = .ok bytes) :
    processorBody env job w =
      match env.load bytes with
      | .error e => (writeFileSync w (tempFilePath env) bytes, .error e)
      | .ok docs =>
          if docs.length = 0 then
            (writeFileSync w (tempFilePath env) bytes, .error "No content extracted from PDF")
          else if (splitDocs env data userId docs).length = 0 then
            (writeFileSync w (tempFilePath env) bytes,
              .error "No valid content chunks generated from PDF")
          else
            match upsert env (writeFileSync w (tempFilePath env) bytes)
                (splitDocs env data userId docs) with
            | (w2, .error e) => (w2, .error e)
            | (w2, .ok _) =>
                match unlinkSync w2 (tempFilePath env) with
                | .error e => (w2, .error e)
                | .ok w3 => (w3, .ok ()) := by
  simp only [processorBody, hname, hdata, huser, hget, writeFileSync, if_true]

/-- The upsert leaves the files alone; when it raises it leaves the collection
alone too. -/
theorem upsert_frame (env : WorkerEnv) (w : World) (docs : List Doc) :
    (upsert env w docs).1.files = w.files
    ∧ (∀ e, (upsert env w docs).2 = .error e → (upsert env w docs).1.index = w.index) := by
  unfold upsert
  cases env.addDocuments docs with
  | ok u => exact ⟨rfl, fun e h => by cases h⟩
  | error e1 =>
    cases env.fromDocuments docs with
    | ok u => exact ⟨rfl, fun e h => by cases h⟩
    | error e2 => exact ⟨rfl, fun _ _ => rfl⟩

/-- Claim C9, where the code departs from it: when the download succeeded and a
later step raises (loading, the two content checks, the upsert), the processor
returns normally and the temporary file it wrote is still there with the
downloaded content: `fs.unlinkSync` sits at the end of the `try` and the `catch`
removes nothing. -/
theorem temp_file_left_after_error (env : WorkerEnv) (job : Job) (w : World) (data : JobData)
    (userId : String) (bytes : Bytes) (e : String)
    (hname : job.name = "file-ready") (hdata : job.data = some data)
    (huser : truthy data.userId = some userId) (hget : env.axiosGet data.path = .ok bytes)
    (hraise : (processorBody env job w).2 = .error e) :
    (processor env job w).2 = .ok ()
    ∧ (processor env job w).1.files (tempFilePath env) = some bytes := by
  refine ⟨processor_returns env job w, ?_⟩
  rw [(processor_world env job w).1]
  have hfile : (writeFileSync w (tempFilePath env) bytes).files (tempFilePath env) = some bytes := by
    simp [writeFileSync]
  rw [processorBody_after_download env job w data userId bytes hname hdata huser hget] at hraise ⊢
  cases hl : env.load bytes with
  | error e1 => simpa [hl] using hfile
  | ok docs =>
    by_cases h0 : docs.length = 0
    · simpa [hl, h0] using hfile
    · by_cases h1 : (splitDocs env data userId docs).length = 0
      · simp only [hl, h0, h1, if_true, if_false]
        exact hfile
      · have hfr := upsert_frame env (writeFileSync w (tempFilePath env) bytes)
          (splitDocs env data userId docs)
        simp only [hl, h0, h1, if_false] at hraise ⊢
        rcases hu : upsert env (writeFileSync w (tempFilePath env) bytes)
          (splitDocs env data userId docs) with ⟨w2, r⟩
        rw [hu] at hraise hfr
        simp only at hfr
        cases r with
        | error e2 =>
          simp only
          rw [hfr.1]
          exact hfile
        | ok u =>
          have hex : w2.files (tempFilePath env) = some bytes := by rw [hfr.1]; exact hfile
          simp only [unlinkSync, hex] at hraise
          cases hraise

/-- Claim C9, at a concrete input: a PDF from which the loader extracts no page. -/
theorem temp_file_left_after_error_witness :
    aliceJob.name = "file-ready"
    ∧ (processorBody (workingWorker []) aliceJob World.empty).2
        = .error "No content extracted from PDF"
    ∧ (processor (workingWorker []) aliceJob World.empty).2 = .ok ()
    ∧ (processor (workingWorker []) aliceJob World.empty).1.files (tempFilePath (workingWorker []))
        = some [37, 80, 68, 70] :=
  ⟨rfl, rfl,
    temp_file_left_after_error (workingWorker []) aliceJob World.empty aliceData "alice"
      [37, 80, 68, 70]
      "No content extracted from PDF" rfl rfl rfl rfl rfl⟩

/-- On the path without error the file is removed: when the body runs to its end
after a successful download, the temporary path holds no file. -/
theorem temp_file_removed_on_success (env : WorkerEnv) (job : Job) (w : World) (data : JobData)
    (userId : String) (bytes : Bytes)
    (hname : job.name = "file-ready") (hdata : job.data = some data)
    (huser : truthy data.userId = some userId) (hget : env.axiosGet data.path = .ok bytes)
    (hok : (processorBody env job w).2 = .ok ()) :
    (processor env job w).1.files (tempFilePath env) = none := by
  rw [(processor_world env job w).1]
  rw [processorBody_after_download env job w data userId bytes hname hdata huser hget] at hok ⊢
  cases hl : env.load bytes with
  | error e1 => simp [hl] at hok
  | ok docs =>
    by_cases h0 : docs.length = 0
    · simp [hl, h0] at hok
    · by_cases h1 : (splitDocs env data userId docs).length = 0
      · simp [hl, h0, h1] at hok
      · simp only [hl, h0, h1, if_false] at hok ⊢
        rcases hu : upsert env (writeFileSync w (tempFilePath env) bytes)
          (splitDocs env data userId docs) with ⟨w2, r⟩
        rw [hu] at hok
        cases r with
        | error e2 => simp at hok
        | ok u =>
          simp only at hok ⊢
          cases hx : w2.files (tempFilePath env) with
          | none => simp [unlinkSync, hx] at hok
          | some b => simp [unlinkSync, hx]

/-- Claim C6, where the code departs from it: when the body of the processor
raises `e`, the `catch` writes one line to `console.error` and the processor
returns, so what the queue receives is a processor that finished and the job is
recorded as `completed`, not as `failed` with the cause. -/
theorem failed_job_recorded_completed (env : WorkerEnv) (job : Job) (w : World) (e : String)
    (hraise : (processorBody env job w).2 = .error e) :
    settle (processor env job w).2 = JobState.completed
    ∧ settle (processor env job w).2 ≠ JobState.failed e
    ∧ (processor env job w).1.errors
        = (processorBody env job w).1.errors ++ ["Worker job failed: " ++ e] := by
  rw [processor_returns env job w]
  exact ⟨rfl, by simp [settle], processor_logs env job w e hraise⟩

/-- Claim C6, at a concrete input: a job whose data carries no `userId`. -/
theorem failed_job_recorded_completed_witness :
    (processorBody (workingWorker []) anonymousJob World.empty).2
        = .error "Missing userId in job data"
    ∧ settle (processor (workingWorker []) anonymousJob World.empty).2 = JobState.completed
    ∧ settle (processor (workingWorker []) anonymousJob World.empty).2
        ≠ JobState.failed "Missing userId in job data"
    ∧ (processor (workingWorker []) anonymousJob World.empty).1.errors
        = (processorBody (workingWorker []) anonymousJob World.empty).1.errors
          ++ ["Worker job failed: " ++ "Missing userId in job data"] :=
  ⟨rfl, failed_job_recorded_completed (workingWorker []) anonymousJob World.empty
    "Missing userId in job data" rfl⟩

/-- Every page has its decorated document in `docsWithMetadata`. -/
theorem withMetadata_mem (env : WorkerEnv) (data : JobData) (userId : String) (page : Page)
    (pages : List Page) (hmem : page ∈ pages) :
    ∀ i, ∃ j, withMetadata env data userId j page ∈ docsWithMetadata env data userId i pages := by
  induction pages with
  | nil => cases hmem
  | cons p rest ih =>
    intro i
    rcases List.mem_cons.1 hmem with h | h
    · subst h
      exact ⟨i, by simp [docsWithMetadata]⟩
    · obtain ⟨j, hj⟩ := ih h (i + 1)
      exact ⟨j, by simp [docsWithMetadata, hj]⟩

/-- Every decorated document carries a generated identifier. -/
theorem docsWithMetadata_id (env : WorkerEnv) (data : JobData) (userId : String)
    (pages : List Page) :
    ∀ i, ∀ d ∈ docsWithMetadata env data userId i pages,
      ∃ md j, d.metadata = some md ∧ md._id = some (env.uuidv4 j) := by
  induction pages with
  | nil => intro i d hd; cases hd
  | cons p rest ih =>
    intro i d hd
    simp only [docsWithMetadata, List.mem_cons] at hd
    rcases hd with h | h
    · subst h
      exact ⟨_, i, rfl, rfl⟩
    · exact ih (i + 1) d h

/-- A chunk has the metadata of the document it was cut from. -/
theorem splitDocuments_metadata (splitText : String → List String) (docs : List Doc) (d : Doc)
    (hd : d ∈ splitDocuments splitText docs) :
    ∃ d0 ∈ docs, d.metadata = d0.metadata := by
  simp only [splitDocuments, List.mem_flatMap, List.mem_map] at hd
  obtain ⟨d0, hd0, chunk, _, hc⟩ := hd
  exact ⟨d0, hd0, by rw [← hc]⟩

/-- The identifier loop changes nothing when every document already has a
non-empty identifier. -/
theorem ensureIds_eq_self (uuidv4 : Nat → String) (docs : List Doc) :
    ∀ n, (∀ d ∈ docs, ∃ md s, d.metadata = some md ∧ md._id = some s ∧ s ≠ "") →
      ensureIds uuidv4 n docs = docs := by
  induction docs with
  | nil => intro n _; rfl
  | cons d rest ih =>
    intro n h
    obtain ⟨md, s, hmd, hid, hs⟩ := h d (List.mem_cons_self _ _)
    have hrest := ih n (fun d2 hd2 => h d2 (List.mem_cons_of_mem _ hd2))
    cases d with
    | mk content metadata =>
      simp only at hmd
      subst hmd
      simp [ensureIds, truthy, hid, hs, hrest]

/-- Claim C8, where the code departs from it: the identifier is generated once
per extracted page and copied to every chunk of the page, and the loop that is
meant to give each chunk its own identifier only fills in a missing one. So when
some page is cut into two or more chunks, the `_id` values of the chunks handed
to the vector index are not pairwise distinct. -/
theorem chunks_of_a_page_share_id (env : WorkerEnv) (data : JobData) (userId : String)
    (pages : List Page) (page : Page)
    (hmem : page ∈ pages) (huuid : ∀ n, env.uuidv4 n ≠ "")
    (hsplit : 2 ≤ (env.splitText (contentOf page)).length) :
    ¬ ((splitDocs env data userId pages).map Doc.chunkId).Nodup := by
  intro hnodup
  have hsame : splitDocs env data userId pages
      = splitDocuments env.splitText (docsWithMetadata env data userId 0 pages) := by
    unfold splitDocs
    apply ensureIds_eq_self
    intro d hd
    obtain ⟨d0, hd0, hmeta⟩ := splitDocuments_metadata _ _ d hd
    obtain ⟨md, j, hmd, hid⟩ := docsWithMetadata_id env data userId pages 0 d0 hd0
    exact ⟨md, env.uuidv4 j, by rw [hmeta, hmd], hid, huuid j⟩
  rw [hsame] at hnodup
  obtain ⟨j, hj⟩ := withMetadata_mem env data userId page pages hmem 0
  have hsub : List.Sublist
      ((env.splitText (contentOf page)).map fun chunk =>
        ({ pageContent := chunk, metadata := (withMetadata env data userId j page).metadata } : Doc))
      (splitDocuments env.splitText (docsWithMetadata env data userId 0 pages)) := by
    unfold splitDocuments
    rw [List.flatMap_def]
    apply List.sublist_flatten_of_mem
    exact List.mem_map.2 ⟨_, hj, rfl⟩
  have hnd := List.Nodup.sublist (hsub.map Doc.chunkId) hnodup
  rcases hc : env.splitText (contentOf page) with _ | ⟨c1, _ | ⟨c2, rest⟩⟩
  · rw [hc] at hsplit; simp at hsplit
  · rw [hc] at hsplit; simp at hsplit
  · rw [hc] at hnd
    simp [Doc.chunkId, withMetadata] at hnd

set_option maxRecDepth 100000 in
/-- Claim C8, at a concrete input: one page of 1200 characters without a
separator is cut into two chunks, and both carry the identifier `id-0`. -/
theorem chunks_of_a_page_share_id_witness :
    longPage ∈ [longPage]
    ∧ 2 ≤ ((workingWorker []).splitText (contentOf longPage)).length
    ∧ (splitDocs (workingWorker []) aliceData "alice" [longPage]).map Doc.chunkId
        = [some "id-0", some "id-0"]
    ∧ ¬ ((splitDocs (workingWorker []) aliceData "alice" [longPage]).map Doc.chunkId).Nodup :=
  ⟨List.mem_singleton.2 rfl, by decide, by decide,
    chunks_of_a_page_share_id (workingWorker []) aliceData "alice" [longPage] longPage
      (List.mem_singleton.2 rfl)
      (by
        intro n h
        have hlen := congrArg String.length h
        simp only [workingWorker, String.length_append] at hlen
        have h3 : "id-".length = 3 := by decide
        have h0 : "".length = 0 := by decide
        omega)
      (by decide)⟩

/-- The text of every decorated document is the text given to its page. -/
theorem docsWithMetadata_content (env : WorkerEnv) (data : JobData) (userId : String)
    (pages : List Page) :
    ∀ i, ∀ d ∈ docsWithMetadata env data userId i pages,
      ∃ p ∈ pages, d.pageContent = contentOf p := by
  induction pages with
  | nil => intro i d hd; cases hd
  | cons p rest ih =>
    intro i d hd
    simp only [docsWithMetadata, List.mem_cons] at hd
    rcases hd with h | h
    · subst h
      exact ⟨p, List.mem_cons_self _ _, rfl⟩
    · obtain ⟨p2, hp2, hc⟩ := ih (i + 1) d h
      exact ⟨p2, List.mem_cons_of_mem _ hp2, hc⟩

/-- Claim C7, refuted as stated: for a PDF whose single page has an empty text
the body of the processor runs to its end, and the collection receives a chunk
whose text is the placeholder `Empty document content`. -/
theorem empty_page_placeholder_indexed :
    (processorBody (workingWorker [blankPage]) aliceJob World.empty).2 = .ok ()
    ∧ (processor (workingWorker [blankPage]) aliceJob World.empty).1.index
      = [{ pageContent := "Empty document content"
           metadata := some
             { _id := some "id-0"
               userId := some "alice"
               filename := some "report.pdf"
               uploadDate := some "2025-04-30T08:00:00.000Z"
               source := some "https://res.cloudinary.com/demo/raw/upload/pdf-uploads/file-1-report.pdf"
               pageNumber := some 1 } }] :=
  ⟨rfl, by decide⟩

/-- Claim C7, amended: after a successful download of a document whose extraction
yields zero text, (1) when there is no page the body of the processor raises
`No content extracted from PDF` and the collection is left as it was; (2) when
there are pages, all with an empty text, each document sent to the splitter has
the placeholder `Empty document content` as its text, and when the splitter
gives chunks and `addDocuments` succeeds those chunks are added to the
collection. -/
theorem zero_text_extraction (env : WorkerEnv) (job : Job) (w : World) (data : JobData)
    (userId : String) (bytes : Bytes) (pages : List Page)
    (hname : job.name = "file-ready") (hdata : job.data = some data)
    (huser : truthy data.userId = some userId) (hget : env.axiosGet data.path = .ok bytes)
    (hload : env.load bytes = .ok pages)
    (hempty : ∀ p ∈ pages, p.pageContent = "") :
    (pages = [] →
      (processorBody env job w).2 = .error "No content extracted from PDF"
      ∧ (processor env job w).1.index = w.index)
    ∧ (pages ≠ [] →
      (∀ d ∈ docsWithMetadata env data userId 0 pages, d.pageContent = "Empty document content")
      ∧ (splitDocs env data userId pages ≠ [] →
          env.addDocuments (splitDocs env data userId pages) = .ok () →
          (processor env job w).1.index = w.index ++ splitDocs env data userId pages)) := by
  have hbody := processorBody_after_download env job w data userId bytes hname hdata huser hget
  rw [hload] at hbody
  simp only at hbody
  constructor
  · intro hnil
    subst hnil
    rw [(processor_world env job w).2, hbody]
    simp [writeFileSync]
  · intro hne
    constructor
    · intro d hd
      obtain ⟨p, hp, hc⟩ := docsWithMetadata_content env data userId pages 0 d hd
      rw [hc, contentOf, hempty p hp]
      rfl
    · intro hchunks hadd
      have h0 : ¬ pages.length = 0 := fun h => hne (List.length_eq_zero.1 h)
      have h1 : ¬ (splitDocs env data userId pages).length = 0 :=
        fun h => hchunks (List.length_eq_zero.1 h)
      rw [(processor_world env job w).2, hbody]
      simp [h0, h1, upsert, hadd, unlinkSync, writeFileSync]

/-- Claim C7, amended, at a concrete input: a PDF with one page of empty text. -/
theorem zero_text_extraction_witness :
    (workingWorker [blankPage]).load [37, 80, 68, 70] = .ok [blankPage]
    ∧ (∀ p ∈ [blankPage], p.pageContent = "")
    ∧ (([blankPage] = [] →
        (processorBody (workingWorker [blankPage]) aliceJob World.empty).2
          = .error "No content extracted from PDF"
        ∧ (processor (workingWorker [blankPage]) aliceJob World.empty).1.index
          = World.empty.index)
      ∧ ([blankPage] ≠ [] →
        (∀ d ∈ docsWithMetadata (workingWorker [blankPage]) aliceData "alice" 0 [blankPage],
          d.pageContent = "Empty document content")
        ∧ (splitDocs (workingWorker [blankPage]) aliceData "alice" [blankPage] ≠ [] →
            (workingWorker [blankPage]).addDocuments
              (splitDocs (workingWorker [blankPage]) aliceData "alice" [blankPage]) = .ok () →
            (processor (workingWorker [blankPage]) aliceJob World.empty).1.index
              = World.empty.index
                ++ splitDocs (workingWorker [blankPage]) aliceData "alice" [blankPage]))) :=
  ⟨rfl, by decide,
    zero_text_extraction (workingWorker [blankPage]) aliceJob World.empty aliceData "alice"
      [37, 80, 68, 70] [blankPage] rfl rfl rfl rfl rfl (by decide)⟩

/-! ### The query handler: failures and the fallback -/

/-- Claim C11. For a request with both parameters, if the memory read raises, or
connecting to the index raises, or retrieval raises, or retrieval succeeds and
the model call raises or yields no text, then the handler answers with the 500
response and the Valkey store after the request is the store before it. -/
theorem no_memory_write_on_failure (env : QueryEnv) (store : Store) (req : QueryRequest)
    (q uid : String) (hq : req.q = some q) (hu : req.userId = some uid)
    (hq0 : q ≠ "") (hu0 : uid ≠ "")
    (hfail : env.memoryReadError ≠ none ∨ env.connectError ≠ none
      ∨ (∃ e, retrieve env.vectorStore q uid = .error e)
      ∨ (∃ results, retrieve env.vectorStore q uid = .ok results
          ∧ ∀ raw, env.generateContent
              (systemPrompt (env.stringify results)
                (historyText ((ValkeyMemory.create uid).getHistory store)) q) ≠ .ok (some raw))) :
    (queryHandler env store req).1 = internalServerError
    ∧ (queryHandler env store req).1.status = 500
    ∧ (queryHandler env store req).2 = store := by
  have hne : ¬ (q = "" ∨ uid = "") := by
    push_neg
    exact ⟨hq0, hu0⟩
  have key : queryHandler env store req = (internalServerError, store) := by
    cases hr : env.memoryReadError with
    | some e => simp [queryHandler, hq, hu, hne, hr]
    | none =>
    cases hc : env.connectError with
    | some e => simp [queryHandler, hq, hu, hne, hr, hc]
    | none =>
    cases hres : retrieve env.vectorStore q uid with
    | error e => simp [queryHandler, hq, hu, hne, hr, hc, hres]
    | ok results =>
    rcases hfail with h | h | ⟨e, h⟩ | ⟨results2, h, hgen⟩
    · exact absurd hr h
    · exact absurd hc h
    · rw [hres] at h
      cases h
    · rw [hres] at h
      injection h with h
      subst h
      cases hg : env.generateContent
          (systemPrompt (env.stringify results)
            (historyText ((ValkeyMemory.create uid).getHistory store)) q) with
      | error e => simp [queryHandler, hq, hu, hne, hr, hc, hres, hg]
      | ok o =>
        cases o with
        | none => simp [queryHandler, hq, hu, hne, hr, hc, hres, hg]
        | some raw => exact absurd hg (hgen raw)
  rw [key]
  exact ⟨rfl, rfl, rfl⟩

/-- Claim C11, at a concrete input: the model call raises, and a history that was
stored before is still the stored history. -/
theorem no_memory_write_on_failure_witness :
    (∃ results, retrieve (modelDownEnv honestStore).vectorStore "pay" "alice" = .ok results
        ∧ ∀ raw, (modelDownEnv honestStore).generateContent
            (systemPrompt ((modelDownEnv honestStore).stringify results)
              (historyText ((ValkeyMemory.create "alice").getHistory
                ((ValkeyMemory.create "alice").addToHistory Store.empty "hi" "hello"))) "pay")
            ≠ .ok (some raw))
    ∧ (ValkeyMemory.create "alice").getHistory
        (queryHandler (modelDownEnv honestStore)
          ((ValkeyMemory.create "alice").addToHistory Store.empty "hi" "hello")
          { q := some "pay", userId := some "alice" }).2 = [{ user := "hi", bot := "hello" }]
    ∧ (queryHandler (modelDownEnv honestStore)
          ((ValkeyMemory.create "alice").addToHistory Store.empty "hi" "hello")
          { q := some "pay", userId := some "alice" }).1 = internalServerError
    ∧ (queryHandler (modelDownEnv honestStore)
          ((ValkeyMemory.create "alice").addToHistory Store.empty "hi" "hello")
          { q := some "pay", userId := some "alice" }).1.status = 500
    ∧ (queryHandler (modelDownEnv honestStore)
          ((ValkeyMemory.create "alice").addToHistory Store.empty "hi" "hello")
          { q := some "pay", userId := some "alice" }).2
        = (ValkeyMemory.create "alice").addToHistory Store.empty "hi" "hello" :=
  have hfail : ∃ results, retrieve (modelDownEnv honestStore).vectorStore "pay" "alice" = .ok results
        ∧ ∀ raw, (modelDownEnv honestStore).generateContent
            (systemPrompt ((modelDownEnv honestStore).stringify results)
              (historyText ((ValkeyMemory.create "alice").getHistory
                ((ValkeyMemory.create "alice").addToHistory Store.empty "hi" "hello"))) "pay")
            ≠ .ok (some raw) :=
    ⟨[chunkOf "notes" "alice"], rfl, fun raw h => by cases h⟩
  ⟨hfail, by decide,
    no_memory_write_on_failure (modelDownEnv honestStore)
      ((ValkeyMemory.create "alice").addToHistory Store.empty "hi" "hello")
      { q := some "pay", userId := some "alice" } "pay" "alice" rfl rfl (by decide) (by decide)
      (Or.inr (Or.inr (Or.inr hfail)))⟩

/-- The traced retrieval block computes the result of `retrieve`: the search made
with `n` calls in the log is the `n`-th search that `retrieve` asks for. -/
theorem retrieveTraced_result (vs : VectorStore) (q uid : String) :
    (retrieveTraced vs q uid).1 = retrieve vs q uid := by
  cases h0 : vs.similaritySearch 0 q 5 (some { key := "userId", value := uid }) with
  | error e =>
    cases h1 : vs.similaritySearch 1 q 10 none with
    | error e1 => simp [retrieveTraced, searchLogged, retrieve, h0, h1]
    | ok unf => simp [retrieveTraced, searchLogged, retrieve, h0, h1]
  | ok r =>
    by_cases hlen : r.length = 0
    · cases h1 : vs.similaritySearch 1 q 10 none with
      | error e1 =>
        cases h2 : vs.similaritySearch 2 q 10 none with
        | error e2 => simp [retrieveTraced, searchLogged, retrieve, h0, h1, h2, hlen]
        | ok unf => simp [retrieveTraced, searchLogged, retrieve, h0, h1, h2, hlen]
      | ok unf =>
        by_cases hpos : unf.length > 0
        · simp only [retrieveTraced, searchLogged, retrieve, h0, h1, hlen, hpos, if_true,
            List.length_nil, List.nil_append, List.length_singleton]
        · simp only [retrieveTraced, searchLogged, retrieve, h0, h1, hlen, hpos, if_true,
            if_false, List.length_nil, List.nil_append, List.length_singleton]
    · simp only [retrieveTraced, searchLogged, retrieve, h0, hlen, if_false, List.length_nil]

/-- Claim C18. (1) The traced retrieval block has the result of `retrieve`.
(2) When the filtered search answers with at least one chunk, the retrieval
result is that answer unchanged and the filtered search is the only search
issued. (3) When the filtered search answers with no chunk and the unfiltered
search of limit 10 answers, the result is that answer restricted, in its order,
to the chunks whose `metadata.userId` is the requester, and the searches issued
are the filtered one and that unfiltered one. (4) When the filtered search
answers with no chunk and the unfiltered search raises, the `catch` issues the
unfiltered search again and the result is its answer restricted in the same
way. (5) When the filtered search raises, the unfiltered search of limit 10 is
issued and the result is its answer restricted in the same way. (6) When the
last unfiltered search issued raises as well, the block raises that error and
there is no retrieval result. (7) The restriction keeps exactly the chunks that
have a metadata object whose `userId` is the requester. -/
theorem retrieve_by_stage (vs : VectorStore) (q uid : String) :
    (retrieveTraced vs q uid).1 = retrieve vs q uid
    ∧ (∀ results,
        vs.similaritySearch 0 q 5 (some { key := "userId", value := uid }) = .ok results →
        results ≠ [] →
          retrieve vs q uid = .ok results
          ∧ (retrieveTraced vs q uid).2 = [(5, some { key := "userId", value := uid })])
    ∧ (∀ unfiltered,
        vs.similaritySearch 0 q 5 (some { key := "userId", value := uid }) = .ok [] →
        vs.similaritySearch 1 q 10 none = .ok unfiltered →
          retrieve vs q uid = .ok (unfiltered.filter (ownedBy uid))
          ∧ (retrieveTraced vs q uid).2
              = [(5, some { key := "userId", value := uid }), (10, none)])
    ∧ (∀ e unfiltered,
        vs.similaritySearch 0 q 5 (some { key := "userId", value := uid }) = .ok [] →
        vs.similaritySearch 1 q 10 none = .error e →
        vs.similaritySearch 2 q 10 none = .ok unfiltered →
          retrieve vs q uid = .ok (unfiltered.filter (ownedBy uid))
          ∧ (retrieveTraced vs q uid).2
              = [(5, some { key := "userId", value := uid }), (10, none), (10, none)])
    ∧ (∀ e unfiltered,
        vs.similaritySearch 0 q 5 (some { key := "userId", value := uid }) = .error e →
        vs.similaritySearch 1 q 10 none = .ok unfiltered →
          retrieve vs q uid = .ok (unfiltered.filter (ownedBy uid))
          ∧ (retrieveTraced vs q uid).2
              = [(5, some { key := "userId", value := uid }), (10, none)])
    ∧ (∀ e e2,
        (vs.similaritySearch 0 q 5 (some { key := "userId", value := uid }) = .error e
          ∧ vs.similaritySearch 1 q 10 none = .error e2
        ∨ vs.similaritySearch 0 q 5 (some { key := "userId", value := uid }) = .ok []
          ∧ vs.similaritySearch 1 q 10 none = .error e
          ∧ vs.similaritySearch 2 q 10 none = .error e2) →
          retrieve vs q uid = .error e2)
    ∧ (∀ (unfiltered : List Doc) (d : Doc),
        d ∈ unfiltered.filter (ownedBy uid)
          ↔ d ∈ unfiltered ∧ ∃ md, d.metadata = some md ∧ md.userId = some uid) := by
  refine ⟨retrieveTraced_result vs q uid, ?_, ?_, ?_, ?_, ?_, ?_⟩
  · intro results h0 hne
    have hlen : ¬ results.length = 0 := fun h => hne (List.length_eq_zero.1 h)
    constructor
    · simp only [retrieve, h0, hlen, if_false]
    · simp only [retrieveTraced, searchLogged, h0, hlen, if_false, List.length_nil,
        List.nil_append]
  · intro unfiltered h0 h1
    by_cases hpos : unfiltered.length > 0
    · constructor
      · simp only [retrieve, h0, h1, List.length_nil, if_true, hpos]
      · simp only [retrieveTraced, searchLogged, h0, h1, List.length_nil, if_true, hpos,
          List.nil_append, List.length_singleton, List.singleton_append]
    · have hnil : unfiltered = [] := List.length_eq_zero.1 (by omega)
      subst hnil
      constructor
      · simp [retrieve, h0, h1]
      · simp [retrieveTraced, searchLogged, h0, h1]
  · intro e unfiltered h0 h1 h2
    constructor
    · simp [retrieve, h0, h1, h2]
    · simp [retrieveTraced, searchLogged, h0, h1, h2]
  · intro e unfiltered h0 h1
    constructor
    · simp [retrieve, h0, h1]
    · simp [retrieveTraced, searchLogged, h0, h1]
  · rintro e e2 (⟨h0, h1⟩ | ⟨h0, h1, h2⟩)
    · simp [retrieve, h0, h1]
    · simp [retrieve, h0, h1, h2]
  · intro unfiltered d
    rw [List.mem_filter, ownedBy_iff]

/-- Claim C18, at concrete inputs: a store whose filtered search raises, one
whose filtered search finds nothing, one whose first unfiltered search raises as
well, and one that honours the filter. -/
theorem retrieve_by_stage_witness :
    (retrieve outageStore "pay" "alice"
        = .ok ((List.range 6).map fun i => chunkOf (toString i) "alice")
      ∧ (retrieveTraced outageStore "pay" "alice").2
        = [(5, some { key := "userId", value := "alice" }), (10, none)])
    ∧ (retrieve driftStore "pay" "alice" = .ok [chunkOf "notes" "alice"]
      ∧ (retrieveTraced driftStore "pay" "alice").2
        = [(5, some { key := "userId", value := "alice" }), (10, none)])
    ∧ (retrieve flakyStore "pay" "alice" = .ok [chunkOf "notes" "alice"]
      ∧ (retrieveTraced flakyStore "pay" "alice").2
        = [(5, some { key := "userId", value := "alice" }), (10, none), (10, none)])
    ∧ (retrieve honestStore "pay" "alice" = .ok [chunkOf "notes" "alice"]
      ∧ (retrieveTraced honestStore "pay" "alice").2
        = [(5, some { key := "userId", value := "alice" })]) :=
  ⟨(retrieve_by_stage outageStore "pay" "alice").2.2.2.2.1 "filter index unavailable"
      ((List.range 6).map fun i => chunkOf (toString i) "alice") rfl rfl,
    (retrieve_by_stage driftStore "pay" "alice").2.2.1
      [chunkOf "notes" "alice", chunkOf "salary table" "bob"] rfl rfl,
    (retrieve_by_stage flakyStore "pay" "alice").2.2.2.1 "socket hang up"
      [chunkOf "salary table" "bob", chunkOf "notes" "alice"] rfl rfl rfl,
    (retrieve_by_stage honestStore "pay" "alice").2.1 [chunkOf "notes" "alice"] rfl
      (by decide)⟩

/-! ### The routes of `upload.js` -/

/-- Claim C12, refuted as stated: an upload request that carries a file part and
no `userId` is answered with 400 and adds no job, but the file has been
persisted to the object storage by the middleware that runs before the handler. -/
theorem upload_without_user_stores_file :
    (uploadHandler uploadEnv UploadWorld.empty
        { file := some reportPart, bodyUserId := none, queryUserId := none }).1
      = some { status := 400, body := .error "Missing userId parameter" }
    ∧ (uploadHandler uploadEnv UploadWorld.empty
        { file := some reportPart, bodyUserId := none, queryUserId := none }).2.queue = []
    ∧ (uploadHandler uploadEnv UploadWorld.empty
        { file := some reportPart, bodyUserId := none, queryUserId := none }).2.cloud
      = [{ folder := "pdf-uploads", public_id := "file-1746000000000-123456789-report.pdf",
           format := "pdf", content := [37, 80, 68, 70] }] := by
  decide

/-- Claim C12, amended: for an upload request that carries no `userId` in the body
or the query string no job is added to the queue; without a file part the
response is 400 and nothing changes; with a file part in the field `file` that the
object storage accepts the response is 400 and the object storage holds the
file, which the middleware stored before the handler looked at `userId`. -/
theorem upload_without_user (env : UploadEnv) (w : UploadWorld) (req : UploadRequest)
    (huser : uploadUserId req = none) :
    (uploadHandler env w req).2.queue = w.queue
    ∧ (req.file = none →
        uploadHandler env w req
          = (some { status := 400, body := .error "Missing userId parameter" }, w))
    ∧ (∀ part, req.file = some part → part.fieldname = "file" → env.uploadError = none →
        (uploadHandler env w req).1
          = some { status := 400, body := .error "Missing userId parameter" }
        ∧ (uploadHandler env w req).2.cloud = w.cloud ++ [cloudFileOf env part]) := by
  refine ⟨?_, ?_, ?_⟩
  · cases hf : req.file with
    | none => simp [uploadHandler, hf, huser]
    | some part =>
      by_cases hfield : part.fieldname = "file"
      · cases he : env.uploadError with
        | some e => simp [uploadHandler, hf, hfield, he]
        | none => simp [uploadHandler, hf, hfield, he, huser]
      · simp [uploadHandler, hf, hfield]
  · intro hf
    simp [uploadHandler, hf, huser]
  · intro part hf hfield he
    simp [uploadHandler, hf, hfield, he, huser]

/-- Claim C12, amended, at a concrete input: no `userId`, and a file part. -/
theorem upload_without_user_witness :
    uploadUserId { file := some reportPart, bodyUserId := none, queryUserId := some "" } = none
    ∧ (uploadHandler uploadEnv UploadWorld.empty
        { file := some reportPart, bodyUserId := none, queryUserId := some "" }).2.queue
      = UploadWorld.empty.queue
    ∧ (({ file := some reportPart, bodyUserId := none, queryUserId := some "" } : UploadRequest).file
          = none →
        uploadHandler uploadEnv UploadWorld.empty
            { file := some reportPart, bodyUserId := none, queryUserId := some "" }
          = (some { status := 400, body := .error "Missing userId parameter" }, UploadWorld.empty))
    ∧ (∀ part,
        ({ file := some reportPart, bodyUserId := none, queryUserId := some "" } : UploadRequest).file
          = some part →
        part.fieldname = "file" → uploadEnv.uploadError = none →
        (uploadHandler uploadEnv UploadWorld.empty
            { file := some reportPart, bodyUserId := none, queryUserId := some "" }).1
          = some { status := 400, body := .error "Missing userId parameter" }
        ∧ (uploadHandler uploadEnv UploadWorld.empty
            { file := some reportPart, bodyUserId := none, queryUserId := some "" }).2.cloud
          = UploadWorld.empty.cloud ++ [cloudFileOf uploadEnv part]) :=
  ⟨rfl,
    upload_without_user uploadEnv UploadWorld.empty
      { file := some reportPart, bodyUserId := none, queryUserId := some "" } rfl⟩

/-- A response of the query route with status 500 is the fixed response of the
outer `catch`. -/
theorem queryHandler_of_status_500 (env : QueryEnv) (store : Store) (req : QueryRequest)
    (h : (queryHandler env store req).1.status = 500) :
    (queryHandler env store req).1 = internalServerError := by
  cases hq : req.q with
  | none => simp [queryHandler, hq, missingParameter] at h
  | some userQuery =>
  cases hu : req.userId with
  | none => simp [queryHandler, hq, hu, missingParameter] at h
  | some userId =>
  by_cases hne : userQuery = "" ∨ userId = ""
  · simp [queryHandler, hq, hu, hne, missingParameter] at h
  cases hr : env.memoryReadError with
  | some e => simp [queryHandler, hq, hu, hne, hr]
  | none =>
  cases hc : env.connectError with
  | some e => simp [queryHandler, hq, hu, hne, hr, hc]
  | none =>
  cases hres : retrieve env.vectorStore userQuery userId with
  | error e => simp [queryHandler, hq, hu, hne, hr, hc, hres]
  | ok results =>
  cases hgen : env.generateContent
      (systemPrompt (env.stringify results)
        (historyText ((ValkeyMemory.create userId).getHistory store)) userQuery) with
  | error e => simp [queryHandler, hq, hu, hne, hr, hc, hres, hgen]
  | ok o =>
  cases o with
  | none => simp [queryHandler, hq, hu, hne, hr, hc, hres, hgen]
  | some raw =>
  cases hw : env.memoryWriteError with
  | some e => simp [queryHandler, hq, hu, hne, hr, hc, hres, hgen, hw]
  | none => simp [queryHandler, hq, hu, hne, hr, hc, hres, hgen, hw] at h

/-- A response of the list route with status 500 has the fixed message. -/
theorem listHandler_of_status_500 (env : CatalogEnv) (index : List Doc) (req : ListRequest)
    (h : (listHandler env index req).status = 500) :
    (listHandler env index req).body = .error "Internal server error" := by
  cases hu : truthy req.userId with
  | none => simp [listHandler, hu] at h
  | some userId =>
  cases he : env.embeddingsError with
  | some e => simp [listHandler, hu, he]
  | none =>
  cases hc : env.connectError with
  | some e => simp [listHandler, hu, he, hc] at h
  | none =>
  cases hs : env.similaritySearch index "document" 1000 with
  | error e => simp [listHandler, hu, he, hc, hs] at h
  | ok allResults => simp [listHandler, hu, he, hc, hs] at h

/-- The delete route once both parameters are present, the index is reached and
the scan has answered: the two 404 responses, the 500 response of a failed
deletion, or the deletion followed by the best-effort removal of the file. -/
theorem deleteHandler_after_scan (env : CatalogEnv) (w : CatalogWorld) (req : DeleteRequest)
    (userId filename : String) (allResults : List Doc)
    (hu : truthy req.userId = some userId) (hf : truthy req.filename = some filename)
    (he : env.embeddingsError = none) (hc : env.connectError = none)
    (hs : env.similaritySearch w.index "document" 1000 = .ok allResults) :
    deleteHandler env w req =
      if (allResults.filter (matchesDocument userId filename)).length = 0 then
        ({ status := 404, body := .failure "Document not found for the specified user" }, w)
      else if (idsToDelete (allResults.filter (matchesDocument userId filename))).length = 0 then
        ({ status := 404
           body := .failure "Document chunks found but they don\x27t have valid IDs" }, w)
      else
        match env.deleteError with
        | some e =>
            (deleteFailed e,
              { w with calls := w.calls
                  ++ [.deleteIds (idsToDelete (allResults.filter (matchesDocument userId filename)))] })
        | none =>
            ({ status := 200
               body := .deleted ("Document \"" ++ filename ++ "\" has been deleted successfully")
                 (idsToDelete (allResults.filter (matchesDocument userId filename))).length },
              afterIndexDelete env w (allResults.filter (matchesDocument userId filename))) := by
  simp only [deleteHandler, hu, hf, he, hc, hs]

/-- The best-effort removal of the file leaves the index alone and adds, after
the deletion from the index, at most one `destroy` call. -/
theorem afterIndexDelete_frame (env : CatalogEnv) (w : CatalogWorld) (matchingDocs : List Doc) :
    (afterIndexDelete env w matchingDocs).index = deleteByIds w.index (idsToDelete matchingDocs)
    ∧ ((afterIndexDelete env w matchingDocs).calls
          = w.calls ++ [.deleteIds (idsToDelete matchingDocs)]
        ∨ ∃ publicId, (afterIndexDelete env w matchingDocs).calls
          = w.calls ++ [.deleteIds (idsToDelete matchingDocs), .destroy publicId]) := by
  unfold afterIndexDelete
  cases destroyTarget matchingDocs with
  | none => exact ⟨rfl, Or.inl rfl⟩
  | some publicId =>
    cases env.destroyError with
    | some e => exact ⟨rfl, Or.inr ⟨publicId, by simp⟩⟩
    | none => exact ⟨rfl, Or.inr ⟨publicId, by simp⟩⟩

/-- Claim C13, refuted as stated: two different errors raised while the delete
route connects to the index give two different 500 bodies, each of which
contains the message of the error. -/
theorem delete_error_message_reaches_caller :
    (deleteHandler (catalogEnv (some "connect ECONNREFUSED 127.0.0.1:6333") none none)
        (worldOf sharedIndex) { userId := some "alice", filename := some "report.pdf" }).1
      = { status := 500
          body := .failure "Error deleting document: connect ECONNREFUSED 127.0.0.1:6333" }
    ∧ (deleteHandler (catalogEnv (some "getaddrinfo ENOTFOUND qdrant") none none)
        (worldOf sharedIndex) { userId := some "alice", filename := some "report.pdf" }).1
      = { status := 500, body := .failure "Error deleting document: getaddrinfo ENOTFOUND qdrant" }
    ∧ (deleteHandler (catalogEnv (some "connect ECONNREFUSED 127.0.0.1:6333") none none)
        (worldOf sharedIndex) { userId := some "alice", filename := some "report.pdf" }).1
      ≠ (deleteHandler (catalogEnv (some "getaddrinfo ENOTFOUND qdrant") none none)
        (worldOf sharedIndex) { userId := some "alice", filename := some "report.pdf" }).1 := by
  decide

/-- In the delete route, with both parameters present and the embeddings client
built, an error raised while connecting to the index, by the scan, or by the
deletion from the index is answered with status 500 and the text
`Error deleting document: ` followed by the message of that error. -/
theorem delete_error_forwarded (env : CatalogEnv) (w : CatalogWorld) (req : DeleteRequest)
    (userId filename e : String)
    (hu : truthy req.userId = some userId) (hf : truthy req.filename = some filename)
    (he : env.embeddingsError = none)
    (hraise : env.connectError = some e
      ∨ (env.connectError = none ∧ env.similaritySearch w.index "document" 1000 = .error e)
      ∨ (∃ allResults, env.connectError = none
          ∧ env.similaritySearch w.index "document" 1000 = .ok allResults
          ∧ idsToDelete (allResults.filter (matchesDocument userId filename)) ≠ []
          ∧ env.deleteError = some e)) :
    (deleteHandler env w req).1
      = { status := 500, body := .failure ("Error deleting document: " ++ e) } := by
  rcases hraise with hc | ⟨hc, hs⟩ | ⟨allResults, hc, hs, hids, hd⟩
  · simp [deleteHandler, hu, hf, he, hc, deleteFailed]
  · simp [deleteHandler, hu, hf, he, hc, hs, deleteFailed]
  · rw [deleteHandler_after_scan env w req userId filename allResults hu hf he hc hs]
    have h1 : ¬ (idsToDelete (allResults.filter (matchesDocument userId filename))).length = 0 :=
      fun h => hids (List.length_eq_zero.1 h)
    have h0 : ¬ (allResults.filter (matchesDocument userId filename)).length = 0 := by
      intro h
      apply hids
      rw [List.length_eq_zero.1 h]
      rfl
    simp [h0, h1, hd, deleteFailed]

/-- Claim C13, amended: (1) a 500 response of the query route and (2) of the list
route carries the fixed message `Internal server error`; (3) a 500 response of
the delete route carries either that fixed message or, when connecting to the
index, the scan or the deletion from the index raised, the text
`Error deleting document: ` followed by the message of that error; (4) and in the
delete route, with both parameters present and the embeddings client built,
every such error is answered with status 500 and that text followed by its
message, so the message of the error reaches the caller. -/
theorem internal_error_bodies :
    (∀ (env : QueryEnv) (store : Store) (req : QueryRequest),
      (queryHandler env store req).1.status = 500 →
        (queryHandler env store req).1.body = .error "Internal server error")
    ∧ (∀ (env : CatalogEnv) (index : List Doc) (req : ListRequest),
      (listHandler env index req).status = 500 →
        (listHandler env index req).body = .error "Internal server error")
    ∧ (∀ (env : CatalogEnv) (w : CatalogWorld) (req : DeleteRequest),
      (deleteHandler env w req).1.status = 500 →
        (deleteHandler env w req).1.body = .failure "Internal server error"
        ∨ ∃ e, (env.connectError = some e
              ∨ env.similaritySearch w.index "document" 1000 = .error e
              ∨ env.deleteError = some e)
            ∧ (deleteHandler env w req).1.body = .failure ("Error deleting document: " ++ e))
    ∧ (∀ (env : CatalogEnv) (w : CatalogWorld) (req : DeleteRequest) (userId filename e : String),
      truthy req.userId = some userId → truthy req.filename = some filename →
      env.embeddingsError = none →
      (env.connectError = some e
        ∨ (env.connectError = none ∧ env.similaritySearch w.index "document" 1000 = .error e)
        ∨ (∃ allResults, env.connectError = none
            ∧ env.similaritySearch w.index "document" 1000 = .ok allResults
            ∧ idsToDelete (allResults.filter (matchesDocument userId filename)) ≠ []
            ∧ env.deleteError = some e)) →
        (deleteHandler env w req).1
          = { status := 500, body := .failure ("Error deleting document: " ++ e) }) := by
  refine ⟨?_, listHandler_of_status_500, ?_, delete_error_forwarded⟩
  · intro env store req h
    rw [queryHandler_of_status_500 env store req h]
    rfl
  · intro env w req h
    cases hu : truthy req.userId with
    | none => simp [deleteHandler, hu] at h
    | some userId =>
    cases hf : truthy req.filename with
    | none => simp [deleteHandler, hu, hf] at h
    | some filename =>
    cases he : env.embeddingsError with
    | some e => exact Or.inl (by simp [deleteHandler, hu, hf, he])
    | none =>
    cases hc : env.connectError with
    | some e => exact Or.inr ⟨e, Or.inl rfl, by simp [deleteHandler, hu, hf, he, hc, deleteFailed]⟩
    | none =>
    cases hs : env.similaritySearch w.index "document" 1000 with
    | error e =>
      exact Or.inr ⟨e, Or.inr (Or.inl rfl), by simp [deleteHandler, hu, hf, he, hc, hs, deleteFailed]⟩
    | ok allResults =>
      rw [deleteHandler_after_scan env w req userId filename allResults hu hf he hc hs] at h ⊢
      by_cases h0 : (allResults.filter (matchesDocument userId filename)).length = 0
      · simp [h0] at h
      · by_cases h1 : (idsToDelete (allResults.filter (matchesDocument userId filename))).length = 0
        · simp [h0, h1] at h
        · cases hd : env.deleteError with
          | some e =>
            exact Or.inr ⟨e, Or.inr (Or.inr rfl), by simp [h0, h1, deleteFailed]⟩
          | none => simp [h0, h1, hd] at h

/-- Claim C15. When both parameters are present, the index is reached and no
scanned chunk has both the requester as `metadata.userId` and the file name as
`metadata.filename`, the delete route answers 404 with `success: false` and
changes nothing: the collection and the object storage are as before and no call
to either was issued. -/
theorem delete_unknown_document (env : CatalogEnv) (w : CatalogWorld) (req : DeleteRequest)
    (userId filename : String) (allResults : List Doc)
    (hu : truthy req.userId = some userId) (hf : truthy req.filename = some filename)
    (he : env.embeddingsError = none) (hc : env.connectError = none)
    (hs : env.similaritySearch w.index "document" 1000 = .ok allResults)
    (hnone : ∀ doc ∈ allResults,
      ¬ ∃ md, doc.metadata = some md ∧ md.userId = some userId ∧ md.filename = some filename) :
    (deleteHandler env w req).1
      = { status := 404, body := .failure "Document not found for the specified user" }
    ∧ (deleteHandler env w req).2 = w
    ∧ (deleteHandler env w req).2.calls = w.calls := by
  have hfil : allResults.filter (matchesDocument userId filename) = [] := by
    rw [List.filter_eq_nil_iff]
    intro doc hdoc hm
    apply hnone doc hdoc
    unfold matchesDocument at hm
    cases hmd : doc.metadata with
    | none => simp [hmd] at hm
    | some md =>
      simp [hmd] at hm
      exact ⟨md, rfl, hm.1, hm.2⟩
  rw [deleteHandler_after_scan env w req userId filename allResults hu hf he hc hs, hfil]
  exact ⟨rfl, rfl, rfl⟩

/-- Claim C15, at a concrete input: `carol` asks to delete `report.pdf`, a file
name that exists in the collection only for two other users. -/
theorem delete_unknown_document_witness :
    (∀ doc ∈ sharedIndex,
      ¬ ∃ md, doc.metadata = some md ∧ md.userId = some "carol" ∧ md.filename = some "report.pdf")
    ∧ (deleteHandler (catalogEnv none none none) (worldOf sharedIndex)
        { userId := some "carol", filename := some "report.pdf" }).1
      = { status := 404, body := .failure "Document not found for the specified user" }
    ∧ (deleteHandler (catalogEnv none none none) (worldOf sharedIndex)
        { userId := some "carol", filename := some "report.pdf" }).2 = worldOf sharedIndex
    ∧ (deleteHandler (catalogEnv none none none) (worldOf sharedIndex)
        { userId := some "carol", filename := some "report.pdf" }).2.calls
      = (worldOf sharedIndex).calls :=
  have hnone : ∀ doc ∈ sharedIndex,
      ¬ ∃ md, doc.metadata = some md ∧ md.userId = some "carol"
        ∧ md.filename = some "report.pdf" := by
    intro doc hdoc
    simp only [sharedIndex, List.mem_cons, List.mem_singleton, List.not_mem_nil, or_false] at hdoc
    rcases hdoc with h | h <;> subst h <;> simp [storedChunk]
  ⟨hnone,
    delete_unknown_document (catalogEnv none none none) (worldOf sharedIndex)
      { userId := some "carol", filename := some "report.pdf" } "carol" "report.pdf" sharedIndex
      rfl rfl rfl rfl rfl hnone⟩

/-- Two environments that differ at most in the outcome of
`cloudinary.uploader.destroy` give the same response and leave the same
collection. -/
theorem deleteHandler_destroy_irrelevant (env env2 : CatalogEnv) (w : CatalogWorld)
    (req : DeleteRequest)
    (h1 : env2.embeddingsError = env.embeddingsError) (h2 : env2.connectError = env.connectError)
    (h3 : env2.similaritySearch = env.similaritySearch) (h4 : env2.deleteError = env.deleteError) :
    (deleteHandler env2 w req).1 = (deleteHandler env w req).1
    ∧ (deleteHandler env2 w req).2.index = (deleteHandler env w req).2.index := by
  cases hu : truthy req.userId with
  | none => simp [deleteHandler, hu]
  | some userId =>
  cases hf : truthy req.filename with
  | none => simp [deleteHandler, hu, hf]
  | some filename =>
  cases he : env.embeddingsError with
  | some e => simp [deleteHandler, hu, hf, he, h1]
  | none =>
  cases hc : env.connectError with
  | some e => simp [deleteHandler, hu, hf, he, hc, h1, h2]
  | none =>
  cases hs : env.similaritySearch w.index "document" 1000 with
  | error e => simp [deleteHandler, hu, hf, he, hc, hs, h1, h2, h3]
  | ok allResults =>
    rw [deleteHandler_after_scan env w req userId filename allResults hu hf he hc hs,
      deleteHandler_after_scan env2 w req userId filename allResults hu hf (by rw [h1, he])
        (by rw [h2, hc]) (by rw [h3, hs]), h4]
    by_cases h0 : (allResults.filter (matchesDocument userId filename)).length = 0
    · simp [h0]
    · by_cases h5 : (idsToDelete (allResults.filter (matchesDocument userId filename))).length = 0
      · simp [h0, h5]
      · cases hd : env.deleteError with
        | some e => simp [h0, h5]
        | none =>
          simp [h0, h5, (afterIndexDelete_frame env2 w _).1, (afterIndexDelete_frame env w _).1]

/-- Claim C17. (1) The response of the delete route and the collection it leaves
do not depend on whether `cloudinary.uploader.destroy` raises. (2) The calls the
route adds are none, or the deletion from the index alone, or the deletion from
the index followed by one `destroy`; a `destroy` is issued only when the
deletion from the index did not raise; and whenever the deletion from the index
did not raise the response is 200 with the number of deleted identifiers, while
a deletion that raised gives the 500 response and no `destroy`. -/
theorem delete_index_first_storage_best_effort (env : CatalogEnv) (w : CatalogWorld)
    (req : DeleteRequest) :
    (∀ destroyError,
      (deleteHandler { env with destroyError := destroyError } w req).1 = (deleteHandler env w req).1
      ∧ (deleteHandler { env with destroyError := destroyError } w req).2.index
          = (deleteHandler env w req).2.index)
    ∧ ∃ newCalls, (deleteHandler env w req).2.calls = w.calls ++ newCalls
        ∧ (newCalls = []
          ∨ (∃ ids, newCalls = [.deleteIds ids]
              ∧ (∀ e, env.deleteError = some e → (deleteHandler env w req).1 = deleteFailed e)
              ∧ (env.deleteError = none →
                  (deleteHandler env w req).1.status = 200
                  ∧ ∃ message, (deleteHandler env w req).1.body = .deleted message ids.length))
          ∨ (∃ ids publicId, newCalls = [.deleteIds ids, .destroy publicId]
              ∧ env.deleteError = none
              ∧ (deleteHandler env w req).1.status = 200
              ∧ ∃ message, (deleteHandler env w req).1.body = .deleted message ids.length)) := by
  refine ⟨fun d => deleteHandler_destroy_irrelevant env { env with destroyError := d } w req
    rfl rfl rfl rfl, ?_⟩
  cases hu : truthy req.userId with
  | none => exact ⟨[], by simp [deleteHandler, hu], Or.inl rfl⟩
  | some userId =>
  cases hf : truthy req.filename with
  | none => exact ⟨[], by simp [deleteHandler, hu, hf], Or.inl rfl⟩
  | some filename =>
  cases he : env.embeddingsError with
  | some e => exact ⟨[], by simp [deleteHandler, hu, hf, he], Or.inl rfl⟩
  | none =>
  cases hc : env.connectError with
  | some e => exact ⟨[], by simp [deleteHandler, hu, hf, he, hc], Or.inl rfl⟩
  | none =>
  cases hs : env.similaritySearch w.index "document" 1000 with
  | error e => exact ⟨[], by simp [deleteHandler, hu, hf, he, hc, hs], Or.inl rfl⟩
  | ok allResults =>
    have hmain := deleteHandler_after_scan env w req userId filename allResults hu hf he hc hs
    by_cases h0 : (allResults.filter (matchesDocument userId filename)).length = 0
    · refine ⟨[], ?_, Or.inl rfl⟩
      rw [hmain]
      simp [h0]
    · by_cases h1 : (idsToDelete (allResults.filter (matchesDocument userId filename))).length = 0
      · refine ⟨[], ?_, Or.inl rfl⟩
        rw [hmain]
        simp [h0, h1]
      · cases hd : env.deleteError with
        | some e =>
          refine ⟨[.deleteIds (idsToDelete (allResults.filter (matchesDocument userId filename)))],
            ?_, Or.inr (Or.inl ⟨_, rfl, ?_, ?_⟩)⟩
          · rw [hmain]
            simp [h0, h1, hd]
          · intro e2 he2
            injection he2 with he2
            subst he2
            rw [hmain]
            simp [h0, h1, hd]
          · intro hcontra
            cases hcontra
        | none =>
          have hresp : (deleteHandler env w req).1
              = { status := 200
                  body := .deleted ("Document \"" ++ filename ++ "\" has been deleted successfully")
                    (idsToDelete (allResults.filter (matchesDocument userId filename))).length } := by
            rw [hmain]
            simp [h0, h1, hd]
          have hworld : (deleteHandler env w req).2
              = afterIndexDelete env w (allResults.filter (matchesDocument userId filename)) := by
            rw [hmain]
            simp [h0, h1, hd]
          rcases (afterIndexDelete_frame env w
              (allResults.filter (matchesDocument userId filename))).2 with hcalls | ⟨pid, hcalls⟩
          · refine ⟨_, by rw [hworld, hcalls], Or.inr (Or.inl ⟨_, rfl, ?_, ?_⟩)⟩
            · intro e2 he2
              cases he2
            · intro _
              rw [hresp]
              exact ⟨rfl, _, rfl⟩
          · refine ⟨[.deleteIds (idsToDelete (allResults.filter (matchesDocument userId filename))),
                .destroy pid], by rw [hworld, hcalls], Or.inr (Or.inr ⟨_, pid, rfl, rfl, ?_⟩)⟩
            rw [hresp]
            exact ⟨rfl, _, rfl⟩

/-- Claim C17, at a concrete input: the object storage raises on `destroy`, the
route still answers 200 with one deleted chunk, and the `destroy` call comes
after the deletion from the index. -/
theorem delete_index_first_storage_best_effort_witness :
    (deleteHandler (catalogEnv none none (some "cloudinary is down")) (worldOf sharedIndex)
        { userId := some "alice", filename := some "report.pdf" }).1
      = { status := 200
          body := .deleted "Document \"report.pdf\" has been deleted successfully" 1 }
    ∧ (deleteHandler (catalogEnv none none (some "cloudinary is down")) (worldOf sharedIndex)
        { userId := some "alice", filename := some "report.pdf" }).2.calls
      = [.deleteIds ["c1"], .destroy "file-1746000000000-123456789-report"]
    ∧ (deleteHandler (catalogEnv none (some "index is down") none) (worldOf sharedIndex)
        { userId := some "alice", filename := some "report.pdf" }).2.calls
      = [.deleteIds ["c1"]]
    ∧ ∀ destroyError,
      (deleteHandler { catalogEnv none none (some "cloudinary is down") with
          destroyError := destroyError } (worldOf sharedIndex)
          { userId := some "alice", filename := some "report.pdf" }).1
        = (deleteHandler (catalogEnv none none (some "cloudinary is down")) (worldOf sharedIndex)
          { userId := some "alice", filename := some "report.pdf" }).1
      ∧ (deleteHandler { catalogEnv none none (some "cloudinary is down") with
          destroyError := destroyError } (worldOf sharedIndex)
          { userId := some "alice", filename := some "report.pdf" }).2.index
        = (deleteHandler (catalogEnv none none (some "cloudinary is down")) (worldOf sharedIndex)
          { userId := some "alice", filename := some "report.pdf" }).2.index :=
  ⟨by decide, by decide, by decide,
    (delete_index_first_storage_best_effort (catalogEnv none none (some "cloudinary is down"))
      (worldOf sharedIndex) { userId := some "alice", filename := some "report.pdf" }).1⟩

/-- The first piece of a split contains no separator. -/
theorem splitOn_head_no_sep (sep : Char) (cs : List Char) :
    sep ∉ (splitOn sep cs).headD [] := by
  induction cs with
  | nil => simp [splitOn]
  | cons c rest ih =>
    by_cases hc : c = sep
    · simp [splitOn, hc]
    · cases hsplit : splitOn sep rest with
      | nil =>
        simp only [splitOn, hc, if_false, hsplit, List.headD_cons, List.mem_singleton]
        exact fun h => hc h.symm
      | cons piece more =>
        rw [hsplit] at ih
        simp only [splitOn, hc, if_false, hsplit, List.headD_cons, List.mem_cons, not_or]
        exact ⟨fun h => hc h.symm, ih⟩

/-- The public id derived from a source URL contains no dot. -/
theorem derivedPublicId_no_dot (source : String) :
    '.' ∉ (derivedPublicId source).data := by
  unfold derivedPublicId
  exact splitOn_head_no_sep '.' _

/-- Claim C20, where the code departs from it: the public id the upload assigns
ends with the original file name, so it contains a dot whenever that name does
(as in `report.pdf`), while the public id the delete route derives is cut at the
first dot of the last URL segment and contains none. The two differ for every
source URL, and destroying the derived id leaves the stored file in the object
storage. -/
theorem derived_public_id_differs (env : UploadEnv) (part : FilePart) (source : String)
    (hdot : '.' ∈ part.originalname.data) :
    derivedPublicId source ≠ publicIdOf env part
    ∧ ∀ cloud, cloudFileOf env part ∈ cloud →
        cloudFileOf env part ∈ destroyFile cloud (derivedPublicId source) := by
  have hne : derivedPublicId source ≠ publicIdOf env part := by
    intro h
    apply derivedPublicId_no_dot source
    rw [h]
    simp only [publicIdOf, String.data_append, List.mem_append]
    exact Or.inr hdot
  refine ⟨hne, fun cloud hmem => ?_⟩
  simp only [destroyFile, List.mem_filter, decide_eq_true_eq]
  exact ⟨hmem, fun h => hne h.symm⟩

/-- Claim C20, at a concrete input: the upload of `report.pdf` and the URL under
which it was stored. -/
theorem derived_public_id_differs_witness :
    '.' ∈ reportPart.originalname.data
    ∧ uploadEnv.secureUrl (cloudFileOf uploadEnv reportPart) = reportUrl
    ∧ publicIdOf uploadEnv reportPart = "file-1746000000000-123456789-report.pdf"
    ∧ derivedPublicId reportUrl = "file-1746000000000-123456789-report"
    ∧ derivedPublicId reportUrl ≠ publicIdOf uploadEnv reportPart
    ∧ ∀ cloud, cloudFileOf uploadEnv reportPart ∈ cloud →
        cloudFileOf uploadEnv reportPart ∈ destroyFile cloud (derivedPublicId reportUrl) :=
  ⟨by decide, by decide, by decide, by decide,
    derived_public_id_differs uploadEnv reportPart reportUrl (by decide)⟩

/-! ### The map behind the document list -/

/-- The keys after `set`: unchanged when the key is present, else with the new
key at the end. -/
theorem mapSet_keys (m : List (String × DocumentEntry)) (k : String) (v : DocumentEntry) :
    (mapSet m k v).map Prod.fst
      = if k ∈ m.map Prod.fst then m.map Prod.fst else m.map Prod.fst ++ [k] := by
  induction m with
  | nil => simp [mapSet]
  | cons p rest ih =>
    obtain ⟨k2, v2⟩ := p
    by_cases hk : k2 = k
    · simp [mapSet, hk]
    · have hk2 : ¬ k = k2 := fun h => hk h.symm
      simp only [mapSet, hk, if_false, List.map_cons, ih, List.mem_cons, hk2, false_or]
      split <;> simp

/-- Distinct keys stay distinct after `set`. -/
theorem mapSet_nodup (m : List (String × DocumentEntry)) (k : String) (v : DocumentEntry)
    (h : (m.map Prod.fst).Nodup) : ((mapSet m k v).map Prod.fst).Nodup := by
  rw [mapSet_keys]
  split
  · exact h
  · rename_i hk
    rw [List.nodup_append]
    exact ⟨h, List.nodup_singleton k, by
      intro a ha hb
      rw [List.mem_singleton] at hb
      exact hk (hb ▸ ha)⟩

/-- An entry of the map after `set` is the entry just set or an earlier one. -/
theorem mapSet_mem (m : List (String × DocumentEntry)) (k : String) (v : DocumentEntry)
    (p : String × DocumentEntry) (h : p ∈ mapSet m k v) : p = (k, v) ∨ p ∈ m := by
  induction m with
  | nil =>
    simp only [mapSet, List.mem_singleton] at h
    exact Or.inl h
  | cons p2 rest ih =>
    obtain ⟨k2, v2⟩ := p2
    by_cases hk : k2 = k
    · simp only [mapSet, hk, if_true, List.mem_cons] at h
      rcases h with h | h
      · exact Or.inl h
      · exact Or.inr (List.mem_cons_of_mem _ h)
    · simp only [mapSet, hk, if_false, List.mem_cons] at h
      rcases h with h | h
      · exact Or.inr (h ▸ List.mem_cons_self _ _)
      · rcases ih h with h2 | h2
        · exact Or.inl h2
        · exact Or.inr (List.mem_cons_of_mem _ h2)

/-- The entry just set is in the map. -/
theorem mapSet_mem_self (m : List (String × DocumentEntry)) (k : String) (v : DocumentEntry) :
    (k, v) ∈ mapSet m k v := by
  induction m with
  | nil => simp [mapSet]
  | cons p2 rest ih =>
    obtain ⟨k2, v2⟩ := p2
    by_cases hk : k2 = k
    · simp [mapSet, hk]
    · simp only [mapSet, hk, if_false]
      exact List.mem_cons_of_mem _ ih

/-- An entry under another key survives `set`. -/
theorem mapSet_mem_of_ne (m : List (String × DocumentEntry)) (k : String) (v : DocumentEntry)
    (p : String × DocumentEntry) (h : p ∈ m) (hne : p.1 ≠ k) : p ∈ mapSet m k v := by
  induction m with
  | nil => cases h
  | cons p2 rest ih =>
    obtain ⟨k2, v2⟩ := p2
    rcases List.mem_cons.1 h with h2 | h2
    · subst h2
      have hk : ¬ k2 = k := hne
      simp [mapSet, hk]
    · by_cases hk : k2 = k
      · simp only [mapSet, hk, if_true]
        exact List.mem_cons_of_mem _ h2
      · simp only [mapSet, hk, if_false]
        exact List.mem_cons_of_mem _ (ih h2)

/-- Setting a run of entries keeps the keys distinct. -/
theorem foldSet_nodup (es : List (String × DocumentEntry)) :
    ∀ m : List (String × DocumentEntry), (m.map Prod.fst).Nodup →
      ((es.foldl (fun m e => mapSet m e.1 e.2) m).map Prod.fst).Nodup := by
  induction es with
  | nil => intro m h; exact h
  | cons e rest ih =>
    intro m h
    exact ih _ (mapSet_nodup m e.1 e.2 h)

/-- The keys after setting a run of entries: the old keys and the keys set. -/
theorem foldSet_keys (es : List (String × DocumentEntry)) :
    ∀ (m : List (String × DocumentEntry)) (k : String),
      k ∈ (es.foldl (fun m e => mapSet m e.1 e.2) m).map Prod.fst
        ↔ k ∈ m.map Prod.fst ∨ k ∈ es.map Prod.fst := by
  induction es with
  | nil => intro m k; simp
  | cons e rest ih =>
    intro m k
    rw [List.foldl_cons, ih, mapSet_keys]
    by_cases hmem : e.1 ∈ m.map Prod.fst
    · simp only [hmem, if_true, List.map_cons, List.mem_cons]
      constructor
      · rintro (h | h)
        · exact Or.inl h
        · exact Or.inr (Or.inr h)
      · rintro (h | h | h)
        · exact Or.inl h
        · exact Or.inl (h ▸ hmem)
        · exact Or.inr h
    · simp only [hmem, if_false, List.map_cons, List.mem_cons, List.mem_append,
        List.mem_singleton]
      tauto

/-- Every entry of the map after setting a run of entries is an old entry or one
of the run. -/
theorem foldSet_mem (es : List (String × DocumentEntry)) :
    ∀ (m : List (String × DocumentEntry)) (p : String × DocumentEntry),
      p ∈ es.foldl (fun m e => mapSet m e.1 e.2) m → p ∈ m ∨ p ∈ es := by
  induction es with
  | nil => intro m p h; exact Or.inl h
  | cons e rest ih =>
    intro m p h
    rw [List.foldl_cons] at h
    rcases ih _ p h with h2 | h2
    · rcases mapSet_mem m e.1 e.2 p h2 with h3 | h3
      · exact Or.inr (h3 ▸ List.mem_cons_self _ _)
      · exact Or.inl h3
    · exact Or.inr (List.mem_cons_of_mem _ h2)

/-- An entry whose key is not set again stays in the map. -/
theorem foldSet_keep (es : List (String × DocumentEntry)) :
    ∀ (m : List (String × DocumentEntry)) (p : String × DocumentEntry),
      p ∈ m → p.1 ∉ es.map Prod.fst → p ∈ es.foldl (fun m e => mapSet m e.1 e.2) m := by
  induction es with
  | nil => intro m p h _; exact h
  | cons e rest ih =>
    intro m p h hk
    simp only [List.map_cons, List.mem_cons, not_or] at hk
    rw [List.foldl_cons]
    exact ih _ p (mapSet_mem_of_ne m e.1 e.2 p h hk.1) hk.2

/-- The last entry set under a key is the entry of the map under that key. -/
theorem newMap_last (pre post : List (String × DocumentEntry)) (k : String) (v : DocumentEntry)
    (hk : k ∉ post.map Prod.fst) : (k, v) ∈ newMap (pre ++ (k, v) :: post) := by
  unfold newMap
  rw [List.foldl_append, List.foldl_cons]
  exact foldSet_keep post _ (k, v) (mapSet_mem_self _ k v) hk

/-- With distinct keys, a key has one value. -/
theorem value_unique (m : List (String × DocumentEntry)) (h : (m.map Prod.fst).Nodup)
    (k : String) (v v2 : DocumentEntry) (h1 : (k, v) ∈ m) (h2 : (k, v2) ∈ m) : v = v2 := by
  induction m with
  | nil => cases h1
  | cons p rest ih =>
    simp only [List.map_cons, List.nodup_cons] at h
    rcases List.mem_cons.1 h1 with a | a <;> rcases List.mem_cons.1 h2 with b | b
    · rw [← a] at b
      exact (Prod.mk.inj b).2.symm
    · exact absurd (List.mem_map.2 ⟨(k, v2), b, rfl⟩) (by rw [← a] at h; exact h.1)
    · exact absurd (List.mem_map.2 ⟨(k, v), a, rfl⟩) (by rw [← b] at h; exact h.1)
    · exact ih h.2 a b

/-- A string taken as a condition holds exactly when it is present and not empty. -/
theorem truthy_eq_some (o : Option String) (s : String) :
    truthy o = some s ↔ o = some s ∧ s ≠ "" := by
  cases o with
  | none => simp [truthy]
  | some t =>
    by_cases ht : t = ""
    · subst ht
      simp only [truthy, if_true]
      constructor
      · intro h; cases h
      · rintro ⟨h, hs⟩
        injection h with h
        exact absurd h.symm hs
    · simp only [truthy, ht, if_false, Option.some.injEq]
      constructor
      · intro h; subst h; exact ⟨rfl, ht⟩
      · intro h; exact h.1

/-- The test before the map, spelled out: the chunk has a metadata object with a
non-empty file name and a non-empty source. -/
theorem hasFileAndSource_iff (doc : Doc) :
    hasFileAndSource doc = true
      ↔ ∃ md f src, doc.metadata = some md ∧ md.filename = some f ∧ f ≠ ""
          ∧ md.source = some src ∧ src ≠ "" := by
  unfold hasFileAndSource
  cases hmd : doc.metadata with
  | none => simp
  | some md =>
    simp only [Bool.and_eq_true, Option.isSome_iff_exists, truthy_eq_some, Option.some.injEq]
    constructor
    · rintro ⟨⟨f, hf, hf0⟩, ⟨src, hs, hs0⟩⟩
      exact ⟨md, f, src, rfl, hf, hf0, hs, hs0⟩
    · rintro ⟨md2, f, src, h, hf, hf0, hs, hs0⟩
      subst h
      exact ⟨⟨f, hf, hf0⟩, ⟨src, hs, hs0⟩⟩

/-- Every pair built for the chunks is the pair of one of them. -/
theorem entriesFrom_mem (iso : Nat → String) (docs : List Doc) :
    ∀ i, ∀ p ∈ entriesFrom iso i docs, ∃ d ∈ docs, ∃ j, p = toEntry (iso j) d := by
  induction docs with
  | nil => intro i p hp; cases hp
  | cons d rest ih =>
    intro i p hp
    simp only [entriesFrom, List.mem_cons] at hp
    rcases hp with h | h
    · exact ⟨d, List.mem_cons_self _ _, i, h⟩
    · obtain ⟨d2, hd2, j, hj⟩ := ih (i + 1) p h
      exact ⟨d2, List.mem_cons_of_mem _ hd2, j, hj⟩

/-- The keys of the pairs are the file names of the chunks, in order. -/
theorem entriesFrom_keys (iso : Nat → String) (docs : List Doc) :
    ∀ i, (entriesFrom iso i docs).map Prod.fst
      = docs.map fun d => (d.metadata.getD Metadata.empty).filename.getD "" := by
  induction docs with
  | nil => intro i; rfl
  | cons d rest ih =>
    intro i
    simp only [entriesFrom, List.map_cons, ih (i + 1)]
    rfl

/-- The pairs of a concatenation. -/
theorem entriesFrom_append (iso : Nat → String) (a b : List Doc) :
    ∀ i, entriesFrom iso i (a ++ b) = entriesFrom iso i a ++ entriesFrom iso (i + a.length) b := by
  induction a with
  | nil => intro i; simp [entriesFrom]
  | cons d rest ih =>
    intro i
    have hidx : i + 1 + rest.length = i + (rest.length + 1) := by omega
    have hstep := ih (i + 1)
    rw [hidx] at hstep
    show toEntry (iso i) d :: entriesFrom iso (i + 1) (rest ++ b) = _
    rw [hstep]
    rfl

/-- Every entry of `uniqueDocs` is the value of a pair of the map, whose key is
the file name of the entry. -/
theorem uniqueDocs_mem (iso : Nat → String) (results : List Doc) (e : DocumentEntry)
    (he : e ∈ uniqueDocs iso results) :
    (e.filename, e) ∈ newMap (entriesFrom iso 0 (results.filter hasFileAndSource))
    ∧ ∃ d ∈ results.filter hasFileAndSource, ∃ j, e = (toEntry (iso j) d).2 := by
  simp only [uniqueDocs, List.mem_map] at he
  obtain ⟨p, hp, hpe⟩ := he
  have hmem : p ∈ entriesFrom iso 0 (results.filter hasFileAndSource) := by
    rcases foldSet_mem _ [] p hp with h | h
    · cases h
    · exact h
  obtain ⟨d, hd, j, hj⟩ := entriesFrom_mem iso _ 0 p hmem
  subst hj
  subst hpe
  exact ⟨hp, d, hd, j, rfl⟩

/-- The file names of `uniqueDocs` are the keys of the map. -/
theorem uniqueDocs_filenames (iso : Nat → String) (results : List Doc) :
    (uniqueDocs iso results).map (fun e => e.filename)
      = (newMap (entriesFrom iso 0 (results.filter hasFileAndSource))).map Prod.fst := by
  unfold uniqueDocs
  rw [List.map_map]
  apply List.map_congr_left
  intro p hp
  have hmem : p ∈ entriesFrom iso 0 (results.filter hasFileAndSource) := by
    rcases foldSet_mem _ [] p hp with h | h
    · cases h
    · exact h
  obtain ⟨d, _, j, hj⟩ := entriesFrom_mem iso _ 0 p hmem
  subst hj
  rfl

/-- The list route once the parameter is present, the index is reached and the
scan has answered. -/
theorem listHandler_documents (env : CatalogEnv) (index : List Doc) (req : ListRequest)
    (userId : String) (scanned : List Doc)
    (hu : truthy req.userId = some userId) (he : env.embeddingsError = none)
    (hc : env.connectError = none)
    (hs : env.similaritySearch index "document" 1000 = .ok scanned) :
    listHandler env index req
      = { status := 200
          body := .documents (uniqueDocs env.toISOString (scanned.filter (ownedBy userId))) } := by
  simp only [listHandler, hu, he, hc, hs]

/-- The file names listed are those of the chunks that reach the map. -/
theorem uniqueDocs_filename_iff (iso : Nat → String) (results : List Doc) (f : String) :
    f ∈ (uniqueDocs iso results).map (fun e => e.filename)
      ↔ ∃ c ∈ results, ∃ md src, c.metadata = some md ∧ md.filename = some f ∧ f ≠ ""
          ∧ md.source = some src ∧ src ≠ "" := by
  rw [uniqueDocs_filenames]
  unfold newMap
  rw [foldSet_keys, entriesFrom_keys]
  simp only [List.map_nil, List.not_mem_nil, false_or, List.mem_map, List.mem_filter]
  constructor
  · rintro ⟨c, ⟨hc, hfs⟩, hkey⟩
    obtain ⟨md, f2, src, hmd, hf, hf0, hsrc, hsrc0⟩ := (hasFileAndSource_iff c).1 hfs
    simp only [hmd, Option.getD_some, hf] at hkey
    subst hkey
    exact ⟨c, hc, md, src, hmd, hf, hf0, hsrc, hsrc0⟩
  · rintro ⟨c, hc, md, src, hmd, hf, hf0, hsrc, hsrc0⟩
    refine ⟨c, ⟨hc, (hasFileAndSource_iff c).2 ⟨md, f, src, hmd, hf, hf0, hsrc, hsrc0⟩⟩, ?_⟩
    simp only [hmd, Option.getD_some, hf]

/-- Claim C14. When the parameter is present, the index is reached and the scan
answers `scanned`: the file names of the listed documents are pairwise distinct;
a file name is listed exactly when some scanned chunk has the requester as
`metadata.userId`, that file name, and a source; and every listed entry has the
file name and the source of a scanned chunk of the requester. -/
theorem list_one_entry_per_filename (env : CatalogEnv) (index : List Doc) (req : ListRequest)
    (userId : String) (scanned : List Doc)
    (hu : truthy req.userId = some userId) (he : env.embeddingsError = none)
    (hc : env.connectError = none)
    (hs : env.similaritySearch index "document" 1000 = .ok scanned) :
    ((listHandler env index req).documents.map (fun e => e.filename)).Nodup
    ∧ (∀ f, f ∈ (listHandler env index req).documents.map (fun e => e.filename)
        ↔ ∃ c ∈ scanned, ∃ md src, c.metadata = some md ∧ md.userId = some userId
            ∧ md.filename = some f ∧ f ≠ "" ∧ md.source = some src ∧ src ≠ "")
    ∧ (∀ e ∈ (listHandler env index req).documents,
        ∃ c ∈ scanned, ∃ md, c.metadata = some md ∧ md.userId = some userId
          ∧ md.filename = some e.filename ∧ md.source = some e.source) := by
  rw [listHandler_documents env index req userId scanned hu he hc hs]
  simp only [RouteResponse.documents]
  refine ⟨?_, ?_, ?_⟩
  · rw [uniqueDocs_filenames]
    exact foldSet_nodup _ [] List.nodup_nil
  · intro f
    rw [uniqueDocs_filename_iff]
    constructor
    · rintro ⟨c, hc2, md, src, hmd, hf, hf0, hsrc, hsrc0⟩
      obtain ⟨hmem, hown⟩ := List.mem_filter.1 hc2
      obtain ⟨md2, hmd2, huid⟩ := (ownedBy_iff userId c).1 hown
      rw [hmd] at hmd2
      injection hmd2 with hmd2
      subst hmd2
      exact ⟨c, hmem, md, src, hmd, huid, hf, hf0, hsrc, hsrc0⟩
    · rintro ⟨c, hmem, md, src, hmd, huid, hf, hf0, hsrc, hsrc0⟩
      exact ⟨c, List.mem_filter.2 ⟨hmem, (ownedBy_iff userId c).2 ⟨md, hmd, huid⟩⟩,
        md, src, hmd, hf, hf0, hsrc, hsrc0⟩
  · intro e hmem
    obtain ⟨_, d, hd, j, hj⟩ := uniqueDocs_mem _ _ e hmem
    obtain ⟨hd2, hfs⟩ := List.mem_filter.1 hd
    obtain ⟨hd3, hown⟩ := List.mem_filter.1 hd2
    obtain ⟨md, f, src, hmd, hf, _, hsrc, _⟩ := (hasFileAndSource_iff d).1 hfs
    obtain ⟨md2, hmd2, huid⟩ := (ownedBy_iff userId d).1 hown
    rw [hmd] at hmd2
    injection hmd2 with hmd2
    subst hmd2
    refine ⟨d, hd3, md, hmd, huid, ?_, ?_⟩
    · rw [hj]
      simp [toEntry, hmd, hf]
    · rw [hj]
      simp [toEntry, hmd, hsrc]

/-- Claim C14, at a concrete input: `alice` lists her documents in a collection
that also holds a chunk of `bob`. -/
theorem list_one_entry_per_filename_witness :
    (listHandler (catalogEnv none none none) catalogIndex { userId := some "alice" }).documents
      = [{ filename := "report.pdf", uploadDate := "2025-05-03T11:00:00.000Z"
           source := "https://res.cloudinary.com/demo/raw/upload/v1/pdf-uploads/file-4-report.pdf" },
         { filename := "notes.pdf", uploadDate := "2025-05-02T10:00:00.000Z"
           source := "https://res.cloudinary.com/demo/raw/upload/v1/pdf-uploads/file-3-notes.pdf" }]
    ∧ ((listHandler (catalogEnv none none none) catalogIndex
          { userId := some "alice" }).documents.map (fun e => e.filename)).Nodup
    ∧ (∀ f, f ∈ (listHandler (catalogEnv none none none) catalogIndex
          { userId := some "alice" }).documents.map (fun e => e.filename)
        ↔ ∃ c ∈ catalogIndex, ∃ md src, c.metadata = some md ∧ md.userId = some "alice"
            ∧ md.filename = some f ∧ f ≠ "" ∧ md.source = some src ∧ src ≠ "")
    ∧ (∀ e ∈ (listHandler (catalogEnv none none none) catalogIndex
          { userId := some "alice" }).documents,
        ∃ c ∈ catalogIndex, ∃ md, c.metadata = some md ∧ md.userId = some "alice"
          ∧ md.filename = some e.filename ∧ md.source = some e.source) :=
  ⟨by decide,
    list_one_entry_per_filename (catalogEnv none none none) catalogIndex
      { userId := some "alice" } "alice" catalogIndex rfl rfl rfl rfl⟩

/-- Claim C19. Let `c` be the last scanned chunk of the requester that has the
file name `f` and a source (no chunk scanned after it is such a chunk). Then the
list has an entry for `f`, and every entry for `f` carries the source of `c` and
the upload date of `c` (the current time when `c` has none), wherever `c` and the
earlier chunks of that name stand in the scan. -/
theorem list_last_seen_wins (env : CatalogEnv) (index : List Doc) (req : ListRequest)
    (userId : String) (pre post : List Doc) (c : Doc) (md : Metadata) (f src : String)
    (hu : truthy req.userId = some userId) (he : env.embeddingsError = none)
    (hc : env.connectError = none)
    (hs : env.similaritySearch index "document" 1000 = .ok (pre ++ c :: post))
    (hmd : c.metadata = some md) (howner : md.userId = some userId)
    (hf : md.filename = some f) (hf0 : f ≠ "") (hsrc : md.source = some src) (hsrc0 : src ≠ "")
    (hlast : ∀ d ∈ post, ownedBy userId d = true → hasFileAndSource d = true →
      (d.metadata.bind fun m => m.filename) ≠ some f) :
    (∃ e ∈ (listHandler env index req).documents, e.filename = f)
    ∧ ∀ e ∈ (listHandler env index req).documents, e.filename = f →
        e.source = src
        ∧ (∀ date, truthy md.uploadDate = some date → e.uploadDate = date)
        ∧ (truthy md.uploadDate = none → ∃ n, e.uploadDate = env.toISOString n) := by
  rw [listHandler_documents env index req userId (pre ++ c :: post) hu he hc hs]
  simp only [RouteResponse.documents]
  have hown : ownedBy userId c = true := (ownedBy_iff userId c).2 ⟨md, hmd, howner⟩
  have hfs : hasFileAndSource c = true :=
    (hasFileAndSource_iff c).2 ⟨md, f, src, hmd, hf, hf0, hsrc, hsrc0⟩
  have hlisted : ((pre ++ c :: post).filter (ownedBy userId)).filter hasFileAndSource
      = (pre.filter (ownedBy userId)).filter hasFileAndSource
        ++ c :: (post.filter (ownedBy userId)).filter hasFileAndSource := by
    simp [List.filter_append, List.filter_cons, hown, hfs]
  have hentries : entriesFrom env.toISOString 0
        (((pre ++ c :: post).filter (ownedBy userId)).filter hasFileAndSource)
      = entriesFrom env.toISOString 0 ((pre.filter (ownedBy userId)).filter hasFileAndSource)
        ++ (f, (toEntry (env.toISOString
              (0 + ((pre.filter (ownedBy userId)).filter hasFileAndSource).length)) c).2)
          :: entriesFrom env.toISOString
              (0 + ((pre.filter (ownedBy userId)).filter hasFileAndSource).length + 1)
              ((post.filter (ownedBy userId)).filter hasFileAndSource) := by
    rw [hlisted, entriesFrom_append]
    simp only [entriesFrom]
    congr 2
    simp [toEntry, hmd, hf]
  have hnot : f ∉ (entriesFrom env.toISOString
      (0 + ((pre.filter (ownedBy userId)).filter hasFileAndSource).length + 1)
      ((post.filter (ownedBy userId)).filter hasFileAndSource)).map Prod.fst := by
    rw [entriesFrom_keys]
    simp only [List.mem_map, List.mem_filter, not_exists, not_and, and_imp]
    intro d hd hdo hdf hkey
    apply hlast d hd hdo hdf
    obtain ⟨md2, f2, src2, hmd2, hf2, _, _, _⟩ := (hasFileAndSource_iff d).1 hdf
    simp only [hmd2, Option.getD_some, hf2] at hkey
    simp [hmd2, hf2, hkey]
  have hin := newMap_last
    (entriesFrom env.toISOString 0 ((pre.filter (ownedBy userId)).filter hasFileAndSource))
    _ f (toEntry (env.toISOString
      (0 + ((pre.filter (ownedBy userId)).filter hasFileAndSource).length)) c).2 hnot
  rw [← hentries] at hin
  have hnodup : ((newMap (entriesFrom env.toISOString 0
      (((pre ++ c :: post).filter (ownedBy userId)).filter hasFileAndSource))).map
      Prod.fst).Nodup := foldSet_nodup _ [] List.nodup_nil
  constructor
  · refine ⟨_, List.mem_map.2 ⟨_, hin, rfl⟩, ?_⟩
    simp [toEntry, hmd, hf]
  · intro e hmem hname
    have hpair := (uniqueDocs_mem _ _ e hmem).1
    rw [hname] at hpair
    have heq := value_unique _ hnodup f _ _ hpair hin
    rw [heq]
    refine ⟨by simp [toEntry, hmd, hsrc], ?_, ?_⟩
    · intro date hdate
      simp [toEntry, hmd, hdate]
    · intro hnone
      refine ⟨0 + ((pre.filter (ownedBy userId)).filter hasFileAndSource).length, ?_⟩
      simp only [toEntry, hmd, hnone, Option.getD_some, Option.getD_none]

/-- Claim C19, at a concrete input: of the two chunks of `report.pdf` of `alice`,
the one scanned last gives the upload date and the source of the entry. -/
theorem list_last_seen_wins_witness :
    (catalogEnv none none none).similaritySearch catalogIndex "document" 1000
      = .ok (catalogIndex.take 3
          ++ storedChunk "delta" (some "c4") "alice" "report.pdf" "2025-05-03T11:00:00.000Z"
              "https://res.cloudinary.com/demo/raw/upload/v1/pdf-uploads/file-4-report.pdf" :: [])
    ∧ (∃ e ∈ (listHandler (catalogEnv none none none) catalogIndex
          { userId := some "alice" }).documents, e.filename = "report.pdf")
    ∧ ∀ e ∈ (listHandler (catalogEnv none none none) catalogIndex
          { userId := some "alice" }).documents, e.filename = "report.pdf" →
        e.source = "https://res.cloudinary.com/demo/raw/upload/v1/pdf-uploads/file-4-report.pdf"
        ∧ (∀ date, truthy (some "2025-05-03T11:00:00.000Z") = some date → e.uploadDate = date)
        ∧ (truthy (some "2025-05-03T11:00:00.000Z") = none →
            ∃ n, e.uploadDate = (catalogEnv none none none).toISOString n) :=
  ⟨rfl,
    list_last_seen_wins (catalogEnv none none none) catalogIndex { userId := some "alice" }
      "alice" (catalogIndex.take 3) []
      (storedChunk "delta" (some "c4") "alice" "report.pdf" "2025-05-03T11:00:00.000Z"
        "https://res.cloudinary.com/demo/raw/upload/v1/pdf-uploads/file-4-report.pdf")
      { _id := some "c4", userId := some "alice", filename := some "report.pdf"
        uploadDate := some "2025-05-03T11:00:00.000Z"
        source := some "https://res.cloudinary.com/demo/raw/upload/v1/pdf-uploads/file-4-report.pdf"
        pageNumber := some 1 }
      "report.pdf"
      "https://res.cloudinary.com/demo/raw/upload/v1/pdf-uploads/file-4-report.pdf"
      rfl rfl rfl rfl rfl rfl rfl (by decide) rfl (by decide)
      (by intro d hd; cases hd)⟩

/-! ### Deleting a document -/

/-- The test of the delete route, spelled out. -/
theorem matchesDocument_iff (userId filename : String) (doc : Doc) :
    matchesDocument userId filename doc = true
      ↔ ∃ md, doc.metadata = some md ∧ md.userId = some userId ∧ md.filename = some filename := by
  unfold matchesDocument
  cases hmd : doc.metadata with
  | none => simp
  | some md => simp

/-- A chunk that passes the identifier test has a non-empty `_id`, and that is
the identifier collected for it. -/
theorem chunkId_of_hasId (doc : Doc) (h : hasId doc = true) :
    ∃ id, doc.chunkId = some id ∧ (doc.chunkId).getD "" = id := by
  unfold hasId at h
  cases hmd : doc.metadata with
  | none => simp [hmd] at h
  | some md =>
    simp only [hmd, Option.isSome_iff_exists] at h
    obtain ⟨id, hid⟩ := h
    have hsome := ((truthy_eq_some md._id id).1 hid).1
    exact ⟨id, by simp [Doc.chunkId, hmd, hsome], by simp [Doc.chunkId, hmd, hsome]⟩

/-- A matching chunk that has an identifier is not in the collection after the
identifiers collected from the matching chunks were deleted. -/
theorem not_mem_deleteByIds (index matchingDocs : List Doc) (doc : Doc)
    (hmem : doc ∈ matchingDocs) (hid : hasId doc = true) :
    doc ∉ deleteByIds index (idsToDelete matchingDocs) := by
  obtain ⟨id, hsome, hget⟩ := chunkId_of_hasId doc hid
  intro hin
  have hkeep := (List.mem_filter.1 hin).2
  simp only [hsome, decide_eq_true_eq] at hkeep
  apply hkeep
  unfold idsToDelete
  exact List.mem_map.2 ⟨doc, List.mem_filter.2 ⟨hmem, hid⟩, hget⟩

/-- A response 200 of the delete route comes from the path on which the index
was reached, the scan answered, some chunk matched, some identifier was
collected and the deletion from the index did not raise. -/
theorem deleteHandler_of_status_ok (env : CatalogEnv) (w : CatalogWorld) (req : DeleteRequest)
    (userId filename : String) (allResults : List Doc)
    (hu : truthy req.userId = some userId) (hf : truthy req.filename = some filename)
    (hs : env.similaritySearch w.index "document" 1000 = .ok allResults)
    (hok : (deleteHandler env w req).1.status = 200) :
    deleteHandler env w req
      = ({ status := 200
           body := .deleted ("Document \"" ++ filename ++ "\" has been deleted successfully")
             (idsToDelete (allResults.filter (matchesDocument userId filename))).length },
          afterIndexDelete env w (allResults.filter (matchesDocument userId filename))) := by
  cases he : env.embeddingsError with
  | some e => simp [deleteHandler, hu, hf, he] at hok
  | none =>
  cases hc : env.connectError with
  | some e => simp [deleteHandler, hu, hf, he, hc, deleteFailed] at hok
  | none =>
    rw [deleteHandler_after_scan env w req userId filename allResults hu hf he hc hs] at hok ⊢
    by_cases h0 : (allResults.filter (matchesDocument userId filename)).length = 0
    · simp [h0] at hok
    · by_cases h1 : (idsToDelete (allResults.filter (matchesDocument userId filename))).length = 0
      · simp [h0, h1] at hok
      · cases hd : env.deleteError with
        | some e => simp [h0, h1, hd, deleteFailed] at hok
        | none => simp [h0, h1]

/-- A file name listed for a user is the file name of a scanned chunk of that
user. -/
theorem listed_filename_of_chunk (env : CatalogEnv) (index : List Doc) (req : ListRequest)
    (userId f : String) (hu : truthy req.userId = some userId)
    (hmem : f ∈ (listHandler env index req).documents.map (fun e => e.filename)) :
    ∃ scanned, env.similaritySearch index "document" 1000 = .ok scanned
      ∧ ∃ c ∈ scanned, matchesDocument userId f c = true := by
  cases he : env.embeddingsError with
  | some e => simp [listHandler, hu, he, RouteResponse.documents] at hmem
  | none =>
  cases hc : env.connectError with
  | some e => simp [listHandler, hu, he, hc, RouteResponse.documents] at hmem
  | none =>
  cases hs : env.similaritySearch index "document" 1000 with
  | error e => simp [listHandler, hu, he, hc, hs, RouteResponse.documents] at hmem
  | ok scanned =>
    rw [listHandler_documents env index req userId scanned hu he hc hs] at hmem
    simp only [RouteResponse.documents] at hmem
    obtain ⟨c, hc2, md, src, hmd, hf, _, _, _⟩ := (uniqueDocs_filename_iff _ _ f).1 hmem
    obtain ⟨hc3, hown⟩ := List.mem_filter.1 hc2
    obtain ⟨md2, hmd2, huid⟩ := (ownedBy_iff userId c).1 hown
    rw [hmd] at hmd2
    injection hmd2 with hmd2
    subst hmd2
    exact ⟨scanned, rfl, c, hc3, (matchesDocument_iff userId f c).2 ⟨md, hmd, huid, hf⟩⟩

/-- Claim C16, refuted as stated: of two chunks of `report.pdf` of `alice`, one
carries no `_id`; the delete route answers 200 with `deletedChunks: 1` although two
chunks matched both fields, the chunk without `_id` remains in the collection, and
a list for `alice` after the deletion still contains `report.pdf`. -/
theorem delete_leaves_chunk_without_id :
    (deleteHandler (catalogEnv none none none) (worldOf partIndex)
        { userId := some "alice", filename := some "report.pdf" }).1
      = { status := 200
          body := .deleted "Document \"report.pdf\" has been deleted successfully" 1 }
    ∧ (partIndex.filter (matchesDocument "alice" "report.pdf")).length = 2
    ∧ (deleteHandler (catalogEnv none none none) (worldOf partIndex)
        { userId := some "alice", filename := some "report.pdf" }).2.index
      = [storedChunk "omega" none "alice" "report.pdf" "2025-04-30T08:00:00.000Z" reportUrl]
    ∧ "report.pdf" ∈ (listHandler (catalogEnv none none none)
        (deleteHandler (catalogEnv none none none) (worldOf partIndex)
          { userId := some "alice", filename := some "report.pdf" }).2.index
        { userId := some "alice" }).documents.map (fun e => e.filename) := by
  decide

/-- Claim C16, amended: after a delete request answered with 200, where the scan
answered `allResults`: `deletedChunks` is the number of scanned chunks that match
both fields and carry an `_id`; none of those chunks is in the collection any
more; and when every chunk of the collection that matches both fields was
scanned and every scanned chunk that matches carries an `_id`, `deletedChunks` is
the number of scanned chunks that matched, no chunk with that user and file name
remains, and a later list for that user (whose scan answers with chunks of the
collection) does not contain the file name. -/
theorem delete_then_list (env : CatalogEnv) (w : CatalogWorld) (req : DeleteRequest)
    (userId filename : String) (allResults : List Doc)
    (hu : truthy req.userId = some userId) (hf : truthy req.filename = some filename)
    (hs : env.similaritySearch w.index "document" 1000 = .ok allResults)
    (hok : (deleteHandler env w req).1.status = 200) :
    (∃ message, (deleteHandler env w req).1.body
        = .deleted message ((allResults.filter (matchesDocument userId filename)).filter hasId).length)
    ∧ (∀ d ∈ allResults, matchesDocument userId filename d = true → hasId d = true →
        d ∉ (deleteHandler env w req).2.index)
    ∧ ((∀ d ∈ w.index, matchesDocument userId filename d = true → d ∈ allResults) →
       (∀ d ∈ allResults, matchesDocument userId filename d = true → hasId d = true) →
        (∃ message, (deleteHandler env w req).1.body
            = .deleted message (allResults.filter (matchesDocument userId filename)).length)
        ∧ (∀ d ∈ (deleteHandler env w req).2.index, matchesDocument userId filename d = false)
        ∧ ∀ (env2 : CatalogEnv) (req2 : ListRequest), truthy req2.userId = some userId →
            (∀ scanned, env2.similaritySearch (deleteHandler env w req).2.index "document" 1000
                = .ok scanned → ∀ d ∈ scanned, d ∈ (deleteHandler env w req).2.index) →
            filename ∉ (listHandler env2 (deleteHandler env w req).2.index req2).documents.map
              (fun e => e.filename)) := by
  have hmain := deleteHandler_of_status_ok env w req userId filename allResults hu hf hs hok
  have hindex : (deleteHandler env w req).2.index
      = deleteByIds w.index (idsToDelete (allResults.filter (matchesDocument userId filename))) := by
    rw [hmain]
    exact (afterIndexDelete_frame env w _).1
  have hgone : ∀ d ∈ allResults, matchesDocument userId filename d = true → hasId d = true →
      d ∉ (deleteHandler env w req).2.index := by
    intro d hd hm hid
    rw [hindex]
    exact not_mem_deleteByIds w.index _ d (List.mem_filter.2 ⟨hd, hm⟩) hid
  have hbody : (deleteHandler env w req).1.body
      = .deleted ("Document \"" ++ filename ++ "\" has been deleted successfully")
          ((allResults.filter (matchesDocument userId filename)).filter hasId).length := by
    rw [hmain]
    simp [idsToDelete]
  refine ⟨⟨_, hbody⟩, hgone, ?_⟩
  intro hcover hids
  have hnomatch : ∀ d ∈ (deleteHandler env w req).2.index,
      matchesDocument userId filename d = false := by
    intro d hd
    by_contra hm
    have hm2 : matchesDocument userId filename d = true := by
      cases hv : matchesDocument userId filename d with
      | true => rfl
      | false => exact absurd hv hm
    have hdw : d ∈ w.index := by
      rw [hindex] at hd
      exact (List.mem_filter.1 hd).1
    have hscan := hcover d hdw hm2
    exact hgone d hscan hm2 (hids d hscan hm2) hd
  have hall : (allResults.filter (matchesDocument userId filename)).filter hasId
      = allResults.filter (matchesDocument userId filename) := by
    rw [List.filter_eq_self]
    intro d hd
    obtain ⟨hd2, hm⟩ := List.mem_filter.1 hd
    exact hids d hd2 hm
  refine ⟨⟨_, by rw [hbody, hall]⟩, hnomatch, ?_⟩
  · intro env2 req2 hu2 hsub hin
    obtain ⟨scanned, hs2, c, hc, hm⟩ := listed_filename_of_chunk env2 _ req2 userId filename hu2 hin
    have := hnomatch c (hsub scanned hs2 c hc)
    rw [hm] at this
    cases this

/-- Claim C16, amended, at a concrete input: `alice` deletes `report.pdf` from a
collection in which both of its chunks carry an `_id`. -/
theorem delete_then_list_witness :
    (deleteHandler (catalogEnv none none none) (worldOf catalogIndex)
        { userId := some "alice", filename := some "report.pdf" }).1
      = { status := 200
          body := .deleted "Document \"report.pdf\" has been deleted successfully" 2 }
    ∧ ((listHandler (catalogEnv none none none)
        (deleteHandler (catalogEnv none none none) (worldOf catalogIndex)
          { userId := some "alice", filename := some "report.pdf" }).2.index
        { userId := some "alice" }).documents.map (fun e => e.filename)) = ["notes.pdf"]
    ∧ (∃ message, (deleteHandler (catalogEnv none none none) (worldOf catalogIndex)
        { userId := some "alice", filename := some "report.pdf" }).1.body
        = .deleted message
            ((catalogIndex.filter (matchesDocument "alice" "report.pdf")).filter hasId).length)
    ∧ (∀ d ∈ catalogIndex, matchesDocument "alice" "report.pdf" d = true → hasId d = true →
        d ∉ (deleteHandler (catalogEnv none none none) (worldOf catalogIndex)
          { userId := some "alice", filename := some "report.pdf" }).2.index) :=
  have h := delete_then_list (catalogEnv none none none) (worldOf catalogIndex)
    { userId := some "alice", filename := some "report.pdf" } "alice" "report.pdf" catalogIndex
    rfl rfl rfl (by decide)
  ⟨by decide, by decide, h.1, h.2.1⟩

/-! ### Isolation of the conversational memory between users -/

/-- The key of the memory object determines the user. -/
theorem key_injective (u v : String)
    (h : (ValkeyMemory.create u).key = (ValkeyMemory.create v).key) : u = v := by
  have hdata := congrArg String.data h
  simp only [ValkeyMemory.create, String.data_append] at hdata
  exact String.ext (List.append_cancel_left hdata)

/-- A `SET` or a `DEL` on one key leaves what `getHistory` reads under another
key as it was. -/
theorem getHistory_other_key (m m2 : ValkeyMemory) (s : Store) (hk : m2.key ≠ m.key)
    (value : List Turn) (ex : Nat) :
    m2.getHistory (s.set m.key value ex) = m2.getHistory s
    ∧ m2.getHistory (s.del m.key) = m2.getHistory s := by
  simp [ValkeyMemory.getHistory, Store.set, Store.del, hk]

/-- A turn of the history after one call was there before, or it is the turn
that this call added for this user. -/
theorem mem_getHistory_apply (v : String) (s : Store) (op : MemoryOp) (t : Turn)
    (h : t ∈ (ValkeyMemory.create v).getHistory (op.apply s)) :
    t ∈ (ValkeyMemory.create v).getHistory s ∨ op = .add v t.user t.bot := by
  cases op with
  | add w a b =>
    by_cases hw : w = v
    · subst hw
      simp only [MemoryOp.apply] at h
      rw [getHistory_addToHistory, pushAndTrim_eq_drop] at h
      rcases List.mem_append.1 (List.mem_of_mem_drop h) with h2 | h2
      · exact Or.inl h2
      · rw [List.mem_singleton] at h2
        subst h2
        exact Or.inr rfl
    · have hk : (ValkeyMemory.create v).key ≠ (ValkeyMemory.create w).key :=
        fun hkey => hw (key_injective v w hkey).symm
      simp only [MemoryOp.apply, ValkeyMemory.addToHistory] at h
      rw [(getHistory_other_key _ _ s hk _ _).1] at h
      exact Or.inl h
  | clear w =>
    by_cases hw : w = v
    · subst hw
      simp [MemoryOp.apply, ValkeyMemory.clear, ValkeyMemory.getHistory, Store.del] at h
    · have hk : (ValkeyMemory.create v).key ≠ (ValkeyMemory.create w).key :=
        fun hkey => hw (key_injective v w hkey).symm
      simp only [MemoryOp.apply, ValkeyMemory.clear] at h
      rw [(getHistory_other_key _ _ s hk [] 0).2] at h
      exact Or.inl h

/-- A turn of the history after a run of calls was there before the run, or a
call of the run added it for this user. -/
theorem mem_getHistory_runOps (v : String) (ops : List MemoryOp) :
    ∀ (s : Store) (t : Turn), t ∈ (ValkeyMemory.create v).getHistory (runOps s ops) →
      t ∈ (ValkeyMemory.create v).getHistory s ∨ MemoryOp.add v t.user t.bot ∈ ops := by
  induction ops with
  | nil => intro s t h; exact Or.inl h
  | cons op rest ih =>
    intro s t h
    have hstep : runOps s (op :: rest) = runOps (op.apply s) rest := rfl
    rw [hstep] at h
    rcases ih _ t h with h2 | h2
    · rcases mem_getHistory_apply v s op t h2 with h3 | h3
      · exact Or.inl h3
      · exact Or.inr (h3 ▸ List.mem_cons_self _ _)
    · exact Or.inr (List.mem_cons_of_mem _ h2)

/-- Claim C22. For two distinct user ids the memory keys are distinct;
`addToHistory` and `clear` made for the one leave the stored value and the
history of the other unchanged; and after any run of calls that starts from the
empty store, every turn `getHistory` returns for a user was appended by an
`addToHistory` call for that user. -/
theorem memory_isolated_between_users (u v : String) (huv : u ≠ v) :
    (ValkeyMemory.create u).key ≠ (ValkeyMemory.create v).key
    ∧ (∀ (s : Store) (a b : String),
        ((ValkeyMemory.create u).addToHistory s a b) (ValkeyMemory.create v).key
            = s (ValkeyMemory.create v).key
        ∧ (ValkeyMemory.create v).getHistory ((ValkeyMemory.create u).addToHistory s a b)
            = (ValkeyMemory.create v).getHistory s)
    ∧ (∀ s : Store,
        ((ValkeyMemory.create u).clear s) (ValkeyMemory.create v).key
            = s (ValkeyMemory.create v).key
        ∧ (ValkeyMemory.create v).getHistory ((ValkeyMemory.create u).clear s)
            = (ValkeyMemory.create v).getHistory s)
    ∧ (∀ (ops : List MemoryOp) (t : Turn),
        t ∈ (ValkeyMemory.create v).getHistory (runOps Store.empty ops) →
          MemoryOp.add v t.user t.bot ∈ ops) := by
  have hk : (ValkeyMemory.create u).key ≠ (ValkeyMemory.create v).key :=
    fun h => huv (key_injective u v h)
  have hk2 : (ValkeyMemory.create v).key ≠ (ValkeyMemory.create u).key := fun h => hk h.symm
  refine ⟨hk, ?_, ?_, ?_⟩
  · intro s a b
    constructor
    · simp [ValkeyMemory.addToHistory, Store.set, hk2]
    · simp only [ValkeyMemory.addToHistory]
      exact (getHistory_other_key _ _ s hk2 _ _).1
  · intro s
    constructor
    · simp [ValkeyMemory.clear, Store.del, hk2]
    · simp only [ValkeyMemory.clear]
      exact (getHistory_other_key _ _ s hk2 [] 0).2
  · intro ops t h
    rcases mem_getHistory_runOps v ops Store.empty t h with h2 | h2
    · simp [ValkeyMemory.getHistory, Store.empty] at h2
    · exact h2

/-- Claim C22, at a concrete input: `alice` and `bob` write in turn, `alice`
clears her history, and `bob` still reads his two turns. -/
theorem memory_isolated_between_users_witness :
    "alice" ≠ "bob"
    ∧ (ValkeyMemory.create "bob").getHistory
        (runOps Store.empty
          [.add "bob" "q1" "a1", .add "alice" "q2" "a2", .add "bob" "q3" "a3", .clear "alice"])
      = [{ user := "q1", bot := "a1" }, { user := "q3", bot := "a3" }]
    ∧ (ValkeyMemory.create "alice").getHistory
        (runOps Store.empty
          [.add "bob" "q1" "a1", .add "alice" "q2" "a2", .add "bob" "q3" "a3", .clear "alice"])
      = []
    ∧ (ValkeyMemory.create "alice").key ≠ (ValkeyMemory.create "bob").key
    ∧ (∀ (ops : List MemoryOp) (t : Turn),
        t ∈ (ValkeyMemory.create "bob").getHistory (runOps Store.empty ops) →
          MemoryOp.add "bob" t.user t.bot ∈ ops) :=
  have h := memory_isolated_between_users "alice" "bob" (by decide)
  ⟨by decide, by decide, by decide, h.1, h.2.2.2⟩

/-! ### Two runs of the processor and the temporary file -/

/-- The three steps of a run taken back to back leave the world that the
processor leaves, and the run has finished. -/
theorem steps_eq_processor (env : WorkerEnv) (job : Job) (w : World) :
    (JobRun.steps 3 (JobRun.init env job) w).2 = (processor env job w).1
    ∧ ∃ raised, (JobRun.steps 3 (JobRun.init env job) w).1.phase = .finished raised := by
  by_cases hname : job.name = "file-ready"
  · cases hdata : job.data with
    | none =>
      simp [JobRun.steps, JobRun.init, JobRun.step, processor, processorBody, hname, hdata, caught]
    | some data =>
      cases huser : truthy data.userId with
      | none =>
        simp [JobRun.steps, JobRun.init, JobRun.step, processor, processorBody, hname, hdata,
          huser, caught]
      | some userId =>
        cases hget : env.axiosGet data.path with
        | error e =>
          simp [JobRun.steps, JobRun.init, JobRun.step, processor, processorBody, hname, hdata,
            huser, hget, caught]
        | ok bytes =>
          have hfile : (writeFileSync w (tempFilePath env) bytes).files (tempFilePath env)
              = some bytes := by simp [writeFileSync]
          cases hload : env.load bytes with
          | error e =>
            simp [JobRun.steps, JobRun.init, JobRun.step, processor, processorBody, hname, hdata,
              huser, hget, readAndSplit, hfile, hload, caught, writeFileSync]
          | ok docs =>
            by_cases h0 : docs.length = 0
            · simp [JobRun.steps, JobRun.init, JobRun.step, processor, processorBody, hname,
                hdata, huser, hget, readAndSplit, hfile, hload, caught, writeFileSync, h0]
            · by_cases h1 : (splitDocs env data userId docs).length = 0
              · simp [JobRun.steps, JobRun.init, JobRun.step, processor, processorBody, hname,
                  hdata, huser, hget, readAndSplit, hfile, hload, caught, writeFileSync, h0, h1]
              · cases hadd : env.addDocuments (splitDocs env data userId docs) with
                | ok u =>
                  simp [JobRun.steps, JobRun.init, JobRun.step, processor, processorBody, hname,
                    hdata, huser, hget, readAndSplit, hfile, hload, caught, writeFileSync, h0, h1,
                    upsert, hadd, unlinkSync]
                | error e =>
                  cases hfrom : env.fromDocuments (splitDocs env data userId docs) with
                  | ok u =>
                    simp [JobRun.steps, JobRun.init, JobRun.step, processor, processorBody, hname,
                      hdata, huser, hget, readAndSplit, hfile, hload, caught, writeFileSync, h0,
                      h1, upsert, hadd, hfrom, unlinkSync]
                  | error e2 =>
                    simp [JobRun.steps, JobRun.init, JobRun.step, processor, processorBody, hname,
                      hdata, huser, hget, readAndSplit, hfile, hload, caught, writeFileSync, h0,
                      h1, upsert, hadd, hfrom]
  · simp [JobRun.steps, JobRun.init, JobRun.step, processor, processorBody, hname]

/-- The temporary path depends on the temporary directory and the clock reading
only. -/
theorem tempFilePath_eq (envA envB : WorkerEnv) (hnow : envA.now = envB.now)
    (htmp : envA.tmpdir = envB.tmpdir) : tempFilePath envA = tempFilePath envB := by
  simp only [tempFilePath, hnow, htmp]

/-- Claim C21, where the code departs from it: the temporary path is built from
`Date.now()` alone, so two runs that reach the download step within the same
millisecond get the same path, whatever their jobs. When the second run writes
its download after the first one did and before the first one loads, the file of
the first run is overwritten, and the first run reads and splits the content
downloaded by the second. -/
theorem same_millisecond_same_path (envA envB : WorkerEnv) (jobA jobB : Job)
    (dataA dataB : JobData) (userA userB : String) (bytesA bytesB : Bytes) (w : World)
    (hnow : envA.now = envB.now) (htmp : envA.tmpdir = envB.tmpdir)
    (hnameA : jobA.name = "file-ready") (hdataA : jobA.data = some dataA)
    (huserA : truthy dataA.userId = some userA) (hgetA : envA.axiosGet dataA.path = .ok bytesA)
    (hnameB : jobB.name = "file-ready") (hdataB : jobB.data = some dataB)
    (huserB : truthy dataB.userId = some userB) (hgetB : envB.axiosGet dataB.path = .ok bytesB) :
    tempFilePath envA = tempFilePath envB
    ∧ (Duo.run { first := JobRun.init envA jobA, second := JobRun.init envB jobB, world := w }
        [false]).world.files (tempFilePath envA) = some bytesA
    ∧ (Duo.run { first := JobRun.init envA jobA, second := JobRun.init envB jobB, world := w }
        [false, true]).world.files (tempFilePath envA) = some bytesB
    ∧ (Duo.run { first := JobRun.init envA jobA, second := JobRun.init envB jobB, world := w }
        [false, true, false]).first.phase
      = (match readAndSplit envA dataA userA (some bytesB) with
          | .ok chunks => RunPhase.loaded dataA userA chunks
          | .error e => RunPhase.finished (some e)) := by
  have hpath := tempFilePath_eq envA envB hnow htmp
  refine ⟨hpath, ?_, ?_, ?_⟩
  · simp [Duo.run, JobRun.init, JobRun.step, hnameA, hdataA, huserA, hgetA, writeFileSync]
  · simp [Duo.run, JobRun.init, JobRun.step, hnameA, hdataA, huserA, hgetA, hnameB, hdataB,
      huserB, hgetB, writeFileSync, hpath]
  · simp only [Duo.run, JobRun.init, JobRun.step, hnameA, hdataA, huserA, hgetA, hnameB, hdataB,
      huserB, hgetB, writeFileSync, hpath, if_true]
    cases readAndSplit envA dataA userA (some bytesB) <;> rfl

/-- Claim C21, at a concrete input: the jobs of `alice` and `bob` reach the
download step in the same millisecond and their steps alternate. Both get the
path `/tmp/downloaded-1746000000000.pdf`; the run of `alice` indexes the payroll of
`bob` under her user id; and the run that finishes last finds the file already
deleted by the other. -/
theorem same_millisecond_same_path_witness :
    tempFilePath sameMillisecond.first.env = "/tmp/downloaded-1746000000000.pdf"
    ∧ tempFilePath sameMillisecond.second.env = "/tmp/downloaded-1746000000000.pdf"
    ∧ (sameMillisecond.run [false, true, false, true, false, true]).world.index.map
        (fun d => (d.pageContent, d.metadata.bind fun md => md.userId))
      = [("payroll of bob", some "alice"), ("payroll of bob", some "bob")]
    ∧ (sameMillisecond.run [false, true, false, true, false, true]).world.errors
      = ["Worker job failed: ENOENT: no such file or directory, unlink /tmp/downloaded-1746000000000.pdf"]
    ∧ (sameMillisecond.run [false, true]).world.files
        (tempFilePath (timedWorker "a" [37, 80, 68, 70, 1])) = some [37, 80, 68, 70, 2]
    ∧ (sameMillisecond.run [false, true, false]).first.phase
      = (match readAndSplit (timedWorker "a" [37, 80, 68, 70, 1]) aliceData "alice"
            (some [37, 80, 68, 70, 2]) with
          | .ok chunks => RunPhase.loaded aliceData "alice" chunks
          | .error e => RunPhase.finished (some e)) :=
  have h := same_millisecond_same_path (timedWorker "a" [37, 80, 68, 70, 1])
    (timedWorker "b" [37, 80, 68, 70, 2]) aliceJob bobJob aliceData bobData "alice" "bob"
    [37, 80, 68, 70, 1] [37, 80, 68, 70, 2] World.empty rfl rfl rfl rfl rfl rfl rfl rfl rfl rfl
  ⟨by decide, by decide, by decide, by decide, h.2.2.1, h.2.2.2⟩

end DocuMind
